import Mathlib

/-!
# CoreDNS forward plugin: `Transport.Dial` and `Proxy.Connect`

A shallow embedding of `plugin/forward/connect.go`.

* Go's `int64` / `time.Duration` values are integers; every arithmetic
  result is reduced to the signed 64-bit range by `wrapInt64`.
* Everything the two functions obtain from outside (the answer of the
  connection manager on the `ret` channel, the outcome of the network dial,
  the clock, `dns.Id()`, the outcomes of `WriteMsg` / `ReadMsg`) is an
  explicit input, collected in `World`.
* Every effect on a collaborator (channel send, network dial, deadline,
  write, read, close, yield, metric) is appended to a trace of `Event`s.
* The unbounded `for` loop that reads replies is driven by a fuel
  counter; running out of fuel is reported as `Status.running`.

The embeddings of `plugin/etcd/msg/type.go`, `plugin/rewrite/class.go` and
`plugin/template/template.go` follow in namespaces of their own; all
definitions come first, the properties after them.
-/

namespace forward

/-! ## Machine integers -/

/-- Reduction of an integer to the signed 64-bit range, as Go's `int64`
arithmetic does on overflow. -/
def wrapInt64 (x : Int) : Int := (x + 2 ^ 63) % 2 ^ 64 - 2 ^ 63

/-- Conversion `uint16(x)` of a Go `int`. -/
def toUint16 (x : Int) : Nat := (x % 65536).toNat

/-! ## Timeout helpers (connect.go, lines 19-44) -/

/-- Go `limitTimeout`: `rt` is the loaded value of `*currentAvg`. -/
def limitTimeout (currentAvg : Int) (minValue maxValue : Int) : Int :=
  let rt := currentAvg
  if rt < minValue then minValue
  else if rt < Int.tdiv maxValue 2 then wrapInt64 (2 * rt)
  else maxValue

/-- Go `averageTimeout`: the value stored in `*currentAvg` after the call.
The subtraction and the atomic addition wrap, the quotient truncates
toward zero. -/
def averageTimeout (currentAvg : Int) (observedDuration : Int) (weight : Int) : Int :=
  let dt := currentAvg
  wrapInt64 (currentAvg + Int.tdiv (wrapInt64 (observedDuration - dt)) weight)

/-- Go constant `cumulativeAvgWeight`. -/
def cumulativeAvgWeight : Int := 4

/-! ## Data model -/

/-- Errors produced by the network and by the wire codec (`net`, `dns`):
`io.EOF` or any other error, told apart by a code. These packages cannot
produce the forward package's own sentinel `ErrCachedClosed`. -/
inductive IOError where
  | EOF
  | other (code : Nat)
  deriving DecidableEq, Repr

/-- Go `error` values returned by `Dial` and `Connect`. -/
inductive error where
  | ErrCachedClosed
  | io (e : IOError)
  deriving DecidableEq, Repr

/-- The part of `dns.Msg` that `Connect` touches: the transaction ID and
the response code; everything else is carried in `body`. -/
structure Msg where
  Id : Nat
  Rcode : Int
  body : List Nat
  deriving DecidableEq, Repr

/-- Go `*dns.Conn`: `id` identifies the underlying network connection. -/
structure Conn where
  id : Nat
  UDPSize : Nat
  deriving DecidableEq, Repr

/-- Go `persistConn`; the pointer `c` may be nil. -/
structure persistConn where
  c : Option Conn
  deriving DecidableEq, Repr

/-- Handle of a `*tls.Config`. -/
abbrev TLSConfig := Nat

/-- Package-level duration constants that connect.go uses and that are
declared in other files of the package. -/
structure Consts where
  minDialTimeout : Int
  maxDialTimeout : Int
  maxTimeout : Int
  readTimeout : Int
  deriving DecidableEq, Repr

/-- Modelled from the spec: the health state of a Transport, "an
externally-driven healthy/unhealthy flag" set by the prober. The
declaration of the `Transport` struct is outside connect.go, which names no
such field. -/
inductive Health where
  | healthy
  | unhealthy
  deriving DecidableEq, Repr

/-- Go `Transport`, the fields connect.go reads or writes, and the health
flag that the specification attributes to a transport. -/
structure Transport where
  addr : String
  tlsConfig : Option TLSConfig
  avgDialTime : Int
  health : Health := Health.healthy
  deriving DecidableEq, Repr

/-- Go `Proxy`. -/
structure Proxy where
  addr : String
  transport : Transport
  deriving DecidableEq, Repr

/-- Go `options`. -/
structure options where
  forceTCP : Bool
  preferUDP : Bool
  deriving DecidableEq, Repr

/-- Go `request.Request` as seen by `Connect`: the message `Req` and the
results of the methods `Proto()` and `Size()`. -/
structure Request where
  Req : Msg
  Proto : String
  Size : Int
  deriving DecidableEq, Repr

/-- Outcome of one `pc.c.ReadMsg()`: a message with a nil error, or an
error together with a possibly nil, partially decoded message. -/
inductive ReadResult where
  | ok (m : Msg)
  | fail (decoded : Option Msg) (e : IOError)
  deriving DecidableEq, Repr

/-- Outcome of `dns.DialTimeout` / `dns.DialTimeoutWithTLS`. -/
inductive DialOutcome where
  | ok (c : Conn)
  | fail (e : IOError)
  deriving DecidableEq, Repr

/-- Everything `Dial` and `Connect` receive from their collaborators
during one call. -/
structure World where
  -- value received on t.ret after the send on t.dial
  ret : Option persistConn
  -- result of the network dial, should one be made
  dialOutcome : DialOutcome
  -- value of time.Since(reqTime) after the network dial
  dialElapsed : Int
  -- value returned by dns.Id()
  newId : Nat
  -- error returned by pc.c.WriteMsg, nil when the write succeeds
  writeErr : Option IOError
  -- results of the successive calls of pc.c.ReadMsg
  reads : Nat → ReadResult

/-- Effects of `Dial` and `Connect` on their collaborators, in program
order. -/
inductive Event where
  -- invocation t.Dial(proto), with the caller's argument
  | Dial (proto : String)
  -- send t.dial <- proto followed by the receive on t.ret
  | dialChan (proto : String)
  | ConnCacheHitsCount (addr proto : String)
  | ConnCacheMissesCount (addr proto : String)
  | DialTimeoutWithTLS (network addr : String) (tlsConfig : Option TLSConfig) (timeout : Int)
  | DialTimeout (network addr : String) (timeout : Int)
  | SetWriteDeadline (conn : Nat) (d : Int)
  | WriteMsg (conn : Conn) (m : Msg)
  | SetReadDeadline (conn : Nat) (d : Int)
  | ReadMsg (conn : Nat)
  | Close (conn : Nat)
  | Yield (pc : persistConn)
  | RequestCount (addr : String)
  | RcodeCount (rcode : Int) (addr : String)
  | RequestDuration (addr : String) (rcode : Int)
  deriving DecidableEq, Repr

/-! ## Transport.Dial (connect.go, lines 38-72) -/

/-- Go `(*Transport).dialTimeout`. -/
def Transport.dialTimeout (k : Consts) (t : Transport) : Int :=
  limitTimeout t.avgDialTime k.minDialTimeout k.maxDialTimeout

/-- Go `(*Transport).updateDialTimeout`. -/
def Transport.updateDialTimeout (t : Transport) (newDialTime : Int) : Transport :=
  { t with avgDialTime := averageTimeout t.avgDialTime newDialTime cumulativeAvgWeight }

/-- Return values of `Dial` with the transport after the call and the
effects performed; `pc` is the returned `*persistConn`, `none` for a nil
pointer. -/
structure DialResult where
  pc : Option persistConn
  cached : Bool
  err : Option error
  transport : Transport
  trace : List Event
  deriving DecidableEq, Repr

/-- The `conn, err` pair of a network dial: a nil connection with the
error, or the connection with a nil error. -/
def DialOutcome.conn : DialOutcome → Option Conn
  | .ok c => some c
  | .fail _ => none

/-- The error half of a network dial result. -/
def DialOutcome.err : DialOutcome → Option error
  | .ok _ => none
  | .fail e => some (error.io e)

/-- Go `(*Transport).Dial`. -/
def Transport.Dial (k : Consts) (t : Transport) (proto : String) (w : World) : DialResult :=
  let call := Event.Dial proto
  let proto := if t.tlsConfig.isSome then "tcp-tls" else proto
  let tr := [call, Event.dialChan proto]
  match w.ret with
  | some pc =>
    { pc := some pc, cached := true, err := none, transport := t,
      trace := tr ++ [Event.ConnCacheHitsCount t.addr proto] }
  | none =>
    let tr := tr ++ [Event.ConnCacheMissesCount t.addr proto]
    let timeout := t.dialTimeout k
    if proto = "tcp-tls" then
      { pc := some { c := w.dialOutcome.conn }, cached := false, err := w.dialOutcome.err,
        transport := t.updateDialTimeout w.dialElapsed,
        trace := tr ++ [Event.DialTimeoutWithTLS "tcp" t.addr t.tlsConfig timeout] }
    else
      { pc := some { c := w.dialOutcome.conn }, cached := false, err := w.dialOutcome.err,
        transport := t.updateDialTimeout w.dialElapsed,
        trace := tr ++ [Event.DialTimeout proto t.addr timeout] }

/-! ## Proxy.Connect (connect.go, lines 74-150) -/

/-- How the reply loop of `Connect` ends, with the number of `ReadMsg`
calls made: `break` on a reply with the expected ID, `return` on a read
error, or still looping when the fuel is spent. -/
inductive LoopExit where
  | matched (ret : Msg) (n : Nat)
  | failed (ret : Option Msg) (err : IOError) (n : Nat)
  | running (n : Nat)
  deriving DecidableEq, Repr

/-- The `for` loop of `Connect` (lines 117-134): `reqId` is `state.Req.Id`
during the loop, `i` the number of reads already made. -/
def readLoop (reads : Nat → ReadResult) (reqId : Nat) : Nat → Nat → LoopExit
  | 0, i => .running i
  | fuel + 1, i =>
    match reads i with
    | .fail ret err => .failed ret err (i + 1)
    | .ok ret => if reqId = ret.Id then .matched ret (i + 1) else readLoop reads reqId fuel (i + 1)

/-- Whether a call came back: `returned` normally, `panicked` on a nil
pointer dereference, `running` when the fuel ran out inside the loop. -/
inductive Status where
  | returned
  | panicked
  | running
  deriving DecidableEq, Repr

/-- Return values of `Connect` together with the request message and the
transport as the call leaves them, and the effects performed. -/
structure ConnectResult where
  status : Status
  ret : Option Msg
  err : Option error
  Req : Msg
  transport : Transport
  trace : List Event
  deriving DecidableEq, Repr

/-- The protocol switch at the head of `Connect` (lines 78-86). -/
def selectProto (state : Request) (opts : options) : String :=
  if opts.forceTCP then "tcp"
  else if opts.preferUDP then "udp"
  else state.Proto

/-- Go `(*Proxy).Connect`. The metric labels built from `ret.Rcode` are
recorded by the response code itself. -/
def Proxy.Connect (k : Consts) (fuel : Nat) (p : Proxy) (state : Request) (opts : options)
    (w : World) : ConnectResult :=
  let proto := selectProto state opts
  let d := p.transport.Dial k proto w
  match d.err with
  | some err =>
    { status := .returned, ret := none, err := some err, Req := state.Req,
      transport := d.transport, trace := d.trace }
  | none =>
  match d.pc.bind persistConn.c with
  | none =>
    { status := .panicked, ret := none, err := none, Req := state.Req,
      transport := d.transport, trace := d.trace }
  | some c0 =>
    let size := toUint16 state.Size
    let c : Conn := { c0 with UDPSize := if size < 512 then 512 else size }
    let pc : persistConn := { c := some c }
    let tr := d.trace ++ [Event.SetWriteDeadline c.id k.maxTimeout]
    let originId := state.Req.Id
    let req : Msg := { state.Req with Id := w.newId }
    -- the deferred function: state.Req.Id = originId
    let deferred : Msg := { req with Id := originId }
    let tr := tr ++ [Event.WriteMsg c req]
    match w.writeErr with
    | some err =>
      let tr := tr ++ [Event.Close c.id]
      if err = IOError.EOF ∧ d.cached = true then
        { status := .returned, ret := none, err := some error.ErrCachedClosed, Req := deferred,
          transport := d.transport, trace := tr }
      else
        { status := .returned, ret := none, err := some (error.io err), Req := deferred,
          transport := d.transport, trace := tr }
    | none =>
      let tr := tr ++ [Event.SetReadDeadline c.id k.readTimeout]
      match readLoop w.reads req.Id fuel 0 with
      | .running n =>
        { status := .running, ret := none, err := none, Req := req,
          transport := d.transport, trace := tr ++ List.replicate n (Event.ReadMsg c.id) }
      | .failed ret err n =>
        let tr := tr ++ List.replicate n (Event.ReadMsg c.id) ++ [Event.Close c.id]
        if err = IOError.EOF ∧ d.cached = true then
          { status := .returned, ret := none, err := some error.ErrCachedClosed, Req := deferred,
            transport := d.transport, trace := tr }
        else
          { status := .returned, ret := ret.map (fun m => { m with Id := originId }),
            err := some (error.io err), Req := deferred,
            transport := d.transport, trace := tr }
      | .matched ret n =>
        let tr := tr ++ List.replicate n (Event.ReadMsg c.id)
        let ret : Msg := { ret with Id := originId }
        { status := .returned, ret := some ret, err := none, Req := deferred,
          transport := d.transport,
          trace := tr ++ [Event.Yield pc, Event.RequestCount p.addr,
            Event.RcodeCount ret.Rcode p.addr, Event.RequestDuration p.addr ret.Rcode] }

/-! ## Observations on traces and worlds, used to state properties -/

/-- The message of a `WriteMsg` effect. -/
def Event.written? : Event → Option Msg
  | .WriteMsg _ m => some m
  | _ => none

/-- The connection of a `Yield` effect. -/
def Event.yielded? : Event → Option persistConn
  | .Yield pc => some pc
  | _ => none

/-- The connection of a `Close` effect. -/
def Event.closed? : Event → Option Nat
  | .Close c => some c
  | _ => none

/-- The connection of a `ReadMsg` effect. -/
def Event.read? : Event → Option Nat
  | .ReadMsg c => some c
  | _ => none

/-- The timeout of a network dial, with or without TLS. -/
def Event.netDial? : Event → Option Int
  | .DialTimeoutWithTLS _ _ _ timeout => some timeout
  | .DialTimeout _ _ timeout => some timeout
  | _ => none

/-- Messages written to the upstream, in order. -/
def written (tr : List Event) : List Msg := tr.filterMap Event.written?

/-- Connections handed to `Transport.Yield`, in order. -/
def yielded (tr : List Event) : List persistConn := tr.filterMap Event.yielded?

/-- Connections closed, in order. -/
def closed (tr : List Event) : List Nat := tr.filterMap Event.closed?

/-- Connections read from, one entry per `ReadMsg` call. -/
def readsOf (tr : List Event) : List Nat := tr.filterMap Event.read?

/-- Timeouts of the network dials made, in order. -/
def netDials (tr : List Event) : List Int := tr.filterMap Event.netDial?

/-- The first `n` reads all deliver a reply whose ID is not the rewritten
outgoing ID. -/
def World.dropped (w : World) (n : Nat) : Prop :=
  ∀ j, j < n → ∃ m, w.reads j = .ok m ∧ m.Id ≠ w.newId

/-- The write succeeds, the first `n` reads deliver replies with other IDs
and the next read fails with `e`. -/
def World.readFails (w : World) (n : Nat) (e : IOError) : Prop :=
  w.writeErr = none ∧ w.dropped n ∧ ∃ ret, w.reads n = .fail ret e

/-- The write fails with `e`, or some read that `Connect` reaches within
`fuel` reads does. -/
def World.ioFails (w : World) (fuel : Nat) (e : IOError) : Prop :=
  w.writeErr = some e ∨ ∃ n, n < fuel ∧ w.readFails n e

/-- The connection as `Connect` configures it (lines 94-97): the UDP
buffer size is the client's size, at least 512. -/
def Conn.sized (c : Conn) (state : Request) : Conn :=
  { c with UDPSize := if toUint16 state.Size < 512 then 512 else toUint16 state.Size }

/-- The read with index `n` ends the loop: it fails, or it delivers a
reply with the rewritten outgoing ID. -/
def World.stopsAt (w : World) (n : Nat) : Prop :=
  (∃ ret e, w.reads n = .fail ret e) ∨ ∃ m, w.reads n = .ok m ∧ m.Id = w.newId

/-- The argument of a recorded call of `Dial`. -/
def Event.dialCall? : Event → Option String
  | .Dial proto => some proto
  | _ => none

/-- The protocol of a request sent on the dial channel. -/
def Event.dialChan? : Event → Option String
  | .dialChan proto => some proto
  | _ => none

/-- The connection, as configured when it is written to, of a `WriteMsg`
effect. -/
def Event.writeConn? : Event → Option Conn
  | .WriteMsg c _ => some c
  | _ => none

/-- Arguments of the calls of `Dial`, in order. -/
def dialCalls (tr : List Event) : List String := tr.filterMap Event.dialCall?

/-- Protocols requested from the connection manager, in order. -/
def dialChans (tr : List Event) : List String := tr.filterMap Event.dialChan?

/-- Connections written to, one entry per `WriteMsg` call. -/
def writeConns (tr : List Event) : List Conn := tr.filterMap Event.writeConn?

/-! ## Reference definitions of the timeout helpers -/

/-- Reference definition of `limitTimeout` in the words of the
specification, over the integers: "if avg < min, return min; if
avg < max/2, return 2*avg; otherwise return max", the halving being the
integer quotient truncated toward zero. -/
def limitTimeoutRef (avg min max : Int) : Int :=
  if avg < min then min
  else if avg < Int.tdiv max 2 then 2 * avg
  else max

/-- Reference definition of `averageTimeout` in the words of the
specification, over the integers: "avg += (observed - avg) / weight", the
quotient truncated toward zero. -/
def averageTimeoutRef (avg observed weight : Int) : Int :=
  avg + Int.tdiv (observed - avg) weight

/-- Membership in the range of Go's `int64`. -/
def inInt64 (x : Int) : Prop := -2 ^ 63 ≤ x ∧ x < 2 ^ 63

/-! ## The connection cache -/

/-- Modelled from the spec: the connection cache of a Transport, owned by
its manager goroutine, which together with `Yield` lives in a file outside
connect.go: a "protocol→cached-connection mapping" with "only one
connection cached per protocol". -/
def ConnCache := String → Option persistConn

/-- Modelled from the spec: the cache of a new Transport holds nothing. -/
def ConnCache.empty : ConnCache := fun _ => none

/-- Modelled from the spec: `Yield(connection)` "returns a connection to
the cache for the protocol it was opened with, overwriting whatever was
previously cached for that slot". -/
def ConnCache.Yield (conns : ConnCache) (proto : String) (pc : persistConn) : ConnCache :=
  fun q => if q = proto then some pc else conns q

/-- Modelled from the spec: the manager's answer to a request on the dial
channel, "if a cached connection for that protocol is available, it is
removed from the cache and returned", with the cache it leaves. -/
def ConnCache.take (conns : ConnCache) (proto : String) : Option persistConn × ConnCache :=
  (conns proto, fun q => if q = proto then none else conns q)

/-- The protocol `Dial` sends on the dial channel (lines 49-53). -/
def Transport.dialProto (t : Transport) (proto : String) : String :=
  if t.tlsConfig.isSome then "tcp-tls" else proto

/-- A Transport with the cache its manager owns. -/
structure Pooled where
  t : Transport
  conns : ConnCache

/-- The call `t.Dial(proto)` served by the manager: the value received on
`t.ret` is what the cache holds for the protocol sent on `t.dial`. -/
def Pooled.Dial (k : Consts) (s : Pooled) (proto : String) (w : World) : DialResult × Pooled :=
  let a := s.conns.take (s.t.dialProto proto)
  let d := s.t.Dial k proto { w with ret := a.1 }
  (d, { t := d.transport, conns := a.2 })

/-- The call `t.Yield(pc)` for a connection opened with protocol `proto`. -/
def Pooled.Yield (s : Pooled) (proto : String) (pc : persistConn) : Pooled :=
  { s with conns := s.conns.Yield proto pc }

/-- A call made on a Transport by one of its users. -/
inductive PoolOp where
  | Dial (proto : String) (w : World)
  | Yield (proto : String) (pc : persistConn)

/-- The effect of one call on the transport and its cache. -/
def Pooled.step (k : Consts) (s : Pooled) : PoolOp → Pooled
  | .Dial proto w => (s.Dial k proto w).2
  | .Yield proto pc => s.Yield proto pc

/-- The effect of a sequence of calls. -/
def Pooled.run (k : Consts) (s : Pooled) : List PoolOp → Pooled
  | [] => s
  | op :: ops => (s.step k op).run k ops

/-- The cache slot a call works on: the protocol a Dial asks the cache
for, the protocol of the connection a Yield returns. -/
def PoolOp.slot (t : Transport) : PoolOp → String
  | .Dial proto _ => t.dialProto proto
  | .Yield proto _ => proto

/-- The call is a Yield of connection `pc`. -/
def PoolOp.yields (pc : persistConn) : PoolOp → Prop
  | .Dial _ _ => False
  | .Yield _ pc1 => pc1 = pc

/-- The cache holds connection `pc` in some slot. -/
def Pooled.holds (s : Pooled) (pc : persistConn) : Prop := ∃ q, s.conns q = some pc

/-! ## Example data -/

/-- Example values for the duration constants, in nanoseconds: 1s and
30s for the dial timeout bounds, 2s for the write and read deadlines. -/
def exConsts : Consts :=
  { minDialTimeout := 1000000000, maxDialTimeout := 30000000000,
    maxTimeout := 2000000000, readTimeout := 2000000000 }

/-- Transport for `127.0.0.1:5300` without TLS. -/
def exTransport : Transport := { addr := "127.0.0.1:5300", tlsConfig := none, avgDialTime := 0 }

/-- Proxy for `127.0.0.1:5300`. -/
def exProxy : Proxy := { addr := "127.0.0.1:5300", transport := exTransport }

/-- Query with ID 0x1234 received over UDP. -/
def exRequest : Request := { Req := { Id := 0x1234, Rcode := 0, body := [1] }, Proto := "udp", Size := 512 }

/-- World of the example scenario: empty cache, the dial succeeds, the
ID is rewritten to 0xABCD, the upstream answers with that ID. -/
def exWorld : World :=
  { ret := none, dialOutcome := .ok { id := 7, UDPSize := 0 }, dialElapsed := 4000000,
    newId := 0xABCD, writeErr := none,
    reads := fun _ => .ok { Id := 0xABCD, Rcode := 0, body := [1, 2] } }

/-- Reply with an ID of another query. -/
def exStale : Msg := { Id := 0x0042, Rcode := 0, body := [9] }

/-- Reply with the rewritten ID 0xABCD. -/
def exReply : Msg := { Id := 0xABCD, Rcode := 0, body := [1, 2] }

/-- World in which the stale reply arrives before the expected one. -/
def exWorldStaleFirst : World :=
  { exWorld with reads := fun i => if i = 0 then .ok exStale else .ok exReply }

/-- World in which the expected reply arrives before the stale one. -/
def exWorldStaleLast : World :=
  { exWorld with reads := fun i => if i = 0 then .ok exReply else .ok exStale }

/-- World in which the first read fails with a non-EOF error after
decoding part of a reply. -/
def exWorldReadError : World :=
  { exWorld with reads := fun _ => .fail (some exReply) (.other 1) }

/-- World in which a cached connection is handed out and the write hits
end-of-file. -/
def exWorldCachedEOF : World :=
  { exWorld with ret := some { c := some { id := 3, UDPSize := 512 } }, writeErr := some .EOF }

/-- World in which `dns.Id()` draws the very ID of the client's query. -/
def exWorldSameId : World :=
  { exWorld with newId := 0x1234, reads := fun _ => .ok { Id := 0x1234, Rcode := 0, body := [1, 2] } }

/-- Transport for `127.0.0.1:5300` with a TLS configuration. -/
def exTransportTLS : Transport := { addr := "127.0.0.1:5300", tlsConfig := some 1, avgDialTime := 0 }

/-- World in which the connection manager hands out connection 3. -/
def exWorldCached : World :=
  { exWorld with ret := some { c := some { id := 3, UDPSize := 512 } } }

/-- Transport whose upstream is flagged unhealthy. -/
def exTransportUnhealthy : Transport :=
  { addr := "127.0.0.1:5300", tlsConfig := none, avgDialTime := 0, health := Health.unhealthy }

/-- World in which the cache is empty and the network dial is refused. -/
def exWorldDialFail : World := { exWorld with dialOutcome := .fail (.other 111) }

/-- Cached connection 3. -/
def exConn3 : persistConn := { c := some { id := 3, UDPSize := 512 } }

/-- The example transport with an empty cache. -/
def exPooled : Pooled := { t := exTransport, conns := ConnCache.empty }

end forward

/-! # The DNS library types used by the other plugins

The plugins below use `github.com/horahoradev/dns`, a library outside the
repository. The part of its data model they touch is given here. -/

namespace dns

/-- Record type `TypeNone`. -/
def TypeNone : Nat := 0

/-- Record type `TypeA`. -/
def TypeA : Nat := 1

/-- Record type `TypeCNAME`. -/
def TypeCNAME : Nat := 5

/-- Record type `TypeTXT`. -/
def TypeTXT : Nat := 16

/-- Record type `TypeAAAA`. -/
def TypeAAAA : Nat := 28

/-- Record type `TypeOPT`, the EDNS0 pseudo-record. -/
def TypeOPT : Nat := 41

/-- Query type `TypeANY`. -/
def TypeANY : Nat := 255

/-- Query class `ClassANY`. -/
def ClassANY : Nat := 255

/-- Response code `RcodeSuccess`. -/
def RcodeSuccess : Int := 0

/-- Response code `RcodeServerFailure`. -/
def RcodeServerFailure : Int := 2

/-- Opcode `OpcodeQuery`. -/
def OpcodeQuery : Nat := 0

/-- Go `dns.Question`. -/
structure Question where
  Name : String
  Qtype : Nat
  Qclass : Nat
  deriving DecidableEq, Repr

/-- Go `dns.EDNS0_EDE`, the extended DNS error option. -/
structure EDNS0_EDE where
  InfoCode : Nat
  ExtraText : String
  deriving DecidableEq, Repr

/-- A resource record: the header fields, the record data in text form
(for a CNAME record its target) and, for the OPT pseudo-record, its
options. -/
structure RR where
  Name : String
  Rrtype : Nat
  Class : Nat
  Ttl : Nat
  Rdata : String
  Option : List EDNS0_EDE
  deriving DecidableEq, Repr

/-- Go `dns.Msg`, header flags and sections. A section is a slice of the
interface type `dns.RR`, whose values may be nil: an entry is `none` for a
nil record. -/
structure Msg where
  Id : Nat
  Response : Bool
  Opcode : Nat
  Authoritative : Bool
  Truncated : Bool
  RecursionDesired : Bool
  CheckingDisabled : Bool
  Rcode : Int
  Question : List Question
  Answer : List (Option RR)
  Ns : List (Option RR)
  Extra : List (Option RR)
  deriving DecidableEq, Repr

/-- The value of `new(dns.Msg)`. -/
def Msg.new : Msg :=
  { Id := 0, Response := false, Opcode := 0, Authoritative := false, Truncated := false,
    RecursionDesired := false, CheckingDisabled := false, Rcode := 0,
    Question := [], Answer := [], Ns := [], Extra := [] }

/-- Library method `(*Msg).SetReply`: the message becomes a reply to
`request`. -/
def Msg.SetReply (m : Msg) (request : Msg) : Msg :=
  let m := { m with Id := request.Id, Response := true, Opcode := request.Opcode }
  let m := if m.Opcode = OpcodeQuery then
      { m with RecursionDesired := request.RecursionDesired,
               CheckingDisabled := request.CheckingDisabled }
    else m
  let m := { m with Rcode := RcodeSuccess }
  match request.Question with
  | [] => m
  | q :: _ => { m with Question := [q] }

/-- Library method `(*Msg).SetEdns0`: an OPT record for the root name with
the UDP size in its class field and, with `do_`, the DO bit in its TTL
field is appended to the additional section. -/
def Msg.SetEdns0 (m : Msg) (udpsize : Nat) (do_ : Bool) : Msg :=
  let e : RR := { Name := ".", Rrtype := TypeOPT, Class := udpsize,
                  Ttl := if do_ then 32768 else 0, Rdata := "", Option := [] }
  { m with Extra := m.Extra ++ [some e] }

/-- Position of the record `(*Msg).IsEdns0` returns: the last record of
type OPT in the additional section, searched from the end, `some none`
when there is no such record. The search calls `Header()` on every entry
it passes, which panics on a nil record: the result is then `none`. -/
def IsEdns0Index : List (Option RR) → Option (Option Nat)
  | [] => some none
  | rr :: rest =>
    match IsEdns0Index rest with
    | none => none
    | some (some i) => some (some (i + 1))
    | some none =>
      match rr with
      | none => none
      | some rec => if rec.Rrtype = TypeOPT then some (some 0) else some none

/-- Library method `(*Msg).IsEdns0`: the OPT record of the message, nil
(`some none`) when there is none; `none` when the search panics. -/
def Msg.IsEdns0 (m : Msg) : Option (Option RR) :=
  match IsEdns0Index m.Extra with
  | none => none
  | some none => some none
  | some (some i) =>
    match m.Extra[i]? with
    | some (some opt) => some (some opt)
    | _ => none

end dns

/-! # etcd message type: `Service.HostType` (plugin/etcd/msg/type.go) -/

namespace msg

/-- Go `net.IP`, a slice of bytes. -/
abbrev IP := List Nat

/-- Standard library method `net.IP.To4`: the 4-byte form of an IPv4
address given in 4 bytes or as a 16-byte IPv4-mapped address, else nil. -/
def To4 (ip : IP) : Option IP :=
  if ip.length = 4 then some ip
  else if ip.length = 16 ∧ ip.take 12 = [0, 0, 0, 0, 0, 0, 0, 0, 0, 0, 255, 255] then
    some (ip.drop 12)
  else none

/-- Standard library method `net.IP.To16`: the 16-byte form of an address
given in 4 or 16 bytes, else nil. -/
def To16 (ip : IP) : Option IP :=
  if ip.length = 4 then some ([0, 0, 0, 0, 0, 0, 0, 0, 0, 0, 255, 255] ++ ip)
  else if ip.length = 16 then some ip
  else none

/-- Go `Service`, the fields `HostType` reads. -/
structure Service where
  Host : String
  Text : String
  deriving DecidableEq, Repr

/-- Go `(*Service).HostType`; `ParseIP` is the standard library function
`net.ParseIP`. A Go string has length zero exactly when it has no
character. -/
def Service.HostType (ParseIP : String → Option IP) (s : Service) : Nat × Option IP :=
  match ParseIP s.Host with
  | none =>
    if s.Text.length = 0 then (dns.TypeCNAME, none)
    else (dns.TypeTXT, none)
  | some ip =>
    if (To4 ip).isSome then (dns.TypeA, To4 ip)
    else if (To4 ip).isNone then (dns.TypeAAAA, To16 ip)
    else (dns.TypeNone, none)

/-- A parser for the examples: two dotted quads and one IPv6 text. -/
def exParseIP (host : String) : Option IP :=
  if host = "10.0.0.1" then some [0, 0, 0, 0, 0, 0, 0, 0, 0, 0, 255, 255, 10, 0, 0, 1]
  else if host = "2001:db8::1" then some [32, 1, 13, 184, 0, 0, 0, 0, 0, 0, 0, 0, 0, 0, 0, 1]
  else none

end msg

/-! # Class rewrite rule (plugin/rewrite/class.go) -/

namespace rewrite

/-- Go `classRule`. -/
structure classRule where
  fromClass : Nat
  toClass : Nat
  NextAction : String
  deriving DecidableEq, Repr

/-- Go `Result` of a rewrite rule, declared in another file of the
package. -/
inductive Result where
  | RewriteIgnored
  | RewriteDone
  deriving DecidableEq, Repr

/-- The error built by `fmt.Errorf("invalid class %q", name)`. -/
inductive error where
  | invalidClass (name : String)
  deriving DecidableEq, Repr

/-- Return values of `Rewrite` with the request message as the call
leaves it; the returned `ResponseRules` are always nil. -/
structure RewriteResult where
  Req : dns.Msg
  rules : List Nat
  result : Result
  deriving DecidableEq, Repr

/-- Go `newClassRule`. `StringToClass` is the library table
`dns.StringToClass`, `ToUpper` the standard library function
`strings.ToUpper`. The result is `none` when indexing `args` panics. -/
def newClassRule (StringToClass : String → Option Nat) (ToUpper : String → String)
    (nextAction : String) (args : List String) : Option (Except error classRule) :=
  match args[0]? with
  | none => none
  | some a0 =>
    match StringToClass (ToUpper a0) with
    | none => some (.error (error.invalidClass (ToUpper a0)))
    | some cfrom =>
      match args[1]? with
      | none => none
      | some a1 =>
        match StringToClass (ToUpper a1) with
        | none => some (.error (error.invalidClass (ToUpper a1)))
        | some cto => some (.ok { fromClass := cfrom, toClass := cto, NextAction := nextAction })

/-- Go `(*classRule).Rewrite`, applied to the message `state.Req`. The
result is `none` when indexing `Question` panics. -/
def classRule.Rewrite (rule : classRule) (Req : dns.Msg) : Option RewriteResult :=
  if rule.fromClass > 0 ∧ rule.toClass > 0 then
    match Req.Question with
    | [] => none
    | q :: qs =>
      if q.Qclass = rule.fromClass then
        some { Req := { Req with Question := { q with Qclass := rule.toClass } :: qs },
               rules := [], result := Result.RewriteDone }
      else some { Req := Req, rules := [], result := Result.RewriteIgnored }
  else some { Req := Req, rules := [], result := Result.RewriteIgnored }

/-- Go `(*classRule).Mode`. -/
def classRule.Mode (rule : classRule) : String := rule.NextAction

/-- The class names of the DNS library with their codes. -/
def exStringToClass (name : String) : Option Nat :=
  if name = "IN" then some 1
  else if name = "CS" then some 2
  else if name = "CH" then some 3
  else if name = "HS" then some 4
  else if name = "NONE" then some 254
  else if name = "ANY" then some 255
  else none

/-- Upper-casing of ASCII letters, as `strings.ToUpper` does on ASCII
text. -/
def exToUpper (s : String) : String := String.mk (s.data.map Char.toUpper)

/-- A query for `example.org.`, class IN, type A. -/
def exMsg : dns.Msg :=
  { dns.Msg.new with Id := 7, Question := [{ Name := "example.org.", Qtype := 1, Qclass := 1 }] }

end rewrite

/-! # Template plugin (plugin/template/template.go) -/

namespace templateplugin

/-- Go `error` values of this plugin, told apart by their message. -/
abbrev error := String

/-- Go `templateData`. `Group` is the map as a list of entries, `md` the
metadata values by name. -/
structure templateData where
  Zone : String
  Name : String
  Regex : String
  Match : List String
  Group : List (String × String)
  Class : String
  Type_ : String
  Message : Option dns.Msg
  Question : Option dns.Question
  Remote : String
  md : List (String × String)
  deriving DecidableEq, Repr

/-- The methods of the standard library type `*regexp.Regexp` that `match`
calls; `Str` is the method `String`. -/
structure Regexp where
  MatchString : String → Bool
  Str : String
  FindStringSubmatch : String → List String
  SubexpNames : List String

/-- The standard library type `*gotmpl.Template`: `Execute` writes the
rendered text or fails, `Root` is `Tree.Root.String()`. -/
structure Template where
  Execute : templateData → Except error String
  Root : String

/-- Go `ederror`. -/
structure ederror where
  code : Nat
  reason : String
  deriving DecidableEq, Repr

/-- Go `Upstreamer`: the method `Lookup(ctx, state, name, typ)` with its two
results. -/
abbrev Upstreamer := dns.Msg → String → Nat → Option dns.Msg × Option error

/-- The type `fall.F` of package fall, declared outside template.go; only
its method `Through` is used. -/
structure F where
  Through : String → Bool

/-- Go `template`. -/
structure template where
  zones : List String
  rcode : Int
  regex : List Regexp
  answer : List Template
  additional : List Template
  authority : List Template
  qclass : Nat
  qtype : Nat
  ederror : Option ederror
  fall : F
  upstream : Option Upstreamer

/-- The next handler of the chain: the two results of its `ServeDNS`. -/
abbrev NextHandler := dns.Msg → Int × Option error

/-- Go `Handler`. -/
structure Handler where
  Zones : List String
  Next : Option NextHandler
  Templates : List template

/-- What `ServeDNS` and `match` obtain from the request, the context and
other packages. -/
structure Env where
  -- plugin.Zones(zones).Matches(name)
  Matches : List String → String → String
  -- state.Name()
  Name : dns.Msg → String
  -- state.QType()
  QType : dns.Msg → Nat
  -- state.IP()
  IP : String
  -- metadata.ValueFuncs(ctx), the values by name
  md : List (String × String)
  -- metrics.WithServer(ctx) and metrics.WithView(ctx)
  server : String
  view : String
  -- the library tables dns.ClassToString and dns.TypeToString
  ClassToString : Nat → String
  TypeToString : Nat → String
  -- the library function dns.NewRR with its two results; both are nil for
  -- a text that holds no record
  NewRR : String → Option dns.RR × Option error

/-- Effects of `ServeDNS`, in program order. -/
inductive Event where
  | templateMatchesCount (server zone view class_ type_ : String)
  | templateFailureCount (server zone view class_ type_ sect root : String)
  | templateRRFailureCount (server zone view class_ type_ sect root : String)
  | Lookup (name : String) (typ : Nat)
  | WriteMsg (m : dns.Msg)
  | Next (r : dns.Msg)
  deriving DecidableEq, Repr

/-- Results of `ServeDNS` with the effects performed. -/
structure Result where
  code : Int
  err : Option error
  trace : List Event
  deriving DecidableEq, Repr

/-- Assignment `m[key] = value` on a map kept as a list of entries. -/
def mapSet (m : List (String × String)) (key value : String) : List (String × String) :=
  match m with
  | [] => [(key, value)]
  | (k, v) :: rest => if k = key then (key, value) :: rest else (k, v) :: mapSet rest key value

/-- First loop over the submatches (lines 213-216): entry `Itoa(i)` for
submatch `i`, counting from `i`. -/
def groupByIndex (i : Nat) (subs : List String) (group : List (String × String)) :
    List (String × String) :=
  match subs with
  | [] => group
  | m :: rest => groupByIndex (i + 1) rest (mapSet group (toString i) m)

/-- Second loop over the submatches (lines 217-221): entry `groupNames[i]`
for a submatch whose group has a name. -/
def groupByName (groupNames subs : List String) (group : List (String × String)) :
    List (String × String) :=
  match groupNames, subs with
  | name :: names, m :: rest =>
    groupByName names rest (if name.length > 0 then mapSet group name m else group)
  | _, _ => group

/-- The data filled in for the first regular expression that matches
(lines 193-221). -/
def fillData (env : Env) (t : template) (r : dns.Msg) (q : dns.Question) (zone : String)
    (data : templateData) (regex : Regexp) : templateData :=
  let subs := regex.FindStringSubmatch (env.Name r)
  { data with
    Zone := zone, Regex := regex.Str, Name := env.Name r, Question := some q,
    Message := some r,
    Class := if q.Qclass ≠ dns.ClassANY then env.ClassToString q.Qclass
             else env.ClassToString t.qclass,
    Type_ := if q.Qtype ≠ dns.TypeANY then env.TypeToString q.Qtype
             else env.TypeToString t.qtype,
    Match := subs,
    Group := groupByName regex.SubexpNames subs (groupByIndex 0 subs []) }

/-- The loop over the regular expressions of `match` (lines 188-226). -/
def matchRegex (env : Env) (t : template) (r : dns.Msg) (q : dns.Question) (zone : String)
    (data : templateData) : List Regexp → templateData × Bool × Bool
  | [] => (data, false, t.fall.Through (env.Name r))
  | regex :: rest =>
    if regex.MatchString (env.Name r) = false then matchRegex env t r q zone data rest
    else (fillData env t r q zone data regex, true, false)

/-- The data `match` starts from (line 174). -/
def initData (env : Env) : templateData :=
  { Zone := "", Name := "", Regex := "", Match := [], Group := [], Class := "", Type_ := "",
    Message := none, Question := none, Remote := env.IP, md := env.md }

/-- Go `template.match`, named `match_` as `match` is reserved. The result
is `none` when indexing `Question` panics. -/
def template.match_ (env : Env) (t : template) (r : dns.Msg) :
    Option (templateData × Bool × Bool) :=
  match r.Question with
  | [] => none
  | q :: _ =>
    let data := initData env
    let zone := env.Matches t.zones (env.Name r)
    if zone = "" then some (data, false, true)
    else if t.qclass ≠ dns.ClassANY ∧ q.Qclass ≠ dns.ClassANY ∧ q.Qclass ≠ t.qclass then
      some (data, false, true)
    else if t.qtype ≠ dns.TypeANY ∧ q.Qtype ≠ dns.TypeANY ∧ q.Qtype ≠ t.qtype then
      some (data, false, true)
    else some (matchRegex env t r q zone data t.regex)

/-- Go `executeRRTemplate` with the metric it counts on failure: the two
results, record and error. The record is nil, with a nil error, when
`dns.NewRR` finds no record in the rendered text. -/
def executeRRTemplate (env : Env) (sect : String) (tpl : Template) (data : templateData) :
    (Option dns.RR × Option error) × List Event :=
  match tpl.Execute data with
  | .error err =>
    ((none, some err), [Event.templateFailureCount env.server data.Zone env.view data.Class
      data.Type_ sect tpl.Root])
  | .ok text =>
    match env.NewRR text with
    | (rr, some err) =>
      ((rr, some err), [Event.templateRRFailureCount env.server data.Zone env.view data.Class
        data.Type_ sect tpl.Root])
    | (rr, none) => ((rr, none), [])

/-- The upstream lookup after an answer record (lines 112-117). With an
upstream and a query of type A or AAAA the condition calls `rr.Header()`,
which panics on a nil record: the result is then `none`. -/
def lookupCNAME (env : Env) (t : template) (r : dns.Msg) (rr : Option dns.RR) (msg : dns.Msg) :
    Option (dns.Msg × List Event) :=
  match t.upstream with
  | none => some (msg, [])
  | some upstream =>
    if env.QType r = dns.TypeA ∨ env.QType r = dns.TypeAAAA then
      match rr with
      | none => none
      | some rec =>
        if rec.Rrtype = dns.TypeCNAME then
          match upstream r rec.Rdata (env.QType r) with
          | (some up, none) =>
            some ({ msg with Truncated := up.Truncated, Answer := msg.Answer ++ up.Answer },
              [Event.Lookup rec.Rdata (env.QType r)])
          | _ => some (msg, [Event.Lookup rec.Rdata (env.QType r)])
        else some (msg, [])
    else some (msg, [])

/-- The loop over the answer templates (lines 106-118): the message or
the error it stops with, `none` when it panics. -/
def answerLoop (env : Env) (t : template) (r : dns.Msg) (data : templateData) :
    List Template → dns.Msg → Option (Except error dns.Msg × List Event)
  | [], msg => some (.ok msg, [])
  | answer :: rest, msg =>
    match executeRRTemplate env "answer" answer data with
    | ((_, some err), tr) => some (.error err, tr)
    | ((rr, none), tr) =>
      match lookupCNAME env t r rr { msg with Answer := msg.Answer ++ [rr] } with
      | none => none
      | some looked =>
        match answerLoop env t r data rest looked.1 with
        | none => none
        | some res => some (res.1, tr ++ looked.2 ++ res.2)

/-- The loop over the additional templates (lines 119-125). -/
def additionalLoop (env : Env) (data : templateData) :
    List Template → dns.Msg → Except error dns.Msg × List Event
  | [], msg => (.ok msg, [])
  | additional :: rest, msg =>
    match executeRRTemplate env "additional" additional data with
    | ((_, some err), tr) => (.error err, tr)
    | ((rr, none), tr) =>
      let res := additionalLoop env data rest { msg with Extra := msg.Extra ++ [rr] }
      (res.1, tr ++ res.2)

/-- The loop over the authority templates (lines 126-132). -/
def authorityLoop (env : Env) (data : templateData) :
    List Template → dns.Msg → Except error dns.Msg × List Event
  | [], msg => (.ok msg, [])
  | authority :: rest, msg =>
    match executeRRTemplate env "authority" authority data with
    | ((_, some err), tr) => (.error err, tr)
    | ((rr, none), tr) =>
      let res := authorityLoop env data rest { msg with Ns := msg.Ns ++ [rr] }
      (res.1, tr ++ res.2)

/-- The extended DNS error block (lines 134-138): `SetEdns0(4096, true)`,
then the option is appended to the record `IsEdns0` returns. The result is
`none` when `IsEdns0` panics or returns nil. -/
def setEDE (msg : dns.Msg) (e : ederror) : Option dns.Msg :=
  let msg := msg.SetEdns0 4096 true
  let ede : dns.EDNS0_EDE := { InfoCode := e.code, ExtraText := e.reason }
  match dns.IsEdns0Index msg.Extra with
  | some (some i) =>
    match msg.Extra[i]? with
    | some (some opt) =>
      some { msg with Extra := msg.Extra.set i (some { opt with Option := opt.Option ++ [ede] }) }
    | _ => none
  | _ => none

/-- Modelled from the spec: `plugin.NextOrFailure`, a function of package
plugin declared outside template.go. As its name says and as the tests of
this package rely on (a next handler that returns the fallthrough code),
it calls the next handler and returns its results; without a next handler
it fails with SERVFAIL and an error. -/
def NextOrFailure (name : String) (next : Option NextHandler) (r : dns.Msg) : Result :=
  match next with
  | some n => { code := (n r).1, err := (n r).2, trace := [Event.Next r] }
  | none =>
    { code := dns.RcodeServerFailure,
      err := some ("plugin/" ++ name ++ ": no next plugin found"), trace := [] }

/-- Go `Handler.Name`. -/
def Handler.Name (_h : Handler) : String := "template"

/-- The body of the loop over the templates once `template` has matched
(lines 95-141). The result is `none` when the body panics. -/
def serveMatch (env : Env) (t : template) (r : dns.Msg) (data : templateData) : Option Result :=
  let tr := [Event.templateMatchesCount env.server data.Zone env.view data.Class data.Type_]
  if t.rcode = dns.RcodeServerFailure then
    some { code := t.rcode, err := none, trace := tr }
  else
    let msg := dns.Msg.new.SetReply r
    let msg := { msg with Authoritative := true }
    let msg := { msg with Rcode := t.rcode }
    match answerLoop env t r data t.answer msg with
    | none => none
    | some (.error err, tr1) =>
      some { code := dns.RcodeServerFailure, err := some err, trace := tr ++ tr1 }
    | some (.ok msg, tr1) =>
      match additionalLoop env data t.additional msg with
      | (.error err, tr2) =>
        some { code := dns.RcodeServerFailure, err := some err, trace := tr ++ tr1 ++ tr2 }
      | (.ok msg, tr2) =>
        match authorityLoop env data t.authority msg with
        | (.error err, tr3) =>
          some { code := dns.RcodeServerFailure, err := some err,
                 trace := tr ++ tr1 ++ tr2 ++ tr3 }
        | (.ok msg, tr3) =>
          match t.ederror with
          | none =>
            some { code := t.rcode, err := none,
                   trace := tr ++ tr1 ++ tr2 ++ tr3 ++ [Event.WriteMsg msg] }
          | some e =>
            match setEDE msg e with
            | none => none
            | some msg =>
              some { code := t.rcode, err := none,
                     trace := tr ++ tr1 ++ tr2 ++ tr3 ++ [Event.WriteMsg msg] }

/-- The loop over the templates of `ServeDNS` (lines 86-144). The result
is `none` when the call panics. -/
def serveTemplates (env : Env) (h : Handler) (r : dns.Msg) : List template → Option Result
  | [] => some (NextOrFailure h.Name h.Next r)
  | t :: rest =>
    match t.match_ env r with
    | none => none
    | some (data, matched, fthrough) =>
      if matched = false then
        if fthrough = false then
          some { code := dns.RcodeServerFailure, err := none, trace := [] }
        else serveTemplates env h r rest
      else serveMatch env t r data

/-- Go `Handler.ServeDNS`. -/
def Handler.ServeDNS (env : Env) (h : Handler) (r : dns.Msg) : Option Result :=
  let zone := env.Matches h.Zones (env.Name r)
  if zone = "" then some (NextOrFailure h.Name h.Next r)
  else serveTemplates env h r h.Templates

/-! ## Observations used to state properties -/

/-- The message of a `WriteMsg` effect. -/
def Event.written? : Event → Option dns.Msg
  | .WriteMsg m => some m
  | _ => none

/-- Messages written to the client, in order. -/
def written (tr : List Event) : List dns.Msg := tr.filterMap Event.written?

/-- The request of a call of the next handler. -/
def Event.next? : Event → Option dns.Msg
  | .Next r => some r
  | _ => none

/-- Calls of the next handler, in order. -/
def nextCalls (tr : List Event) : List dns.Msg := tr.filterMap Event.next?

/-- One template rendered: executed, then parsed by `dns.NewRR`. The
result is the error of either step, else the record parsed, which is nil
when the text holds no record. -/
def render (env : Env) (data : templateData) (tpl : Template) : Except error (Option dns.RR) :=
  match tpl.Execute data with
  | .error err => .error err
  | .ok text =>
    match env.NewRR text with
    | (_, some err) => .error err
    | (rr, none) => .ok rr

/-- The templates of a section rendered in order: what each of them
renders to when none fails, the first error otherwise. All of them render
to records when the result is `.ok (rrs.map some)`. -/
def renderAll (env : Env) (data : templateData) :
    List Template → Except error (List (Option dns.RR))
  | [] => .ok []
  | tpl :: rest =>
    match render env data tpl with
    | .error err => .error err
    | .ok rr =>
      match renderAll env data rest with
      | .error err => .error err
      | .ok rrs => .ok (rr :: rrs)

/-- The template accepts zone, class and type of the query: the name is
inside its zones, and class and type agree where neither side is ANY. -/
def template.accepts (env : Env) (t : template) (r : dns.Msg) (q : dns.Question) : Prop :=
  env.Matches t.zones (env.Name r) ≠ "" ∧
  ¬ (t.qclass ≠ dns.ClassANY ∧ q.Qclass ≠ dns.ClassANY ∧ q.Qclass ≠ t.qclass) ∧
  ¬ (t.qtype ≠ dns.TypeANY ∧ q.Qtype ≠ dns.TypeANY ∧ q.Qtype ≠ t.qtype)

/-- The template is passed over: `match` reports no match and
fallthrough. -/
def template.skipped (env : Env) (t : template) (r : dns.Msg) : Prop :=
  ∃ data, t.match_ env r = some (data, false, true)

/-- No upstream lookup follows any of the records: the template has no
upstream, or the query type is neither A nor AAAA, or no record is a
CNAME. -/
def noLookup (env : Env) (t : template) (r : dns.Msg) (rrs : List dns.RR) : Prop :=
  t.upstream = none ∨ ¬ (env.QType r = dns.TypeA ∨ env.QType r = dns.TypeAAAA) ∨
    ∀ rr, rr ∈ rrs → rr.Rrtype ≠ dns.TypeCNAME

/-- The OPT record of a reply that carries the extended DNS error `e`:
root name, UDP size 4096, DO bit set, one EDE option. -/
def edeOPT (e : ederror) : dns.RR :=
  { Name := ".", Rrtype := dns.TypeOPT, Class := 4096, Ttl := 32768, Rdata := "",
    Option := [{ InfoCode := e.code, ExtraText := e.reason }] }

/-- The records that end the additional section on account of the
extended DNS error setting: the OPT record when one is configured. -/
def edeRecords (e : Option ederror) : List dns.RR :=
  match e with
  | none => []
  | some e => [edeOPT e]

/-- The template is the first of the handler that is not passed over: the
name is inside the handler's zones and every template before `t` reports
no match and fallthrough. -/
def Handler.reaches (env : Env) (h : Handler) (r : dns.Msg) (t : template)
    (rest : List template) : Prop :=
  env.Matches h.Zones (env.Name r) ≠ "" ∧
  ∃ pre, h.Templates = pre ++ t :: rest ∧ ∀ p, p ∈ pre → p.skipped env r

/-- The reply a template with response code `rcode` writes when its
sections hold the records `ans`, `ns` and `extra`: a reply to `r`, marked
authoritative, with truncation flag `tc`. -/
def replyTo (r : dns.Msg) (rcode : Int) (tc : Bool) (ans ns extra : List (Option dns.RR)) :
    dns.Msg :=
  { dns.Msg.new.SetReply r with
    Authoritative := true, Rcode := rcode, Truncated := tc,
    Answer := ans, Ns := ns, Extra := extra }

/-! ## Example data -/

/-- Zone matching for the examples: the first zone that is the root or a
suffix of the name. -/
def exMatches (zones : List String) (name : String) : String :=
  match zones with
  | [] => ""
  | z :: rest =>
    if z = "." ∨ z.data.isSuffixOf name.data = true then z else exMatches rest name

/-- Text parsing for the examples: "bad" is rejected with an error, the
empty text holds no record, any other text becomes an A record named by
the text. -/
def exNewRR (text : String) : Option dns.RR × Option error :=
  if text = "bad" then (none, some "dns: not a TTL")
  else if text = "" then (none, none)
  else (some { Name := text, Rrtype := 1, Class := 1, Ttl := 60, Rdata := "", Option := [] },
    none)

/-- Environment of the examples. -/
def exEnv : Env :=
  { Matches := exMatches,
    Name := fun r => match r.Question with
      | [] => "."
      | q :: _ => q.Name,
    QType := fun r => match r.Question with
      | [] => 0
      | q :: _ => q.Qtype,
    IP := "10.240.0.1", md := [], server := "dns://:53", view := "",
    ClassToString := fun c => if c = 1 then "IN" else if c = 3 then "CH" else "",
    TypeToString := fun t => if t = 1 then "A" else if t = 15 then "MX" else "",
    NewRR := exNewRR }

/-- Regular expression `.*`. -/
def exMatchAll : Regexp :=
  { MatchString := fun _ => true, Str := ".*", FindStringSubmatch := fun n => [n],
    SubexpNames := [""] }

/-- Regular expression `$^`, which matches no name of a query. -/
def exMatchNone : Regexp :=
  { MatchString := fun _ => false, Str := "$^", FindStringSubmatch := fun _ => [],
    SubexpNames := [""] }

/-- Template text that renders the name of the query. -/
def exTplName : Template := { Execute := fun data => .ok data.Name, Root := "name" }

/-- Template text that renders a fixed record. -/
def exTplNS : Template := { Execute := fun _ => .ok "ns0.example.", Root := "ns0" }

/-- Template text that renders no record. -/
def exTplBad : Template := { Execute := fun _ => .ok "bad", Root := "bad" }

/-- Template text whose execution fails. -/
def exTplBroken : Template :=
  { Execute := fun _ => .error "error calling index: index out of range: 2", Root := "broken" }

/-- The fallthrough setting `fall.Root`. -/
def exFallRoot : F := { Through := fun _ => true }

/-- No fallthrough. -/
def exFallNone : F := { Through := fun _ => false }

/-- Template for every query with one answer, one additional and one
authority record. -/
def exTemplateANS : template :=
  { zones := ["."], rcode := 0, regex := [exMatchAll], answer := [exTplName],
    additional := [exTplNS], authority := [exTplNS], qclass := 255, qtype := 255,
    ederror := none, fall := exFallRoot, upstream := none }

/-- Template answering NXDOMAIN with an authority record and extended
DNS error 21. -/
def exTemplateEDE : template :=
  { zones := ["."], rcode := 3, regex := [exMatchAll], answer := [], additional := [],
    authority := [exTplNS], qclass := 255, qtype := 255,
    ederror := some { code := 21, reason := "Blocked due to RFC2606" },
    fall := exFallRoot, upstream := none }

/-- Template whose rcode is SERVFAIL. -/
def exTemplateServfail : template :=
  { zones := ["."], rcode := 2, regex := [exMatchAll], answer := [], additional := [],
    authority := [], qclass := 255, qtype := 255, ederror := none, fall := exFallRoot,
    upstream := none }

/-- Template whose answer renders no record. -/
def exTemplateNonRR : template :=
  { zones := ["."], rcode := 0, regex := [exMatchAll], answer := [exTplBad], additional := [],
    authority := [], qclass := 255, qtype := 255, ederror := none, fall := exFallRoot,
    upstream := none }

/-- Template text that renders the empty text, as a text does that
stands as a whole inside an `if` action whose condition is false. -/
def exTplEmpty : Template := { Execute := fun _ => .ok "", Root := "empty" }

/-- Template whose answer renders the empty text, built without an
upstream as the tests of the package build theirs. -/
def exTemplateEmpty : template :=
  { zones := ["."], rcode := 0, regex := [exMatchAll], answer := [exTplEmpty], additional := [],
    authority := [], qclass := 255, qtype := 255, ederror := none, fall := exFallRoot,
    upstream := none }

/-- An upstream that resolves nothing. -/
def exUpstream : Upstreamer := fun _ _ _ => (none, some "no upstream answer")

/-- The same template with an upstream, as `templateParse` of setup.go
builds every template (`t.upstream = upstream.New()`). -/
def exTemplateEmptyUp : template := { exTemplateEmpty with upstream := some exUpstream }

/-- The message ServeDNS hands to `WriteMsg` for `test.example. IN MX`
when the answer template renders the empty text: a reply whose answer
section holds one nil record. -/
def exReplyNil : dns.Msg :=
  { Id := 9, Response := true, Opcode := 0, Authoritative := true, Truncated := false,
    RecursionDesired := false, CheckingDisabled := false, Rcode := 0,
    Question := [{ Name := "test.example.", Qtype := 15, Qclass := 1 }],
    Answer := [none], Ns := [], Extra := [] }

/-- Template for IN MX in `example.` whose expression matches nothing and
which never falls through. -/
def exTemplateMX : template :=
  { zones := ["example."], rcode := 0, regex := [exMatchNone], answer := [exTplName],
    additional := [], authority := [], qclass := 1, qtype := 15, ederror := none,
    fall := exFallNone, upstream := none }

/-- Template for CH TXT, without fallthrough. -/
def exTemplateCH : template :=
  { zones := ["."], rcode := 0, regex := [exMatchAll], answer := [exTplName],
    additional := [], authority := [], qclass := 3, qtype := 16, ederror := none,
    fall := exFallNone, upstream := none }

/-- Next handler of the tests: it returns the fallthrough code 3841. -/
def exNext : NextHandler := fun _ => (3841, none)

/-- Query `name IN qtype` with ID 9. -/
def exQuery (name : String) (qtype : Nat) : dns.Msg :=
  { dns.Msg.new with Id := 9, Question := [{ Name := name, Qtype := qtype, Qclass := 1 }] }

/-- Handler for the root zone with the given templates. -/
def exHandler (templates : List template) : Handler :=
  { Zones := ["."], Next := some exNext, Templates := templates }

/-- The reply the NXDOMAIN template with extended DNS error 21 writes
for `test.invalid. IN A`. -/
def exReplyEDE : dns.Msg :=
  { Id := 9, Response := true, Opcode := 0, Authoritative := true, Truncated := false,
    RecursionDesired := false, CheckingDisabled := false, Rcode := 3,
    Question := [{ Name := "test.invalid.", Qtype := 1, Qclass := 1 }],
    Answer := [],
    Ns := [some { Name := "ns0.example.", Rrtype := 1, Class := 1, Ttl := 60, Rdata := "",
                  Option := [] }],
    Extra := [some { Name := ".", Rrtype := 41, Class := 4096, Ttl := 32768, Rdata := "",
                     Option := [{ InfoCode := 21, ExtraText := "Blocked due to RFC2606" }] }] }

/-- The A record the example parser makes of a text. -/
def exRR (name : String) : dns.RR :=
  { Name := name, Rrtype := 1, Class := 1, Ttl := 60, Rdata := "", Option := [] }

/-- The data `match` hands to the templates of template `t` for the
query `name IN qtype`, matched by the expression `.*` in the root zone. -/
def exData (t : template) (name : String) (qtype : Nat) : templateData :=
  fillData exEnv t (exQuery name qtype) { Name := name, Qtype := qtype, Qclass := 1 } "."
    (initData exEnv) exMatchAll

end templateplugin

namespace forward

/-! ## Facts about the reply loop -/

theorem readLoop_skip (reads : Nat → ReadResult) (reqId : Nat) (fuel i : Nat) (m : Msg)
    (h : reads i = .ok m) (hne : reqId ≠ m.Id) :
    readLoop reads reqId (fuel + 1) i = readLoop reads reqId fuel (i + 1) := by
  simp [readLoop, h, hne]

/-- Replies with another ID are passed over until a read fails. -/
theorem readLoop_fail (reads : Nat → ReadResult) (reqId : Nat) (ret : Option Msg) (e : IOError) :
    ∀ (d fuel i : Nat), d < fuel →
      (∀ j, i ≤ j → j < i + d → ∃ m, reads j = .ok m ∧ m.Id ≠ reqId) →
      reads (i + d) = .fail ret e →
      readLoop reads reqId fuel i = .failed ret e (i + d + 1) := by
  intro d
  induction d with
  | zero =>
    intro fuel i hf _ hn
    obtain ⟨f, rfl⟩ : ∃ f, fuel = f + 1 := ⟨fuel - 1, by omega⟩
    simp only [Nat.add_zero] at hn
    simp [readLoop, hn]
  | succ d ih =>
    intro fuel i hf hs hn
    obtain ⟨f, rfl⟩ : ∃ f, fuel = f + 1 := ⟨fuel - 1, by omega⟩
    obtain ⟨m, hm, hid⟩ := hs i (Nat.le_refl i) (by omega)
    rw [readLoop_skip reads reqId f i m hm (fun h => hid h.symm)]
    have hn2 : reads (i + 1 + d) = .fail ret e := by
      rw [show i + 1 + d = i + (d + 1) by omega]; exact hn
    rw [ih f (i + 1) (by omega) (fun j h1 h2 => hs j (by omega) (by omega)) hn2]
    rw [show i + 1 + d = i + (d + 1) by omega]

/-- Replies with another ID are passed over until one carries the
expected ID. -/
theorem readLoop_match (reads : Nat → ReadResult) (reqId : Nat) (m : Msg) :
    ∀ (d fuel i : Nat), d < fuel →
      (∀ j, i ≤ j → j < i + d → ∃ m, reads j = .ok m ∧ m.Id ≠ reqId) →
      reads (i + d) = .ok m → m.Id = reqId →
      readLoop reads reqId fuel i = .matched m (i + d + 1) := by
  intro d
  induction d with
  | zero =>
    intro fuel i hf _ hn hid
    obtain ⟨f, rfl⟩ : ∃ f, fuel = f + 1 := ⟨fuel - 1, by omega⟩
    simp only [Nat.add_zero] at hn
    simp [readLoop, hn, hid]
  | succ d ih =>
    intro fuel i hf hs hn hid
    obtain ⟨f, rfl⟩ : ∃ f, fuel = f + 1 := ⟨fuel - 1, by omega⟩
    obtain ⟨m1, hm1, hid1⟩ := hs i (Nat.le_refl i) (by omega)
    rw [readLoop_skip reads reqId f i m1 hm1 (fun h => hid1 h.symm)]
    have hn2 : reads (i + 1 + d) = .ok m := by
      rw [show i + 1 + d = i + (d + 1) by omega]; exact hn
    rw [ih f (i + 1) (by omega) (fun j h1 h2 => hs j (by omega) (by omega)) hn2 hid]
    rw [show i + 1 + d = i + (d + 1) by omega]

/-- A loop that ended on a read error made `n + 1` reads: `n` replies with
another ID and then the failing read. -/
theorem readLoop_failed_inv (reads : Nat → ReadResult) (reqId : Nat) (ret : Option Msg)
    (e : IOError) :
    ∀ (fuel i cnt : Nat), readLoop reads reqId fuel i = .failed ret e cnt →
      ∃ n, cnt = n + 1 ∧ i ≤ n ∧ n < i + fuel ∧ reads n = .fail ret e ∧
        ∀ j, i ≤ j → j < n → ∃ m, reads j = .ok m ∧ m.Id ≠ reqId := by
  intro fuel
  induction fuel with
  | zero => intro i cnt h; simp [readLoop] at h
  | succ f ih =>
    intro i cnt h
    unfold readLoop at h
    cases hr : reads i with
    | fail ret1 e1 =>
      rw [hr] at h
      simp only [LoopExit.failed.injEq] at h
      obtain ⟨h1, h2, h3⟩ := h
      subst h1; subst h2
      exact ⟨i, h3.symm, Nat.le_refl i, by omega, hr, fun j h1 h2 => by omega⟩
    | ok m =>
      rw [hr] at h
      by_cases hid : reqId = m.Id
      · simp [hid] at h
      · simp only [hid, if_false] at h
        obtain ⟨n, hc, hle, hlt, hn, hs⟩ := ih (i + 1) cnt h
        refine ⟨n, hc, by omega, by omega, hn, fun j h1 h2 => ?_⟩
        by_cases hj : j = i
        · subst hj; exact ⟨m, hr, fun h => hid h.symm⟩
        · exact hs j (by omega) h2

/-- A loop that ended on a match made `n + 1` reads: `n` replies with
another ID and then the matching one. -/
theorem readLoop_matched_inv (reads : Nat → ReadResult) (reqId : Nat) (m : Msg) :
    ∀ (fuel i cnt : Nat), readLoop reads reqId fuel i = .matched m cnt →
      ∃ n, cnt = n + 1 ∧ i ≤ n ∧ n < i + fuel ∧ reads n = .ok m ∧ m.Id = reqId ∧
        ∀ j, i ≤ j → j < n → ∃ m1, reads j = .ok m1 ∧ m1.Id ≠ reqId := by
  intro fuel
  induction fuel with
  | zero => intro i cnt h; simp [readLoop] at h
  | succ f ih =>
    intro i cnt h
    unfold readLoop at h
    cases hr : reads i with
    | fail ret1 e1 =>
      rw [hr] at h
      simp at h
    | ok m0 =>
      rw [hr] at h
      by_cases hid : reqId = m0.Id
      · simp only [hid, if_true, LoopExit.matched.injEq] at h
        obtain ⟨h1, h2⟩ := h
        subst h1
        exact ⟨i, h2.symm, Nat.le_refl i, by omega, hr, hid.symm, fun j h1 h2 => by omega⟩
      · simp only [hid, if_false] at h
        obtain ⟨n, hc, hle, hlt, hn, hmid, hs⟩ := ih (i + 1) cnt h
        refine ⟨n, hc, by omega, by omega, hn, hmid, fun j h1 h2 => ?_⟩
        by_cases hj : j = i
        · subst hj; exact ⟨m0, hr, fun h => hid h.symm⟩
        · exact hs j (by omega) h2

/-! ## Facts about Dial -/

/-- Dial writes nothing, reads nothing, closes nothing and yields nothing. -/
theorem Dial_trace_quiet (k : Consts) (t : Transport) (proto : String) (w : World) :
    written (t.Dial k proto w).trace = [] ∧ yielded (t.Dial k proto w).trace = [] ∧
    closed (t.Dial k proto w).trace = [] ∧ readsOf (t.Dial k proto w).trace = [] := by
  unfold Transport.Dial
  cases w.ret with
  | some pc => simp [written, yielded, closed, readsOf, Event.written?, Event.yielded?,
      Event.closed?, Event.read?]
  | none =>
    simp only
    split_ifs <;> simp [written, yielded, closed, readsOf, Event.written?, Event.yielded?,
      Event.closed?, Event.read?]

/-- The flag returned by Dial tells whether the connection manager
answered with a connection. -/
theorem Dial_cached (k : Consts) (t : Transport) (proto : String) (w : World) :
    (t.Dial k proto w).cached = w.ret.isSome := by
  unfold Transport.Dial
  cases w.ret with
  | some pc => rfl
  | none => simp only; split_ifs <;> rfl

/-! ## Connect, path by path -/

/-- The dial fails: Connect returns the error at once. -/
theorem Connect_dial_error (k : Consts) (fuel : Nat) (p : Proxy) (state : Request)
    (opts : options) (w : World) (err : error)
    (hd : (p.transport.Dial k (selectProto state opts) w).err = some err) :
    p.Connect k fuel state opts w =
      { status := .returned, ret := none, err := some err, Req := state.Req,
        transport := (p.transport.Dial k (selectProto state opts) w).transport,
        trace := (p.transport.Dial k (selectProto state opts) w).trace } := by
  simp only [Proxy.Connect, hd]

/-- Dial hands back a nil connection with a nil error: line 94 panics. -/
theorem Connect_nil_conn (k : Consts) (fuel : Nat) (p : Proxy) (state : Request)
    (opts : options) (w : World)
    (hd : (p.transport.Dial k (selectProto state opts) w).err = none)
    (hc : (p.transport.Dial k (selectProto state opts) w).pc.bind persistConn.c = none) :
    p.Connect k fuel state opts w =
      { status := .panicked, ret := none, err := none, Req := state.Req,
        transport := (p.transport.Dial k (selectProto state opts) w).transport,
        trace := (p.transport.Dial k (selectProto state opts) w).trace } := by
  simp only [Proxy.Connect, hd, hc]

/-- The write fails. -/
theorem Connect_write_error (k : Consts) (fuel : Nat) (p : Proxy) (state : Request)
    (opts : options) (w : World) (c0 : Conn) (e : IOError)
    (hd : (p.transport.Dial k (selectProto state opts) w).err = none)
    (hc : (p.transport.Dial k (selectProto state opts) w).pc.bind persistConn.c = some c0)
    (hw : w.writeErr = some e) :
    p.Connect k fuel state opts w =
      { status := .returned, ret := none,
        err := some (if e = IOError.EOF ∧
          (p.transport.Dial k (selectProto state opts) w).cached = true
          then error.ErrCachedClosed else error.io e),
        Req := state.Req,
        transport := (p.transport.Dial k (selectProto state opts) w).transport,
        trace := (p.transport.Dial k (selectProto state opts) w).trace ++
          [Event.SetWriteDeadline c0.id k.maxTimeout,
           Event.WriteMsg (c0.sized state) { state.Req with Id := w.newId },
           Event.Close c0.id] } := by
  simp only [Proxy.Connect, hd, hc, hw, Conn.sized]
  split <;> simp

/-- The write succeeds and the loop ends on a read error. -/
theorem Connect_read_error (k : Consts) (fuel : Nat) (p : Proxy) (state : Request)
    (opts : options) (w : World) (c0 : Conn) (ret : Option Msg) (e : IOError) (n : Nat)
    (hd : (p.transport.Dial k (selectProto state opts) w).err = none)
    (hc : (p.transport.Dial k (selectProto state opts) w).pc.bind persistConn.c = some c0)
    (hw : w.writeErr = none)
    (hl : readLoop w.reads w.newId fuel 0 = .failed ret e n) :
    p.Connect k fuel state opts w =
      { status := .returned,
        ret := if e = IOError.EOF ∧
          (p.transport.Dial k (selectProto state opts) w).cached = true
          then none else ret.map (fun m => { m with Id := state.Req.Id }),
        err := some (if e = IOError.EOF ∧
          (p.transport.Dial k (selectProto state opts) w).cached = true
          then error.ErrCachedClosed else error.io e),
        Req := state.Req,
        transport := (p.transport.Dial k (selectProto state opts) w).transport,
        trace := (p.transport.Dial k (selectProto state opts) w).trace ++
          [Event.SetWriteDeadline c0.id k.maxTimeout,
           Event.WriteMsg (c0.sized state) { state.Req with Id := w.newId },
           Event.SetReadDeadline c0.id k.readTimeout] ++
          List.replicate n (Event.ReadMsg c0.id) ++ [Event.Close c0.id] } := by
  simp only [Proxy.Connect, hd, hc, hw, hl, Conn.sized]
  split <;> simp

/-- The write succeeds and the loop ends on a reply with the expected ID. -/
theorem Connect_matched (k : Consts) (fuel : Nat) (p : Proxy) (state : Request)
    (opts : options) (w : World) (c0 : Conn) (m : Msg) (n : Nat)
    (hd : (p.transport.Dial k (selectProto state opts) w).err = none)
    (hc : (p.transport.Dial k (selectProto state opts) w).pc.bind persistConn.c = some c0)
    (hw : w.writeErr = none)
    (hl : readLoop w.reads w.newId fuel 0 = .matched m n) :
    p.Connect k fuel state opts w =
      { status := .returned,
        ret := some { m with Id := state.Req.Id },
        err := none,
        Req := state.Req,
        transport := (p.transport.Dial k (selectProto state opts) w).transport,
        trace := (p.transport.Dial k (selectProto state opts) w).trace ++
          [Event.SetWriteDeadline c0.id k.maxTimeout,
           Event.WriteMsg (c0.sized state) { state.Req with Id := w.newId },
           Event.SetReadDeadline c0.id k.readTimeout] ++
          List.replicate n (Event.ReadMsg c0.id) ++
          [Event.Yield { c := some (c0.sized state) }, Event.RequestCount p.addr,
           Event.RcodeCount m.Rcode p.addr, Event.RequestDuration p.addr m.Rcode] } := by
  simp only [Proxy.Connect, hd, hc, hw, hl, Conn.sized]
  simp

/-- The write succeeds and the fuel runs out inside the loop. -/
theorem Connect_running (k : Consts) (fuel : Nat) (p : Proxy) (state : Request)
    (opts : options) (w : World) (c0 : Conn) (n : Nat)
    (hd : (p.transport.Dial k (selectProto state opts) w).err = none)
    (hc : (p.transport.Dial k (selectProto state opts) w).pc.bind persistConn.c = some c0)
    (hw : w.writeErr = none)
    (hl : readLoop w.reads w.newId fuel 0 = .running n) :
    p.Connect k fuel state opts w =
      { status := .running, ret := none, err := none,
        Req := { state.Req with Id := w.newId },
        transport := (p.transport.Dial k (selectProto state opts) w).transport,
        trace := (p.transport.Dial k (selectProto state opts) w).trace ++
          [Event.SetWriteDeadline c0.id k.maxTimeout,
           Event.WriteMsg (c0.sized state) { state.Req with Id := w.newId },
           Event.SetReadDeadline c0.id k.readTimeout] ++
          List.replicate n (Event.ReadMsg c0.id) } := by
  simp only [Proxy.Connect, hd, hc, hw, hl, Conn.sized]
  simp

/-- A read that ends the loop within the fuel keeps the loop from running
out of fuel. -/
theorem readLoop_stops (reads : Nat → ReadResult) (reqId : Nat) :
    ∀ (fuel i : Nat),
      (∃ n, i ≤ n ∧ n < i + fuel ∧
        ((∃ ret e, reads n = .fail ret e) ∨ ∃ m, reads n = .ok m ∧ m.Id = reqId)) →
      ∀ cnt, readLoop reads reqId fuel i ≠ .running cnt := by
  intro fuel
  induction fuel with
  | zero => intro i ⟨n, h1, h2, _⟩; omega
  | succ f ih =>
    intro i ⟨n, h1, h2, hn⟩ cnt
    unfold readLoop
    cases hr : reads i with
    | fail ret e => simp
    | ok m =>
      by_cases hid : reqId = m.Id
      · simp [hid]
      · simp only [hid, if_false]
        have hni : n ≠ i := by
          rintro rfl
          rcases hn with ⟨ret, e, h⟩ | ⟨m1, h, hm1⟩
          · rw [hr] at h; cases h
          · rw [hr] at h; cases h; exact hid hm1.symm
        exact ih (i + 1) ⟨n, by omega, by omega, hn⟩ cnt

/-! ## Properties of Connect -/

/-- C1: after a successful Dial, Connect returns ErrCachedClosed only when
the write or a read it made failed with io.EOF on a reused connection, and
then the reply is nil; conversely every failure of the write or of a read
makes Connect return, with ErrCachedClosed when the failure is io.EOF on a
reused connection and with the failure's own error otherwise. -/
theorem Connect_ErrCachedClosed_iff (k : Consts) (fuel : Nat) (p : Proxy) (state : Request)
    (opts : options) (w : World) (c0 : Conn)
    (hd : (p.transport.Dial k (selectProto state opts) w).err = none)
    (hc : (p.transport.Dial k (selectProto state opts) w).pc.bind persistConn.c = some c0) :
    ((p.Connect k fuel state opts w).err = some error.ErrCachedClosed →
      (p.Connect k fuel state opts w).ret = none ∧ w.ioFails fuel IOError.EOF ∧
      (p.transport.Dial k (selectProto state opts) w).cached = true) ∧
    (∀ e, w.ioFails fuel e →
      (p.Connect k fuel state opts w).status = .returned ∧
      (p.Connect k fuel state opts w).err =
        some (if e = IOError.EOF ∧ (p.transport.Dial k (selectProto state opts) w).cached = true
          then error.ErrCachedClosed else error.io e)) := by
  constructor
  · intro h
    cases hw : w.writeErr with
    | some e =>
      rw [Connect_write_error k fuel p state opts w c0 e hd hc hw] at h ⊢
      simp only [Option.some.injEq] at h
      split at h
      · rename_i hcond
        exact ⟨rfl, Or.inl (hcond.1 ▸ hw), hcond.2⟩
      · cases h
    | none =>
      cases hl : readLoop w.reads w.newId fuel 0 with
      | running n =>
        rw [Connect_running k fuel p state opts w c0 n hd hc hw hl] at h
        cases h
      | matched m n =>
        rw [Connect_matched k fuel p state opts w c0 m n hd hc hw hl] at h
        cases h
      | failed ret e n =>
        rw [Connect_read_error k fuel p state opts w c0 ret e n hd hc hw hl] at h ⊢
        simp only [Option.some.injEq] at h
        split at h
        · rename_i hcond
          obtain ⟨n1, _, _, hlt, hn, hs⟩ := readLoop_failed_inv w.reads w.newId ret e fuel 0 n hl
          refine ⟨by simp [hcond], Or.inr ⟨n1, by omega, hw, ?_, ret, ?_⟩, hcond.2⟩
          · intro j hj; exact hs j (Nat.zero_le j) hj
          · rw [← hcond.1]; exact hn
        · cases h
  · intro e hf
    rcases hf with hw | ⟨n, hlt, hw, hs, ret, hn⟩
    · rw [Connect_write_error k fuel p state opts w c0 e hd hc hw]
      exact ⟨rfl, rfl⟩
    · have hl := readLoop_fail w.reads w.newId ret e n fuel 0 hlt
        (fun j _ h2 => hs j (by omega)) (by rw [Nat.zero_add]; exact hn)
      rw [Connect_read_error k fuel p state opts w c0 ret e (0 + n + 1) hd hc hw hl]
      exact ⟨rfl, rfl⟩

/-- A reused connection whose write hits end-of-file: Connect returns
ErrCachedClosed. -/
theorem Connect_ErrCachedClosed_iff_witness :
    (exProxy.transport.Dial exConsts (selectProto exRequest ⟨false, false⟩) exWorldCachedEOF).err
      = none ∧
    (exProxy.transport.Dial exConsts (selectProto exRequest ⟨false, false⟩)
      exWorldCachedEOF).pc.bind persistConn.c = some ⟨3, 512⟩ ∧
    (exProxy.Connect exConsts 1 exRequest ⟨false, false⟩ exWorldCachedEOF).status = .returned ∧
    (exProxy.Connect exConsts 1 exRequest ⟨false, false⟩ exWorldCachedEOF).err
      = some error.ErrCachedClosed :=
  ⟨by decide, by decide,
    ((Connect_ErrCachedClosed_iff exConsts 1 exProxy exRequest ⟨false, false⟩ exWorldCachedEOF
      ⟨3, 512⟩ (by decide) (by decide)).2 IOError.EOF (Or.inl rfl)).1,
    ((Connect_ErrCachedClosed_iff exConsts 1 exProxy exRequest ⟨false, false⟩ exWorldCachedEOF
      ⟨3, 512⟩ (by decide) (by decide)).2 IOError.EOF (Or.inl rfl)).2.trans (by decide)⟩

/-- C2: when the write succeeds, the first `n` reads deliver replies with
other IDs and read `n + 1` delivers the first reply `m` with the rewritten
ID, Connect returns after exactly `n + 1` reads with a nil error and with
`m` as its reply (the original ID put back in it); the replies before it
leave no trace but their reads. -/
theorem Connect_returns_first_match (k : Consts) (fuel : Nat) (p : Proxy) (state : Request)
    (opts : options) (w : World) (c0 : Conn) (n : Nat) (m : Msg)
    (hd : (p.transport.Dial k (selectProto state opts) w).err = none)
    (hc : (p.transport.Dial k (selectProto state opts) w).pc.bind persistConn.c = some c0)
    (hw : w.writeErr = none) (hdrop : w.dropped n) (hm : w.reads n = .ok m)
    (hid : m.Id = w.newId) (hfuel : n < fuel) :
    (p.Connect k fuel state opts w).status = .returned ∧
    (p.Connect k fuel state opts w).ret = some { m with Id := state.Req.Id } ∧
    (p.Connect k fuel state opts w).err = none ∧
    (readsOf (p.Connect k fuel state opts w).trace).length = n + 1 ∧
    (p.Connect k fuel state opts w).trace =
      (p.transport.Dial k (selectProto state opts) w).trace ++
        [Event.SetWriteDeadline c0.id k.maxTimeout,
         Event.WriteMsg (c0.sized state) { state.Req with Id := w.newId },
         Event.SetReadDeadline c0.id k.readTimeout] ++
        List.replicate (n + 1) (Event.ReadMsg c0.id) ++
        [Event.Yield { c := some (c0.sized state) }, Event.RequestCount p.addr,
         Event.RcodeCount m.Rcode p.addr, Event.RequestDuration p.addr m.Rcode] := by
  have hl := readLoop_match w.reads w.newId m n fuel 0 hfuel
    (fun j _ h2 => hdrop j (by omega)) (by rw [Nat.zero_add]; exact hm) hid
  rw [Nat.zero_add] at hl
  rw [Connect_matched k fuel p state opts w c0 m (n + 1) hd hc hw hl]
  refine ⟨rfl, rfl, rfl, ?_, rfl⟩
  have hq := (Dial_trace_quiet k p.transport (selectProto state opts) w).2.2.2
  simp only [readsOf] at hq ⊢
  simp [List.filterMap_append, hq, Event.read?, List.filterMap_replicate]

/-- A stale and an expected reply in either order: the expected one is
returned, after two reads when it comes second and after one read when it
comes first. -/
theorem Connect_returns_first_match_witness :
    ((exProxy.Connect exConsts 2 exRequest ⟨false, false⟩ exWorldStaleFirst).ret
        = some { exReply with Id := 0x1234 } ∧
      (readsOf (exProxy.Connect exConsts 2 exRequest ⟨false, false⟩ exWorldStaleFirst).trace).length
        = 2) ∧
    ((exProxy.Connect exConsts 2 exRequest ⟨false, false⟩ exWorldStaleLast).ret
        = some { exReply with Id := 0x1234 } ∧
      (readsOf (exProxy.Connect exConsts 2 exRequest ⟨false, false⟩ exWorldStaleLast).trace).length
        = 1) :=
  have h1 := Connect_returns_first_match exConsts 2 exProxy exRequest ⟨false, false⟩
    exWorldStaleFirst ⟨7, 0⟩ 1 exReply (by decide) (by decide) rfl
    (fun j hj => ⟨exStale, by
      have h0 : j = 0 := by omega
      subst h0; rfl, by decide⟩)
    rfl rfl (by decide)
  have h2 := Connect_returns_first_match exConsts 2 exProxy exRequest ⟨false, false⟩
    exWorldStaleLast ⟨7, 0⟩ 0 exReply (by decide) (by decide) rfl
    (fun j hj => absurd hj (Nat.not_lt_zero j))
    rfl rfl (by decide)
  ⟨⟨h1.2.1, h1.2.2.2.1⟩, ⟨h2.2.1, h2.2.2.2.1⟩⟩

/-- C3: a non-nil reply returned by Connect carries the ID of the original
query; it is the matched reply, returned with a nil error, or the reply
decoded by a failed read, returned with that read's error, in both cases
with its ID replaced by the original one. -/
theorem Connect_reply_has_origin_id (k : Consts) (fuel : Nat) (p : Proxy) (state : Request)
    (opts : options) (w : World) (m : Msg)
    (h : (p.Connect k fuel state opts w).ret = some m) :
    m.Id = state.Req.Id ∧
    (((p.Connect k fuel state opts w).err = none ∧
        ∃ n m0, w.reads n = .ok m0 ∧ m0.Id = w.newId ∧ m = { m0 with Id := state.Req.Id }) ∨
      (∃ e n m0, (p.Connect k fuel state opts w).err = some (error.io e) ∧
        w.reads n = .fail (some m0) e ∧ m = { m0 with Id := state.Req.Id })) := by
  cases hd : (p.transport.Dial k (selectProto state opts) w).err with
  | some err =>
    rw [Connect_dial_error k fuel p state opts w err hd] at h
    cases h
  | none =>
    cases hc : (p.transport.Dial k (selectProto state opts) w).pc.bind persistConn.c with
    | none =>
      rw [Connect_nil_conn k fuel p state opts w hd hc] at h
      cases h
    | some c0 =>
      cases hw : w.writeErr with
      | some e =>
        rw [Connect_write_error k fuel p state opts w c0 e hd hc hw] at h
        cases h
      | none =>
        cases hl : readLoop w.reads w.newId fuel 0 with
        | running n =>
          rw [Connect_running k fuel p state opts w c0 n hd hc hw hl] at h
          cases h
        | matched m0 n =>
          rw [Connect_matched k fuel p state opts w c0 m0 n hd hc hw hl] at h ⊢
          simp only [Option.some.injEq] at h
          obtain ⟨n1, _, _, _, hn, hid, _⟩ := readLoop_matched_inv w.reads w.newId m0 fuel 0 n hl
          subst h
          exact ⟨rfl, Or.inl ⟨rfl, n1, m0, hn, hid, rfl⟩⟩
        | failed ret e n =>
          rw [Connect_read_error k fuel p state opts w c0 ret e n hd hc hw hl] at h ⊢
          obtain ⟨n1, _, _, _, hn, _⟩ := readLoop_failed_inv w.reads w.newId ret e fuel 0 n hl
          simp only at h
          split at h
          · cases h
          · rename_i hcond
            cases ret with
            | none => cases h
            | some m0 =>
              simp only [Option.map_some', Option.some.injEq] at h
              subst h
              refine ⟨rfl, Or.inr ⟨e, n1, m0, ?_, hn, rfl⟩⟩
              simp only [hcond, if_false]

/-- Both kinds of non-nil reply occur: a matched reply and a reply decoded
by a failing read, each returned with the original ID 0x1234. -/
theorem Connect_reply_has_origin_id_witness :
    ((exProxy.Connect exConsts 1 exRequest ⟨false, false⟩ exWorld).ret
        = some { exReply with Id := 0x1234 } ∧
      (exProxy.Connect exConsts 1 exRequest ⟨false, false⟩ exWorldReadError).ret
        = some { exReply with Id := 0x1234 } ∧
      (exProxy.Connect exConsts 1 exRequest ⟨false, false⟩ exWorldReadError).err
        = some (error.io (.other 1))) ∧
    ({ exReply with Id := 0x1234 } : Msg).Id = exRequest.Req.Id :=
  ⟨⟨by decide, by decide, by decide⟩,
    (Connect_reply_has_origin_id exConsts 1 exProxy exRequest ⟨false, false⟩ exWorldReadError
      { exReply with Id := 0x1234 } (by decide)).1⟩

/-- C4: whenever Connect comes back, the ID of the request message is what
it was before the call (the whole message is), whichever path was taken;
and Connect does come back when Dial fails, when the write fails, or when
some read within the fuel fails or delivers the expected ID, provided Dial
did not hand out a nil connection. -/
theorem Connect_preserves_request_id (k : Consts) (fuel : Nat) (p : Proxy) (state : Request)
    (opts : options) (w : World) :
    ((p.Connect k fuel state opts w).status ≠ .running →
      (p.Connect k fuel state opts w).Req.Id = state.Req.Id ∧
      (p.Connect k fuel state opts w).Req = state.Req) ∧
    (((p.transport.Dial k (selectProto state opts) w).err ≠ none ∨
      ((p.transport.Dial k (selectProto state opts) w).pc.bind persistConn.c ≠ none ∧
        (w.writeErr ≠ none ∨ ∃ n, n < fuel ∧ w.stopsAt n))) →
      (p.Connect k fuel state opts w).status = .returned) := by
  cases hd : (p.transport.Dial k (selectProto state opts) w).err with
  | some err =>
    rw [Connect_dial_error k fuel p state opts w err hd]
    exact ⟨fun _ => ⟨rfl, rfl⟩, fun _ => rfl⟩
  | none =>
    cases hc : (p.transport.Dial k (selectProto state opts) w).pc.bind persistConn.c with
    | none =>
      rw [Connect_nil_conn k fuel p state opts w hd hc]
      refine ⟨fun _ => ⟨rfl, rfl⟩, fun h => ?_⟩
      rcases h with h | ⟨h, _⟩
      · exact absurd rfl h
      · exact absurd rfl h
    | some c0 =>
      cases hw : w.writeErr with
      | some e =>
        rw [Connect_write_error k fuel p state opts w c0 e hd hc hw]
        exact ⟨fun _ => ⟨rfl, rfl⟩, fun _ => rfl⟩
      | none =>
        cases hl : readLoop w.reads w.newId fuel 0 with
        | running n =>
          rw [Connect_running k fuel p state opts w c0 n hd hc hw hl]
          refine ⟨fun h => absurd rfl h, fun h => ?_⟩
          rcases h with h | ⟨_, h | ⟨n1, hlt, hs⟩⟩
          · exact absurd rfl h
          · exact absurd rfl h
          · exact absurd hl
              (readLoop_stops w.reads w.newId fuel 0 ⟨n1, Nat.zero_le n1, by omega, hs⟩ n)
        | matched m0 n =>
          rw [Connect_matched k fuel p state opts w c0 m0 n hd hc hw hl]
          exact ⟨fun _ => ⟨rfl, rfl⟩, fun _ => rfl⟩
        | failed ret e n =>
          rw [Connect_read_error k fuel p state opts w c0 ret e n hd hc hw hl]
          exact ⟨fun _ => ⟨rfl, rfl⟩, fun _ => rfl⟩

/-- The read-error path of the example: Connect comes back and the request
still carries ID 0x1234. -/
theorem Connect_preserves_request_id_witness :
    (exProxy.Connect exConsts 1 exRequest ⟨false, false⟩ exWorldReadError).status = .returned ∧
    (exProxy.Connect exConsts 1 exRequest ⟨false, false⟩ exWorldReadError).Req.Id = 0x1234 :=
  ⟨(Connect_preserves_request_id exConsts 1 exProxy exRequest ⟨false, false⟩ exWorldReadError).2
      (Or.inr ⟨by decide, Or.inr ⟨0, by decide, Or.inl ⟨some exReply, .other 1, rfl⟩⟩⟩),
    ((Connect_preserves_request_id exConsts 1 exProxy exRequest ⟨false, false⟩
      exWorldReadError).1 (by decide)).1⟩

/-- C5, as stated, fails: when `dns.Id()` draws 0x1234 for a query whose ID
is 0x1234, the one message written to the upstream carries the ID of the
original query. -/
theorem Connect_wire_id_collision :
    List.map Msg.Id (written (exProxy.Connect exConsts 1 exRequest ⟨false, false⟩
      exWorldSameId).trace) = [0x1234] ∧ exRequest.Req.Id = 0x1234 := by
  decide

/-- C5, amended: after a successful Dial exactly one message is written to
the upstream, the query with its ID replaced by the value drawn from
`dns.Id()`; its ID differs from the original query's ID whenever the drawn
value does. -/
theorem Connect_wire_id (k : Consts) (fuel : Nat) (p : Proxy) (state : Request)
    (opts : options) (w : World) (c0 : Conn)
    (hd : (p.transport.Dial k (selectProto state opts) w).err = none)
    (hc : (p.transport.Dial k (selectProto state opts) w).pc.bind persistConn.c = some c0) :
    written (p.Connect k fuel state opts w).trace = [{ state.Req with Id := w.newId }] ∧
    (w.newId ≠ state.Req.Id →
      ∀ m, m ∈ written (p.Connect k fuel state opts w).trace → m.Id ≠ state.Req.Id) := by
  have hq := (Dial_trace_quiet k p.transport (selectProto state opts) w).1
  have key : written (p.Connect k fuel state opts w).trace = [{ state.Req with Id := w.newId }] := by
    simp only [written] at hq ⊢
    cases hw : w.writeErr with
    | some e =>
      rw [Connect_write_error k fuel p state opts w c0 e hd hc hw]
      simp [List.filterMap_append, hq, Event.written?]
    | none =>
      cases hl : readLoop w.reads w.newId fuel 0 with
      | running n =>
        rw [Connect_running k fuel p state opts w c0 n hd hc hw hl]
        simp [List.filterMap_append, hq, Event.written?, List.filterMap_replicate]
      | matched m0 n =>
        rw [Connect_matched k fuel p state opts w c0 m0 n hd hc hw hl]
        simp [List.filterMap_append, hq, Event.written?, List.filterMap_replicate]
      | failed ret e n =>
        rw [Connect_read_error k fuel p state opts w c0 ret e n hd hc hw hl]
        simp [List.filterMap_append, hq, Event.written?, List.filterMap_replicate]
  refine ⟨key, fun hne m hm => ?_⟩
  rw [key] at hm
  simp only [List.mem_singleton] at hm
  subst hm
  exact hne

/-- The example scenario: the query with ID 0x1234 goes out with ID
0xABCD. -/
theorem Connect_wire_id_witness :
    written (exProxy.Connect exConsts 1 exRequest ⟨false, false⟩ exWorld).trace
      = [{ exRequest.Req with Id := 0xABCD }] :=
  (Connect_wire_id exConsts 1 exProxy exRequest ⟨false, false⟩ exWorld ⟨7, 0⟩
    (by decide) (by decide)).1

/-- The effects of Connect on the connection after a successful Dial:
the connections yielded and closed on each way out. -/
theorem Connect_yield_close (k : Consts) (fuel : Nat) (p : Proxy) (state : Request)
    (opts : options) (w : World) (c0 : Conn)
    (hd : (p.transport.Dial k (selectProto state opts) w).err = none)
    (hc : (p.transport.Dial k (selectProto state opts) w).pc.bind persistConn.c = some c0) :
    ((p.Connect k fuel state opts w).status = .returned ∧
      (p.Connect k fuel state opts w).err = none ∧
      yielded (p.Connect k fuel state opts w).trace = [{ c := some (c0.sized state) }] ∧
      closed (p.Connect k fuel state opts w).trace = []) ∨
    ((p.Connect k fuel state opts w).status = .returned ∧
      (p.Connect k fuel state opts w).err ≠ none ∧
      yielded (p.Connect k fuel state opts w).trace = [] ∧
      closed (p.Connect k fuel state opts w).trace = [c0.id]) ∨
    (p.Connect k fuel state opts w).status = .running := by
  have hq := Dial_trace_quiet k p.transport (selectProto state opts) w
  have hy := hq.2.1
  have hcl := hq.2.2.1
  simp only [yielded, closed] at hy hcl ⊢
  cases hw : w.writeErr with
  | some e =>
    rw [Connect_write_error k fuel p state opts w c0 e hd hc hw]
    refine Or.inr (Or.inl ⟨rfl, by simp, ?_, ?_⟩)
    · simp [List.filterMap_append, hy, Event.yielded?]
    · simp [List.filterMap_append, hcl, Event.closed?]
  | none =>
    cases hl : readLoop w.reads w.newId fuel 0 with
    | running n =>
      rw [Connect_running k fuel p state opts w c0 n hd hc hw hl]
      exact Or.inr (Or.inr rfl)
    | matched m0 n =>
      rw [Connect_matched k fuel p state opts w c0 m0 n hd hc hw hl]
      refine Or.inl ⟨rfl, rfl, ?_, ?_⟩
      · simp [List.filterMap_append, hy, Event.yielded?, List.filterMap_replicate]
      · simp [List.filterMap_append, hcl, Event.closed?, List.filterMap_replicate]
    | failed ret e n =>
      rw [Connect_read_error k fuel p state opts w c0 ret e n hd hc hw hl]
      refine Or.inr (Or.inl ⟨rfl, by simp, ?_, ?_⟩)
      · simp [List.filterMap_append, hy, Event.yielded?, List.filterMap_replicate]
      · simp [List.filterMap_append, hcl, Event.closed?, List.filterMap_replicate]

/-- C6: once Dial has succeeded, a Connect that returns a nil error has
handed the connection to Yield exactly once and has not closed it; a
Connect that returns an error has closed the connection (once) and has
yielded nothing. Every failure of the write or of a read, the cached
end-of-file case included, makes Connect return an error, and a first
matching reply makes it return a nil error. -/
theorem Connect_disposal (k : Consts) (fuel : Nat) (p : Proxy) (state : Request)
    (opts : options) (w : World) (c0 : Conn)
    (hd : (p.transport.Dial k (selectProto state opts) w).err = none)
    (hc : (p.transport.Dial k (selectProto state opts) w).pc.bind persistConn.c = some c0) :
    ((p.Connect k fuel state opts w).status = .returned →
      (p.Connect k fuel state opts w).err = none →
      yielded (p.Connect k fuel state opts w).trace = [{ c := some (c0.sized state) }] ∧
      closed (p.Connect k fuel state opts w).trace = []) ∧
    ((p.Connect k fuel state opts w).status = .returned →
      (p.Connect k fuel state opts w).err ≠ none →
      closed (p.Connect k fuel state opts w).trace = [c0.id] ∧
      yielded (p.Connect k fuel state opts w).trace = []) ∧
    (∀ e, w.ioFails fuel e →
      (p.Connect k fuel state opts w).status = .returned ∧
      (p.Connect k fuel state opts w).err ≠ none ∧
      closed (p.Connect k fuel state opts w).trace = [c0.id] ∧
      yielded (p.Connect k fuel state opts w).trace = []) ∧
    (∀ n m, w.writeErr = none → w.dropped n → w.reads n = .ok m → m.Id = w.newId → n < fuel →
      (p.Connect k fuel state opts w).status = .returned ∧
      (p.Connect k fuel state opts w).err = none ∧
      yielded (p.Connect k fuel state opts w).trace = [{ c := some (c0.sized state) }] ∧
      closed (p.Connect k fuel state opts w).trace = []) := by
  have hyc := Connect_yield_close k fuel p state opts w c0 hd hc
  have hA : (p.Connect k fuel state opts w).status = .returned →
      (p.Connect k fuel state opts w).err = none →
      yielded (p.Connect k fuel state opts w).trace = [{ c := some (c0.sized state) }] ∧
      closed (p.Connect k fuel state opts w).trace = [] := by
    intro hs he
    rcases hyc with ⟨_, _, h1, h2⟩ | ⟨_, hne, _, _⟩ | hr
    · exact ⟨h1, h2⟩
    · exact absurd he hne
    · rw [hs] at hr; cases hr
  have hB : (p.Connect k fuel state opts w).status = .returned →
      (p.Connect k fuel state opts w).err ≠ none →
      closed (p.Connect k fuel state opts w).trace = [c0.id] ∧
      yielded (p.Connect k fuel state opts w).trace = [] := by
    intro hs he
    rcases hyc with ⟨_, hn, _, _⟩ | ⟨_, _, h1, h2⟩ | hr
    · exact absurd hn he
    · exact ⟨h2, h1⟩
    · rw [hs] at hr; cases hr
  refine ⟨hA, hB, ?_, ?_⟩
  · intro e hf
    have hs : (p.Connect k fuel state opts w).status = .returned ∧
        (p.Connect k fuel state opts w).err ≠ none := by
      rcases hf with hw | ⟨n, hlt, hw, hs, ret, hn⟩
      · rw [Connect_write_error k fuel p state opts w c0 e hd hc hw]
        exact ⟨rfl, by simp⟩
      · have hl := readLoop_fail w.reads w.newId ret e n fuel 0 hlt
          (fun j _ h2 => hs j (by omega)) (by rw [Nat.zero_add]; exact hn)
        rw [Connect_read_error k fuel p state opts w c0 ret e (0 + n + 1) hd hc hw hl]
        exact ⟨rfl, by simp⟩
    exact ⟨hs.1, hs.2, hB hs.1 hs.2⟩
  · intro n m hw hdrop hm hid hfuel
    have hl := readLoop_match w.reads w.newId m n fuel 0 hfuel
      (fun j _ h2 => hdrop j (by omega)) (by rw [Nat.zero_add]; exact hm) hid
    have hs : (p.Connect k fuel state opts w).status = .returned ∧
        (p.Connect k fuel state opts w).err = none := by
      rw [Connect_matched k fuel p state opts w c0 m (0 + n + 1) hd hc hw hl]
      exact ⟨rfl, rfl⟩
    exact ⟨hs.1, hs.2, hA hs.1 hs.2⟩

/-- The example scenario yields connection 7 and closes nothing; the
reused connection whose write hits end-of-file is closed and not yielded. -/
theorem Connect_disposal_witness :
    (yielded (exProxy.Connect exConsts 1 exRequest ⟨false, false⟩ exWorld).trace
        = [{ c := some ⟨7, 512⟩ }] ∧
      closed (exProxy.Connect exConsts 1 exRequest ⟨false, false⟩ exWorld).trace = []) ∧
    (closed (exProxy.Connect exConsts 1 exRequest ⟨false, false⟩ exWorldCachedEOF).trace = [3] ∧
      yielded (exProxy.Connect exConsts 1 exRequest ⟨false, false⟩ exWorldCachedEOF).trace = []) :=
  ⟨(Connect_disposal exConsts 1 exProxy exRequest ⟨false, false⟩ exWorld ⟨7, 0⟩
      (by decide) (by decide)).1 (by decide) (by decide),
    (Connect_disposal exConsts 1 exProxy exRequest ⟨false, false⟩ exWorldCachedEOF ⟨3, 512⟩
      (by decide) (by decide)).2.1 (by decide) (by decide)⟩

/-- Dial records its own invocation first. -/
theorem Dial_trace_head (k : Consts) (t : Transport) (proto : String) (w : World) :
    ∃ rest, (t.Dial k proto w).trace = Event.Dial proto :: rest := by
  unfold Transport.Dial
  cases w.ret with
  | some pc => exact ⟨_, rfl⟩
  | none => simp only; split_ifs <;> exact ⟨_, rfl⟩

/-- The first effect of Connect is the call of Dial with the selected
protocol. -/
theorem Connect_trace_head (k : Consts) (fuel : Nat) (p : Proxy) (state : Request)
    (opts : options) (w : World) :
    (p.Connect k fuel state opts w).trace.head? = some (Event.Dial (selectProto state opts)) := by
  obtain ⟨rest, hrest⟩ := Dial_trace_head k p.transport (selectProto state opts) w
  cases hd : (p.transport.Dial k (selectProto state opts) w).err with
  | some err =>
    rw [Connect_dial_error k fuel p state opts w err hd, hrest]; rfl
  | none =>
    cases hc : (p.transport.Dial k (selectProto state opts) w).pc.bind persistConn.c with
    | none =>
      rw [Connect_nil_conn k fuel p state opts w hd hc, hrest]; rfl
    | some c0 =>
      cases hw : w.writeErr with
      | some e =>
        rw [Connect_write_error k fuel p state opts w c0 e hd hc hw, hrest]; rfl
      | none =>
        cases hl : readLoop w.reads w.newId fuel 0 with
        | running n =>
          rw [Connect_running k fuel p state opts w c0 n hd hc hw hl, hrest]; rfl
        | matched m0 n =>
          rw [Connect_matched k fuel p state opts w c0 m0 n hd hc hw hl, hrest]; rfl
        | failed ret e n =>
          rw [Connect_read_error k fuel p state opts w c0 ret e n hd hc hw hl, hrest]; rfl

/-- C7: the first thing Connect does is call Dial, with protocol "tcp"
whenever forceTCP is set (preferUDP set or not), with "udp" when only
preferUDP is set, and with the client's own protocol when neither is. -/
theorem Connect_selects_protocol (k : Consts) (fuel : Nat) (p : Proxy) (state : Request)
    (opts : options) (w : World) :
    (opts.forceTCP = true →
      (p.Connect k fuel state opts w).trace.head? = some (Event.Dial "tcp")) ∧
    (opts.forceTCP = false → opts.preferUDP = true →
      (p.Connect k fuel state opts w).trace.head? = some (Event.Dial "udp")) ∧
    (opts.forceTCP = false → opts.preferUDP = false →
      (p.Connect k fuel state opts w).trace.head? = some (Event.Dial state.Proto)) := by
  rw [Connect_trace_head]
  refine ⟨fun h => ?_, fun h1 h2 => ?_, fun h1 h2 => ?_⟩
  · simp [selectProto, h]
  · simp [selectProto, h1, h2]
  · simp [selectProto, h1, h2]

/-- With both options set on a UDP client, Dial is called with "tcp". -/
theorem Connect_selects_protocol_witness :
    (exProxy.Connect exConsts 1 exRequest ⟨true, true⟩ exWorld).trace.head?
      = some (Event.Dial "tcp") :=
  (Connect_selects_protocol exConsts 1 exProxy exRequest ⟨true, true⟩ exWorld).1 rfl

/-! ## Properties of Dial -/

/-- A value inside the signed 64-bit range is left alone by the wrap. -/
theorem wrapInt64_of_inRange (x : Int) (h1 : -2 ^ 63 ≤ x) (h2 : x < 2 ^ 63) :
    wrapInt64 x = x := by
  unfold wrapInt64
  omega

/-- The quotient by 4 truncated toward zero lies between zero and the
dividend. -/
theorem tdiv_four_bounds (x : Int) :
    (0 ≤ x → 0 ≤ Int.tdiv x 4 ∧ Int.tdiv x 4 ≤ x) ∧
    (x ≤ 0 → x ≤ Int.tdiv x 4 ∧ Int.tdiv x 4 ≤ 0) := by
  constructor
  · intro h
    rw [Int.tdiv_eq_ediv h (by decide)]
    omega
  · intro h
    have h2 : Int.tdiv x 4 = -((-x) / 4) := by
      rw [← Int.tdiv_eq_ediv (by omega) (by decide), Int.neg_tdiv, Int.neg_neg]
    rw [h2]
    omega

/-- C8: a Transport with a TLS configuration asks the connection cache for
protocol "tcp-tls" whatever protocol Dial was called with, and on a miss
makes its one network dial with TLS, using that configuration. -/
theorem Dial_tls_forces_tcp_tls (k : Consts) (t : Transport) (proto : String) (w : World)
    (cfg : TLSConfig) (htls : t.tlsConfig = some cfg) :
    (Event.dialChan "tcp-tls" ∈ (t.Dial k proto w).trace ∧
      ∀ q, Event.dialChan q ∈ (t.Dial k proto w).trace → q = "tcp-tls") ∧
    (∀ pc, w.ret = some pc →
      (t.Dial k proto w).trace =
        [Event.Dial proto, Event.dialChan "tcp-tls",
         Event.ConnCacheHitsCount t.addr "tcp-tls"]) ∧
    (w.ret = none →
      (t.Dial k proto w).trace =
        [Event.Dial proto, Event.dialChan "tcp-tls",
         Event.ConnCacheMissesCount t.addr "tcp-tls",
         Event.DialTimeoutWithTLS "tcp" t.addr (some cfg) (t.dialTimeout k)]) := by
  cases hr : w.ret with
  | some pc =>
    have ht : (t.Dial k proto w).trace =
        [Event.Dial proto, Event.dialChan "tcp-tls",
         Event.ConnCacheHitsCount t.addr "tcp-tls"] := by
      simp [Transport.Dial, hr, htls]
    rw [ht]
    refine ⟨⟨by simp, fun q hq => ?_⟩, fun _ _ => rfl, fun h => (by cases h)⟩
    simp at hq
    exact hq
  | none =>
    have ht : (t.Dial k proto w).trace =
        [Event.Dial proto, Event.dialChan "tcp-tls",
         Event.ConnCacheMissesCount t.addr "tcp-tls",
         Event.DialTimeoutWithTLS "tcp" t.addr (some cfg) (t.dialTimeout k)] := by
      simp [Transport.Dial, hr, htls]
    rw [ht]
    refine ⟨⟨by simp, fun q hq => ?_⟩, fun pc h => (by cases h), fun _ => rfl⟩
    simp at hq
    exact hq

/-- A TLS transport asked for "udp" on an empty cache dials "tcp" with
TLS and asks the cache for "tcp-tls". -/
theorem Dial_tls_forces_tcp_tls_witness :
    exTransportTLS.tlsConfig = some 1 ∧
    (exTransportTLS.Dial exConsts "udp" exWorld).trace =
      [Event.Dial "udp", Event.dialChan "tcp-tls",
       Event.ConnCacheMissesCount "127.0.0.1:5300" "tcp-tls",
       Event.DialTimeoutWithTLS "tcp" "127.0.0.1:5300" (some 1)
         (exTransportTLS.dialTimeout exConsts)] :=
  ⟨rfl, (Dial_tls_forces_tcp_tls exConsts exTransportTLS "udp" exWorld 1 rfl).2.2 rfl⟩

/-- C9: when the connection manager answers with a connection, Dial
returns that very connection with wasCached = true and a nil error, makes
no network dial, and leaves the transport, its average dial time included,
as it was. -/
theorem Dial_cache_hit (k : Consts) (t : Transport) (proto : String) (w : World)
    (pc : persistConn) (h : w.ret = some pc) :
    (t.Dial k proto w).pc = some pc ∧ (t.Dial k proto w).cached = true ∧
    (t.Dial k proto w).err = none ∧ netDials (t.Dial k proto w).trace = [] ∧
    (t.Dial k proto w).transport.avgDialTime = t.avgDialTime ∧
    (t.Dial k proto w).transport = t := by
  simp [Transport.Dial, h, netDials, Event.netDial?]

/-- A cache hit on the example transport: connection 3 comes back, no
network dial is made, the average stays 0. -/
theorem Dial_cache_hit_witness :
    exWorldCached.ret = some { c := some { id := 3, UDPSize := 512 } } ∧
    (exTransport.Dial exConsts "udp" exWorldCached).pc
      = some { c := some { id := 3, UDPSize := 512 } } ∧
    netDials (exTransport.Dial exConsts "udp" exWorldCached).trace = [] ∧
    (exTransport.Dial exConsts "udp" exWorldCached).transport.avgDialTime = 0 :=
  ⟨rfl,
    (Dial_cache_hit exConsts exTransport "udp" exWorldCached
      { c := some { id := 3, UDPSize := 512 } } rfl).1,
    (Dial_cache_hit exConsts exTransport "udp" exWorldCached
      { c := some { id := 3, UDPSize := 512 } } rfl).2.2.2.1,
    (Dial_cache_hit exConsts exTransport "udp" exWorldCached
      { c := some { id := 3, UDPSize := 512 } } rfl).2.2.2.2.1⟩

/-- C10: on a cache miss Dial makes exactly one network dial, with timeout
limitTimeout(avg, minDialTimeout, maxDialTimeout) taken from the average
before the dial, returns wasCached = false together with the outcome of
that dial, and stores avg + (elapsed - avg)/4 as the new average whether
the dial succeeded or not: in 64-bit arithmetic always, and as the exact
integer value whenever avg, elapsed and their difference fit in 64 bits. -/
theorem Dial_cache_miss (k : Consts) (t : Transport) (proto : String) (w : World)
    (h : w.ret = none) :
    netDials (t.Dial k proto w).trace =
      [limitTimeout t.avgDialTime k.minDialTimeout k.maxDialTimeout] ∧
    (t.Dial k proto w).cached = false ∧
    (t.Dial k proto w).err = w.dialOutcome.err ∧
    (t.Dial k proto w).pc = some { c := w.dialOutcome.conn } ∧
    (t.Dial k proto w).transport.avgDialTime =
      wrapInt64 (t.avgDialTime + Int.tdiv (wrapInt64 (w.dialElapsed - t.avgDialTime)) 4) ∧
    (-2 ^ 63 ≤ t.avgDialTime ∧ t.avgDialTime < 2 ^ 63 ∧
      -2 ^ 63 ≤ w.dialElapsed ∧ w.dialElapsed < 2 ^ 63 ∧
      -2 ^ 63 ≤ w.dialElapsed - t.avgDialTime ∧ w.dialElapsed - t.avgDialTime < 2 ^ 63 →
      (t.Dial k proto w).transport.avgDialTime =
        t.avgDialTime + Int.tdiv (w.dialElapsed - t.avgDialTime) 4) := by
  have havg : (t.Dial k proto w).transport.avgDialTime =
      wrapInt64 (t.avgDialTime + Int.tdiv (wrapInt64 (w.dialElapsed - t.avgDialTime)) 4) := by
    simp only [Transport.Dial, h]
    split_ifs <;> rfl
  refine ⟨?_, ?_, ?_, ?_, havg, ?_⟩
  · simp only [Transport.Dial, h]
    split_ifs <;> simp [netDials, Event.netDial?, Transport.dialTimeout]
  · simp only [Transport.Dial, h]
    split_ifs <;> rfl
  · simp only [Transport.Dial, h]
    split_ifs <;> rfl
  · simp only [Transport.Dial, h]
    split_ifs <;> rfl
  · rintro ⟨h1, h2, h3, h4, h5, h6⟩
    rw [havg, wrapInt64_of_inRange (w.dialElapsed - t.avgDialTime) h5 h6]
    have hb := tdiv_four_bounds (w.dialElapsed - t.avgDialTime)
    apply wrapInt64_of_inRange
    · rcases Int.le_total 0 (w.dialElapsed - t.avgDialTime) with hs | hs
      · have := hb.1 hs; omega
      · have := hb.2 hs; omega
    · rcases Int.le_total 0 (w.dialElapsed - t.avgDialTime) with hs | hs
      · have := hb.1 hs; omega
      · have := hb.2 hs; omega

/-- The example transport on an empty cache: one dial with the minimum
timeout of 1s (the average is 0), and a dial that took 4ms moves the
average from 0 to 1ms. -/
theorem Dial_cache_miss_witness :
    exWorld.ret = none ∧
    netDials (exTransport.Dial exConsts "udp" exWorld).trace = [1000000000] ∧
    (exTransport.Dial exConsts "udp" exWorld).transport.avgDialTime = 1000000 :=
  ⟨rfl,
    (Dial_cache_miss exConsts exTransport "udp" exWorld rfl).1.trans (by decide),
    (Dial_cache_miss exConsts exTransport "udp" exWorld rfl).2.2.2.2.1.trans (by decide)⟩

/-- C11, as stated, fails: when the network dial is refused, Dial returns
the dial error together with a pointer that is not nil, a persistConn
whose connection field is nil. -/
theorem Dial_network_failure_not_nil :
    (exTransport.Dial exConsts "udp" exWorldDialFail).err = some (error.io (.other 111)) ∧
    (exTransport.Dial exConsts "udp" exWorldDialFail).pc = some { c := none } ∧
    (exTransport.Dial exConsts "udp" exWorldDialFail).pc ≠ none := by
  decide

/-- C11, amended: when the network dial fails, Dial returns the dial error
unchanged, wasCached = false and a non-nil persistConn that holds no
connection (its field `c` is nil). -/
theorem Dial_network_failure (k : Consts) (t : Transport) (proto : String) (w : World)
    (e : IOError) (hret : w.ret = none) (hfail : w.dialOutcome = .fail e) :
    (t.Dial k proto w).err = some (error.io e) ∧
    (t.Dial k proto w).pc = some { c := none } ∧
    (t.Dial k proto w).pc.bind persistConn.c = none ∧
    (t.Dial k proto w).cached = false := by
  simp only [Transport.Dial, hret, hfail]
  split_ifs <;> simp [DialOutcome.err, DialOutcome.conn]

/-- The refused dial of the example returns error 111 and a persistConn
without connection. -/
theorem Dial_network_failure_witness :
    exWorldDialFail.ret = none ∧ exWorldDialFail.dialOutcome = .fail (.other 111) ∧
    (exTransport.Dial exConsts "udp" exWorldDialFail).err = some (error.io (.other 111)) ∧
    (exTransport.Dial exConsts "udp" exWorldDialFail).pc = some { c := none } :=
  ⟨rfl, rfl,
    (Dial_network_failure exConsts exTransport "udp" exWorldDialFail (.other 111) rfl rfl).1,
    (Dial_network_failure exConsts exTransport "udp" exWorldDialFail (.other 111) rfl rfl).2.1⟩

/-- C12, as stated, fails: on a transport flagged unhealthy with an empty
cache, Dial makes the network dial and returns a nil error. -/
theorem Dial_unhealthy_dials :
    exTransportUnhealthy.health = Health.unhealthy ∧
    netDials (exTransportUnhealthy.Dial exConsts "udp" exWorld).trace = [1000000000] ∧
    (exTransportUnhealthy.Dial exConsts "udp" exWorld).err = none := by
  decide

/-- C12, amended: Dial does not consult the health flag. Whatever the flag,
Dial returns the same connection, cached flag and error and performs the
same effects, and it leaves the flag as it was; on a cache miss it makes
the network dial also when the upstream is flagged unhealthy. -/
theorem Dial_ignores_health (k : Consts) (t : Transport) (proto : String) (w : World)
    (h : Health) :
    (Transport.Dial k { t with health := h } proto w).pc = (t.Dial k proto w).pc ∧
    (Transport.Dial k { t with health := h } proto w).cached = (t.Dial k proto w).cached ∧
    (Transport.Dial k { t with health := h } proto w).err = (t.Dial k proto w).err ∧
    (Transport.Dial k { t with health := h } proto w).trace = (t.Dial k proto w).trace ∧
    (Transport.Dial k { t with health := h } proto w).transport =
      { (t.Dial k proto w).transport with health := h } ∧
    (w.ret = none →
      (netDials (Transport.Dial k { t with health := Health.unhealthy } proto w).trace).length
        = 1) := by
  refine ⟨?_, ?_, ?_, ?_, ?_, ?_⟩
  · simp only [Transport.Dial]
    cases w.ret with
    | some pc => rfl
    | none => simp only; split_ifs <;> rfl
  · simp only [Transport.Dial]
    cases w.ret with
    | some pc => rfl
    | none => simp only; split_ifs <;> rfl
  · simp only [Transport.Dial]
    cases w.ret with
    | some pc => rfl
    | none => simp only; split_ifs <;> rfl
  · simp only [Transport.Dial, Transport.dialTimeout]
    cases w.ret with
    | some pc => rfl
    | none => simp only; split_ifs <;> rfl
  · simp only [Transport.Dial, Transport.updateDialTimeout]
    cases w.ret with
    | some pc => rfl
    | none => simp only; split_ifs <;> rfl
  · intro hret
    simp only [Transport.Dial, hret]
    split_ifs <;> simp [netDials, Event.netDial?]

/-- Dial records one call of itself and at most one network dial. -/
theorem Dial_trace_calls (k : Consts) (t : Transport) (proto : String) (w : World) :
    dialCalls (t.Dial k proto w).trace = [proto] ∧
    (netDials (t.Dial k proto w).trace).length ≤ 1 := by
  unfold Transport.Dial
  cases w.ret with
  | some pc => simp [dialCalls, netDials, Event.dialCall?, Event.netDial?]
  | none =>
    simp only
    split_ifs <;> simp [dialCalls, netDials, Event.dialCall?, Event.netDial?]

/-- Whatever path Connect takes, the calls of Dial and the network dials
in its trace are those of its one call of Dial. -/
theorem Connect_trace_dials (k : Consts) (fuel : Nat) (p : Proxy) (state : Request)
    (opts : options) (w : World) :
    dialCalls (p.Connect k fuel state opts w).trace =
      dialCalls (p.transport.Dial k (selectProto state opts) w).trace ∧
    netDials (p.Connect k fuel state opts w).trace =
      netDials (p.transport.Dial k (selectProto state opts) w).trace := by
  simp only [dialCalls, netDials]
  cases hd : (p.transport.Dial k (selectProto state opts) w).err with
  | some err =>
    rw [Connect_dial_error k fuel p state opts w err hd]
    exact ⟨rfl, rfl⟩
  | none =>
    cases hc : (p.transport.Dial k (selectProto state opts) w).pc.bind persistConn.c with
    | none =>
      rw [Connect_nil_conn k fuel p state opts w hd hc]
      exact ⟨rfl, rfl⟩
    | some c0 =>
      cases hw : w.writeErr with
      | some e =>
        rw [Connect_write_error k fuel p state opts w c0 e hd hc hw]
        simp [List.filterMap_append, Event.dialCall?, Event.netDial?]
      | none =>
        cases hl : readLoop w.reads w.newId fuel 0 with
        | running n =>
          rw [Connect_running k fuel p state opts w c0 n hd hc hw hl]
          simp [List.filterMap_append, Event.dialCall?, Event.netDial?,
            List.filterMap_replicate]
        | matched m0 n =>
          rw [Connect_matched k fuel p state opts w c0 m0 n hd hc hw hl]
          simp [List.filterMap_append, Event.dialCall?, Event.netDial?,
            List.filterMap_replicate]
        | failed ret e n =>
          rw [Connect_read_error k fuel p state opts w c0 ret e n hd hc hw hl]
          simp [List.filterMap_append, Event.dialCall?, Event.netDial?,
            List.filterMap_replicate]

/-- C13: when Dial returns an error, Connect returns at once with a nil
reply and exactly that error; its only effects are those of Dial itself,
so nothing is written, read, closed or yielded. On every path Connect
calls Dial exactly once, with the selected protocol, and at most one
network dial is made: a failed dial is never retried. -/
theorem Connect_dial_failure (k : Consts) (fuel : Nat) (p : Proxy) (state : Request)
    (opts : options) (w : World) :
    (∀ err, (p.transport.Dial k (selectProto state opts) w).err = some err →
      (p.Connect k fuel state opts w).status = .returned ∧
      (p.Connect k fuel state opts w).ret = none ∧
      (p.Connect k fuel state opts w).err = some err ∧
      (p.Connect k fuel state opts w).trace =
        (p.transport.Dial k (selectProto state opts) w).trace ∧
      written (p.Connect k fuel state opts w).trace = [] ∧
      readsOf (p.Connect k fuel state opts w).trace = [] ∧
      closed (p.Connect k fuel state opts w).trace = [] ∧
      yielded (p.Connect k fuel state opts w).trace = []) ∧
    dialCalls (p.Connect k fuel state opts w).trace = [selectProto state opts] ∧
    (netDials (p.Connect k fuel state opts w).trace).length ≤ 1 := by
  have hq := Dial_trace_quiet k p.transport (selectProto state opts) w
  have hcalls := Dial_trace_calls k p.transport (selectProto state opts) w
  have hdl := Connect_trace_dials k fuel p state opts w
  refine ⟨fun err hd => ?_, ?_, ?_⟩
  · rw [Connect_dial_error k fuel p state opts w err hd]
    exact ⟨rfl, rfl, rfl, rfl, hq.1, hq.2.2.2, hq.2.2.1, hq.2.1⟩
  · rw [hdl.1]; exact hcalls.1
  · rw [hdl.2]; exact hcalls.2

/-- The refused dial of the example: Connect returns error 111 and a nil
reply after one call of Dial and one network dial, with nothing written. -/
theorem Connect_dial_failure_witness :
    (exProxy.Connect exConsts 1 exRequest ⟨false, false⟩ exWorldDialFail).err
      = some (error.io (.other 111)) ∧
    (exProxy.Connect exConsts 1 exRequest ⟨false, false⟩ exWorldDialFail).ret = none ∧
    written (exProxy.Connect exConsts 1 exRequest ⟨false, false⟩ exWorldDialFail).trace = [] ∧
    dialCalls (exProxy.Connect exConsts 1 exRequest ⟨false, false⟩ exWorldDialFail).trace
      = ["udp"] :=
  ⟨((Connect_dial_failure exConsts 1 exProxy exRequest ⟨false, false⟩ exWorldDialFail).1
      (error.io (.other 111)) (by decide)).2.2.1,
    ((Connect_dial_failure exConsts 1 exProxy exRequest ⟨false, false⟩ exWorldDialFail).1
      (error.io (.other 111)) (by decide)).2.1,
    ((Connect_dial_failure exConsts 1 exProxy exRequest ⟨false, false⟩ exWorldDialFail).1
      (error.io (.other 111)) (by decide)).2.2.2.2.1,
    (Connect_dial_failure exConsts 1 exProxy exRequest ⟨false, false⟩ exWorldDialFail).2.1⟩

/-! ## Properties of the timeout helpers -/

/-- The quotient by 2 truncated toward zero, in terms of the quotient
that rounds down. -/
theorem tdiv_two_cases (x : Int) :
    (0 ≤ x → Int.tdiv x 2 = x / 2) ∧ (x < 0 → Int.tdiv x 2 = -((-x) / 2)) := by
  constructor
  · intro h
    exact Int.tdiv_eq_ediv h (by decide)
  · intro h
    rw [← Int.tdiv_eq_ediv (by omega) (by decide), Int.neg_tdiv, Int.neg_neg]

/-- C14: limitTimeout computes its reference definition: min if
avg < min, otherwise 2*avg if avg < max/2 (the quotient truncated toward
zero), otherwise max. For all 64-bit bounds the value returned is the
reference value as a 64-bit integer, and it is the reference value itself
whenever avg or min is at least -2^62, in particular for every
non-negative lower bound. -/
theorem limitTimeout_eq_ref (avg min max : Int) (hmin : inInt64 min) (hmax : inInt64 max) :
    limitTimeout avg min max = wrapInt64 (limitTimeoutRef avg min max) ∧
    ((-2 ^ 62 ≤ avg ∨ -2 ^ 62 ≤ min) →
      limitTimeout avg min max = limitTimeoutRef avg min max) ∧
    (avg < min → limitTimeout avg min max = min) ∧
    (¬ avg < min → avg < Int.tdiv max 2 → limitTimeout avg min max = wrapInt64 (2 * avg)) ∧
    (¬ avg < min → ¬ avg < Int.tdiv max 2 → limitTimeout avg min max = max) := by
  obtain ⟨hmin1, hmin2⟩ := hmin
  obtain ⟨hmax1, hmax2⟩ := hmax
  have ht := tdiv_two_cases max
  refine ⟨?_, ?_, ?_, ?_, ?_⟩
  · unfold limitTimeout limitTimeoutRef
    simp only
    split_ifs
    · exact (wrapInt64_of_inRange min hmin1 hmin2).symm
    · rfl
    · exact (wrapInt64_of_inRange max hmax1 hmax2).symm
  · intro h
    unfold limitTimeout limitTimeoutRef
    simp only
    split_ifs with h1 h2
    · rfl
    · apply wrapInt64_of_inRange
      · omega
      · rcases Int.lt_or_le max 0 with hm | hm
        · rw [ht.2 hm] at h2; omega
        · rw [ht.1 hm] at h2; omega
    · rfl
  · intro h
    simp [limitTimeout, h]
  · intro h1 h2
    simp [limitTimeout, h1, h2]
  · intro h1 h2
    simp [limitTimeout, h1, h2]

/-- With bounds of 1s and 30s, an average of 5s gives 10s, an average of
4ms gives 1s and an average of 20s gives 30s. -/
theorem limitTimeout_eq_ref_witness :
    inInt64 1000000000 ∧ inInt64 30000000000 ∧
    limitTimeout 5000000000 1000000000 30000000000 = 10000000000 ∧
    limitTimeout 4000000 1000000000 30000000000 = 1000000000 ∧
    limitTimeout 20000000000 1000000000 30000000000 = 30000000000 :=
  ⟨by unfold inInt64; decide, by unfold inInt64; decide,
    ((limitTimeout_eq_ref 5000000000 1000000000 30000000000 (by unfold inInt64; decide)
      (by unfold inInt64; decide)).2.1 (Or.inl (by decide))).trans (by decide),
    (limitTimeout_eq_ref 4000000 1000000000 30000000000 (by unfold inInt64; decide)
      (by unfold inInt64; decide)).2.2.1 (by decide),
    (limitTimeout_eq_ref 20000000000 1000000000 30000000000 (by unfold inInt64; decide)
      (by unfold inInt64; decide)).2.2.2.2 (by decide) (by decide)⟩

/-- C15: for bounds with 0 <= min <= max (max a 64-bit value) and every
average, the result of limitTimeout lies in [min, max]; when the average
is doubled, the double is the exact integer 2*avg and lies in
[0, max), so the doubling does not overflow. -/
theorem limitTimeout_bounds (avg min max : Int) (h0 : 0 ≤ min) (h1 : min ≤ max)
    (hmax : max < 2 ^ 63) :
    min ≤ limitTimeout avg min max ∧ limitTimeout avg min max ≤ max ∧
    (¬ avg < min → avg < Int.tdiv max 2 →
      limitTimeout avg min max = 2 * avg ∧ 0 ≤ 2 * avg ∧ 2 * avg < max) := by
  have ht := (tdiv_two_cases max).1 (by omega)
  have hdouble : ¬ avg < min → avg < Int.tdiv max 2 →
      limitTimeout avg min max = 2 * avg ∧ 0 ≤ 2 * avg ∧ 2 * avg < max := by
    intro ha hb
    rw [ht] at hb
    refine ⟨?_, by omega, by omega⟩
    simp only [limitTimeout, ha, if_false, ht, hb, if_true]
    exact wrapInt64_of_inRange (2 * avg) (by omega) (by omega)
  have hrange : min ≤ limitTimeout avg min max ∧ limitTimeout avg min max ≤ max := by
    by_cases ha : avg < min
    · have e : limitTimeout avg min max = min := by simp [limitTimeout, ha]
      rw [e]
      exact ⟨Int.le_refl min, h1⟩
    · by_cases hb : avg < Int.tdiv max 2
      · obtain ⟨e1, e2, e3⟩ := hdouble ha hb
        rw [e1]
        exact ⟨by omega, by omega⟩
      · have e : limitTimeout avg min max = max := by simp [limitTimeout, ha, hb]
        rw [e]
        exact ⟨h1, Int.le_refl max⟩
  exact ⟨hrange.1, hrange.2, hdouble⟩

/-- With bounds of 1s and 30s an average of 5s gives a timeout within the
bounds. -/
theorem limitTimeout_bounds_witness :
    (1000000000 : Int) ≤ limitTimeout 5000000000 1000000000 30000000000 ∧
    limitTimeout 5000000000 1000000000 30000000000 ≤ 30000000000 :=
  ⟨(limitTimeout_bounds 5000000000 1000000000 30000000000 (by decide) (by decide)
      (by decide)).1,
    (limitTimeout_bounds 5000000000 1000000000 30000000000 (by decide) (by decide)
      (by decide)).2.1⟩

/-- C16: for bounds with 0 <= min <= max (max a 64-bit value),
limitTimeout is non-decreasing in the average. -/
theorem limitTimeout_mono (avg1 avg2 min max : Int) (h0 : 0 ≤ min) (h1 : min ≤ max)
    (hmax : max < 2 ^ 63) (hle : avg1 ≤ avg2) :
    limitTimeout avg1 min max ≤ limitTimeout avg2 min max := by
  have ht := (tdiv_two_cases max).1 (by omega)
  have b1 := limitTimeout_bounds avg1 min max h0 h1 hmax
  have b2 := limitTimeout_bounds avg2 min max h0 h1 hmax
  by_cases ha : avg1 < min
  · have e : limitTimeout avg1 min max = min := by simp [limitTimeout, ha]
    rw [e]; exact b2.1
  · have ha2 : ¬ avg2 < min := by omega
    by_cases hb2 : avg2 < Int.tdiv max 2
    · have hb1 : avg1 < Int.tdiv max 2 := by omega
      rw [(b1.2.2 ha hb1).1, (b2.2.2 ha2 hb2).1]
      omega
    · have e : limitTimeout avg2 min max = max := by simp [limitTimeout, ha2, hb2]
      rw [e]; exact b1.2.1

/-- With bounds of 1s and 30s, the timeout for an average of 5s is at most
the timeout for an average of 20s. -/
theorem limitTimeout_mono_witness :
    limitTimeout 5000000000 1000000000 30000000000 ≤
      limitTimeout 20000000000 1000000000 30000000000 :=
  limitTimeout_mono 5000000000 20000000000 1000000000 30000000000 (by decide) (by decide)
    (by decide) (by decide)

/-- C17, as stated, fails: with bounds 10 and 12 and average 7, which is
at least 12/2, limitTimeout returns the lower bound 10 and not 12. -/
theorem limitTimeout_half_max_below_min :
    (0 : Int) ≤ 10 ∧ (10 : Int) ≤ 12 ∧ Int.tdiv 12 2 ≤ 7 ∧
    limitTimeout 7 10 12 = 10 ∧ limitTimeout 7 10 12 ≠ 12 := by
  decide

/-- C17, amended: for every bounds (those with 0 <= min <= max included)
and every average with avg >= max/2, limitTimeout returns max when
avg >= min, and min when avg < min. -/
theorem limitTimeout_at_half_max (avg min max : Int) (hhalf : Int.tdiv max 2 ≤ avg) :
    (min ≤ avg → limitTimeout avg min max = max) ∧
    (avg < min → limitTimeout avg min max = min) := by
  constructor
  · intro h
    have ha : ¬ avg < min := by omega
    have hb : ¬ avg < Int.tdiv max 2 := by omega
    simp [limitTimeout, ha, hb]
  · intro h
    simp [limitTimeout, h]

/-- With bounds of 1s and 30s an average of 20s, at least 15s, gives the
upper bound 30s. -/
theorem limitTimeout_at_half_max_witness :
    limitTimeout 20000000000 1000000000 30000000000 = 30000000000 :=
  (limitTimeout_at_half_max 20000000000 1000000000 30000000000 (by decide)).1 (by decide)

/-- C18: averageTimeout stores avg + (observed - avg)/weight, the quotient
truncated toward zero, computed in 64-bit arithmetic; whenever the
difference observed - avg fits in 64 bits the stored value is the
reference value as a 64-bit integer, and it is the reference value itself
when that fits too. updateDialTimeout applies it with weight 4. The
weight is taken non-zero, a zero weight makes the Go division panic. -/
theorem averageTimeout_eq_ref (avg observed weight : Int) (_hw : weight ≠ 0) :
    averageTimeout avg observed weight =
      wrapInt64 (avg + Int.tdiv (wrapInt64 (observed - avg)) weight) ∧
    (inInt64 (observed - avg) →
      averageTimeout avg observed weight = wrapInt64 (averageTimeoutRef avg observed weight)) ∧
    (inInt64 (observed - avg) → inInt64 (averageTimeoutRef avg observed weight) →
      averageTimeout avg observed weight = averageTimeoutRef avg observed weight) ∧
    (∀ (t : Transport) (newDialTime : Int),
      (t.updateDialTimeout newDialTime).avgDialTime =
        averageTimeout t.avgDialTime newDialTime 4) := by
  refine ⟨rfl, ?_, ?_, fun _ _ => rfl⟩
  · intro h
    unfold averageTimeout averageTimeoutRef
    simp only
    rw [wrapInt64_of_inRange (observed - avg) h.1 h.2]
  · intro h h2
    unfold averageTimeout
    simp only
    rw [wrapInt64_of_inRange (observed - avg) h.1 h.2]
    exact wrapInt64_of_inRange _ h2.1 h2.2

/-- Truncation toward zero: from an average of 10 an observation of 3
gives 10 + (-7)/4 = 9, and an observation of 20 gives 10 + 10/4 = 12. -/
theorem averageTimeout_eq_ref_witness :
    (4 : Int) ≠ 0 ∧ averageTimeout 10 3 4 = 9 ∧ averageTimeoutRef 10 3 4 = 9 ∧
    averageTimeout 10 20 4 = 12 :=
  ⟨by decide,
    ((averageTimeout_eq_ref 10 3 4 (by decide)).2.2.1 (by unfold inInt64; decide)
      (by unfold inInt64; decide)).trans (by decide),
    by decide,
    ((averageTimeout_eq_ref 10 20 4 (by decide)).2.2.1 (by unfold inInt64; decide)
      (by unfold inInt64; decide)).trans (by decide)⟩

/-- C19: after a successful Dial, the connection the query is written to
has its UDP buffer size set already: to max(s, 512) when the client's size
s fits in 16 bits, and to at least 512 for every size. The connection
yielded afterwards carries the same size. -/
theorem Connect_sets_UDPSize (k : Consts) (fuel : Nat) (p : Proxy) (state : Request)
    (opts : options) (w : World) (c0 : Conn)
    (hd : (p.transport.Dial k (selectProto state opts) w).err = none)
    (hc : (p.transport.Dial k (selectProto state opts) w).pc.bind persistConn.c = some c0) :
    (∀ c, c ∈ writeConns (p.Connect k fuel state opts w).trace → 512 ≤ c.UDPSize) ∧
    (∀ pc c, pc ∈ yielded (p.Connect k fuel state opts w).trace → pc.c = some c →
      512 ≤ c.UDPSize) ∧
    (0 ≤ state.Size → state.Size < 65536 →
      writeConns (p.Connect k fuel state opts w).trace =
        [{ c0 with UDPSize := max state.Size.toNat 512 }] ∧
      ∀ pc, pc ∈ yielded (p.Connect k fuel state opts w).trace →
        pc = { c := some { c0 with UDPSize := max state.Size.toNat 512 } }) := by
  have hq := Dial_trace_quiet k p.transport (selectProto state opts) w
  have hwc : writeConns (p.transport.Dial k (selectProto state opts) w).trace = [] := by
    unfold Transport.Dial
    cases w.ret with
    | some pc => simp [writeConns, Event.writeConn?]
    | none => simp only; split_ifs <;> simp [writeConns, Event.writeConn?]
  have hy := hq.2.1
  have key : writeConns (p.Connect k fuel state opts w).trace = [c0.sized state] ∧
      ∀ pc, pc ∈ yielded (p.Connect k fuel state opts w).trace →
        pc = { c := some (c0.sized state) } := by
    simp only [writeConns, yielded] at hwc hy ⊢
    cases hw : w.writeErr with
    | some e =>
      rw [Connect_write_error k fuel p state opts w c0 e hd hc hw]
      simp [List.filterMap_append, hwc, hy, Event.writeConn?, Event.yielded?]
    | none =>
      cases hl : readLoop w.reads w.newId fuel 0 with
      | running n =>
        rw [Connect_running k fuel p state opts w c0 n hd hc hw hl]
        simp [List.filterMap_append, hwc, hy, Event.writeConn?, Event.yielded?,
          List.filterMap_replicate]
      | matched m0 n =>
        rw [Connect_matched k fuel p state opts w c0 m0 n hd hc hw hl]
        simp [List.filterMap_append, hwc, hy, Event.writeConn?, Event.yielded?,
          List.filterMap_replicate]
      | failed ret e n =>
        rw [Connect_read_error k fuel p state opts w c0 ret e n hd hc hw hl]
        simp [List.filterMap_append, hwc, hy, Event.writeConn?, Event.yielded?,
          List.filterMap_replicate]
  have hfloor : 512 ≤ (c0.sized state).UDPSize := by
    simp only [Conn.sized]
    split_ifs <;> omega
  have hsize : 0 ≤ state.Size → state.Size < 65536 →
      c0.sized state = { c0 with UDPSize := max state.Size.toNat 512 } := by
    intro h1 h2
    have e : toUint16 state.Size = state.Size.toNat := by
      unfold toUint16
      rw [Int.emod_eq_of_lt h1 h2]
    simp only [Conn.sized, e]
    congr 1
    split_ifs <;> omega
  rw [key.1]
  refine ⟨fun c hcm => ?_, fun pc c hpc hpcc => ?_, fun h1 h2 => ?_⟩
  · simp only [List.mem_singleton] at hcm
    rw [hcm]; exact hfloor
  · have e := key.2 pc hpc
    rw [e] at hpcc
    simp only [Option.some.injEq] at hpcc
    rw [← hpcc]; exact hfloor
  · rw [← hsize h1 h2]
    exact ⟨rfl, key.2⟩

/-- A client size of 4096 gives a buffer of 4096, a client size of 100
gives a buffer of 512. -/
theorem Connect_sets_UDPSize_witness :
    writeConns (exProxy.Connect exConsts 1 { exRequest with Size := 4096 } ⟨false, false⟩
      exWorld).trace = [{ id := 7, UDPSize := 4096 }] ∧
    writeConns (exProxy.Connect exConsts 1 { exRequest with Size := 100 } ⟨false, false⟩
      exWorld).trace = [{ id := 7, UDPSize := 512 }] :=
  ⟨((Connect_sets_UDPSize exConsts 1 exProxy { exRequest with Size := 4096 } ⟨false, false⟩
      exWorld ⟨7, 0⟩ (by decide) (by decide)).2.2 (by decide) (by decide)).1,
    ((Connect_sets_UDPSize exConsts 1 exProxy { exRequest with Size := 100 } ⟨false, false⟩
      exWorld ⟨7, 0⟩ (by decide) (by decide)).2.2 (by decide) (by decide)).1⟩

/-! ## Properties of the connection cache -/

/-- Dial leaves the TLS configuration of the transport alone. -/
theorem Dial_tlsConfig (k : Consts) (t : Transport) (proto : String) (w : World) :
    (t.Dial k proto w).transport.tlsConfig = t.tlsConfig := by
  unfold Transport.Dial
  cases w.ret with
  | some pc => rfl
  | none => simp only; split_ifs <;> rfl

/-- What Dial returns when the manager answers with a connection. -/
theorem Dial_of_ret_some (k : Consts) (t : Transport) (proto : String) (w : World)
    (pc : persistConn) (h : w.ret = some pc) :
    (t.Dial k proto w).pc = some pc ∧ (t.Dial k proto w).cached = true ∧
    (t.Dial k proto w).err = none ∧ (t.Dial k proto w).transport = t ∧
    netDials (t.Dial k proto w).trace = [] := by
  simp [Transport.Dial, h, netDials, Event.netDial?]

/-- What Dial returns when the manager answers with nil. -/
theorem Dial_of_ret_none (k : Consts) (t : Transport) (proto : String) (w : World)
    (h : w.ret = none) : (t.Dial k proto w).cached = false := by
  simp only [Transport.Dial, h]
  split_ifs <;> rfl

/-- The slot of a call depends on the transport through its TLS
configuration only. -/
theorem PoolOp_slot_congr (t1 t2 : Transport) (op : PoolOp)
    (h : t1.tlsConfig = t2.tlsConfig) : op.slot t1 = op.slot t2 := by
  cases op with
  | Dial proto w => simp [PoolOp.slot, Transport.dialProto, h]
  | Yield proto pc => rfl

/-- A call leaves the TLS configuration alone. -/
theorem Pooled_step_tlsConfig (k : Consts) (s : Pooled) (op : PoolOp) :
    (s.step k op).t.tlsConfig = s.t.tlsConfig := by
  cases op with
  | Dial proto w => exact Dial_tlsConfig k s.t proto _
  | Yield proto pc => rfl

/-- A call that works on another slot leaves slot `P` as it is. -/
theorem Pooled_step_slot (k : Consts) (s : Pooled) (op : PoolOp) (P : String)
    (h : op.slot s.t ≠ P) : (s.step k op).conns P = s.conns P := by
  cases op with
  | Dial proto w =>
    have hne : ¬ P = s.t.dialProto proto := fun e => h e.symm
    simp [Pooled.step, Pooled.Dial, ConnCache.take, hne]
  | Yield proto pc =>
    have hne : ¬ P = proto := fun e => h e.symm
    simp [Pooled.step, Pooled.Yield, ConnCache.Yield, hne]

/-- A call that is not a Yield of `pc` puts `pc` into no slot. -/
theorem Pooled_step_absent (k : Consts) (s : Pooled) (op : PoolOp) (pc : persistConn)
    (hy : ¬ op.yields pc) (q : String) (hq : s.conns q ≠ some pc) :
    (s.step k op).conns q ≠ some pc := by
  cases op with
  | Dial proto w =>
    simp only [Pooled.step, Pooled.Dial, ConnCache.take]
    split_ifs
    · simp
    · exact hq
  | Yield proto pc1 =>
    simp only [Pooled.step, Pooled.Yield, ConnCache.Yield]
    split_ifs
    · intro e
      simp only [Option.some.injEq] at e
      exact hy e
    · exact hq

/-- Calls that work on other slots leave slot `P` and the TLS
configuration as they are. -/
theorem Pooled_run_slot (k : Consts) (P : String) :
    ∀ (ops : List PoolOp) (s : Pooled),
      (∀ op, op ∈ ops → op.slot s.t ≠ P) →
      (s.run k ops).conns P = s.conns P ∧ (s.run k ops).t.tlsConfig = s.t.tlsConfig := by
  intro ops
  induction ops with
  | nil => intro s _; exact ⟨rfl, rfl⟩
  | cons op ops ih =>
    intro s hops
    have hop := hops op (List.mem_cons_self op ops)
    have htls := Pooled_step_tlsConfig k s op
    have hrec := ih (s.step k op)
      (fun o ho => by
        have := hops o (List.mem_cons_of_mem op ho)
        rw [PoolOp_slot_congr (s.step k op).t s.t o htls]
        exact this)
    exact ⟨hrec.1.trans (Pooled_step_slot k s op P hop), hrec.2.trans htls⟩

/-- Calls that do not yield `pc` bring it into no slot that did not hold
it. -/
theorem Pooled_run_elsewhere (k : Consts) (P : String) (pc : persistConn) :
    ∀ (ops : List PoolOp) (s : Pooled),
      (∀ op, op ∈ ops → ¬ op.yields pc) → (∀ q, q ≠ P → s.conns q ≠ some pc) →
      ∀ q, q ≠ P → (s.run k ops).conns q ≠ some pc := by
  intro ops
  induction ops with
  | nil => intro s _ h; exact h
  | cons op ops ih =>
    intro s hops h
    exact ih (s.step k op) (fun o ho => hops o (List.mem_cons_of_mem op ho))
      (fun q hq => Pooled_step_absent k s op pc (hops op (List.mem_cons_self op ops)) q (h q hq))

/-- Calls that do not yield `pc` do not bring it into the cache. -/
theorem Pooled_run_absent (k : Consts) (pc : persistConn) :
    ∀ (ops : List PoolOp) (s : Pooled),
      (∀ op, op ∈ ops → ¬ op.yields pc) → ¬ s.holds pc → ¬ (s.run k ops).holds pc := by
  intro ops
  induction ops with
  | nil => intro s _ h; exact h
  | cons op ops ih =>
    intro s hops h
    apply ih (s.step k op) (fun o ho => hops o (List.mem_cons_of_mem op ho))
    rintro ⟨q, hq⟩
    exact Pooled_step_absent k s op pc (hops op (List.mem_cons_self op ops)) q
      (fun e => h ⟨q, e⟩) hq

/-- A Dial served from the cache: it returns what the slot it asks for
holds, makes no network dial and leaves the transport as it is. -/
theorem Pooled_Dial_hit (k : Consts) (s : Pooled) (proto : String) (w : World)
    (pc : persistConn) (h : s.conns (s.t.dialProto proto) = some pc) :
    (s.Dial k proto w).1.pc = some pc ∧ (s.Dial k proto w).1.cached = true ∧
    (s.Dial k proto w).1.err = none ∧ netDials (s.Dial k proto w).1.trace = [] ∧
    (s.Dial k proto w).1.transport = s.t := by
  have hw : ({ w with ret := s.conns (s.t.dialProto proto) } : World).ret = some pc := h
  have hhit := Dial_of_ret_some k s.t proto _ pc hw
  exact ⟨hhit.1, hhit.2.1, hhit.2.2.1, hhit.2.2.2.2, hhit.2.2.2.1⟩

/-- A Dial that reports a cached connection returns what the slot it asked
for held. -/
theorem Pooled_Dial_cached (k : Consts) (s : Pooled) (proto : String) (w : World)
    (h : (s.Dial k proto w).1.cached = true) :
    (s.Dial k proto w).1.pc = s.conns (s.t.dialProto proto) := by
  cases hr : s.conns (s.t.dialProto proto) with
  | none =>
    have hw : ({ w with ret := s.conns (s.t.dialProto proto) } : World).ret = none := hr
    have hmiss := Dial_of_ret_none k s.t proto _ hw
    have hc : (s.Dial k proto w).1.cached = false := hmiss
    rw [hc] at h
    cases h
  | some pc1 => exact (Pooled_Dial_hit k s proto w pc1 hr).1

/-- After a Dial the slot it asked for is empty and the other slots are as
before. -/
theorem Pooled_Dial_conns (k : Consts) (s : Pooled) (proto : String) (w : World) (q : String) :
    (s.Dial k proto w).2.conns q = if q = s.t.dialProto proto then none else s.conns q := rfl

/-- C20: on the cache as the specification describes it, a connection `pc`
yielded into the slot of protocol `P` is what the next Dial that asks the
cache for `P` returns, with wasCached = true, a nil error, no network dial
and the transport and its average unchanged, provided no call in between
works on slot `P`. When `pc` was not in the cache before that Yield and is
not yielded again, no later Dial for any protocol hands `pc` out of the
cache. A Dial asks the cache for its argument, or for "tcp-tls" when TLS
is configured. -/
theorem Pooled_cache_correct (k : Consts) (s : Pooled) (P : String) (pc : persistConn)
    (ops1 : List PoolOp) (P0 : String) (w0 : World)
    (ops2 : List PoolOp) (P1 : String) (w1 : World)
    (h1 : ∀ op, op ∈ ops1 → op.slot s.t ≠ P)
    (hP0 : s.t.dialProto P0 = P) :
    (((s.Yield P pc).run k ops1).Dial k P0 w0).1.pc = some pc ∧
    (((s.Yield P pc).run k ops1).Dial k P0 w0).1.cached = true ∧
    (((s.Yield P pc).run k ops1).Dial k P0 w0).1.err = none ∧
    netDials (((s.Yield P pc).run k ops1).Dial k P0 w0).1.trace = [] ∧
    (((s.Yield P pc).run k ops1).Dial k P0 w0).1.transport = ((s.Yield P pc).run k ops1).t ∧
    (¬ s.holds pc → (∀ op, op ∈ ops1 → ¬ op.yields pc) → (∀ op, op ∈ ops2 → ¬ op.yields pc) →
      ¬ ((((((s.Yield P pc).run k ops1).Dial k P0 w0).2.run k ops2).Dial k P1 w1).1.cached
          = true ∧
        (((((s.Yield P pc).run k ops1).Dial k P0 w0).2.run k ops2).Dial k P1 w1).1.pc
          = some pc)) := by
  have hy1 : (s.Yield P pc).conns P = some pc := by
    simp [Pooled.Yield, ConnCache.Yield]
  obtain ⟨hk1, hk3⟩ := Pooled_run_slot k P ops1 (s.Yield P pc) h1
  have hproto : ((s.Yield P pc).run k ops1).t.dialProto P0 = P := by
    have e : ((s.Yield P pc).run k ops1).t.dialProto P0 = s.t.dialProto P0 := by
      unfold Transport.dialProto
      rw [hk3]
      rfl
    exact e.trans hP0
  have hret : ((s.Yield P pc).run k ops1).conns
      (((s.Yield P pc).run k ops1).t.dialProto P0) = some pc := by
    rw [hproto, hk1]; exact hy1
  refine ⟨(Pooled_Dial_hit k _ P0 w0 pc hret).1, (Pooled_Dial_hit k _ P0 w0 pc hret).2.1,
    (Pooled_Dial_hit k _ P0 w0 pc hret).2.2.1, (Pooled_Dial_hit k _ P0 w0 pc hret).2.2.2.1,
    (Pooled_Dial_hit k _ P0 w0 pc hret).2.2.2.2, ?_⟩
  intro hnew hn1 hn2
  have hy2 : ∀ q, q ≠ P → (s.Yield P pc).conns q ≠ some pc := by
    intro q hq
    simp only [Pooled.Yield, ConnCache.Yield, hq, if_false]
    exact fun e => hnew ⟨q, e⟩
  have hk2 := Pooled_run_elsewhere k P pc ops1 (s.Yield P pc) hn1 hy2
  have habs : ¬ (((s.Yield P pc).run k ops1).Dial k P0 w0).2.holds pc := by
    rintro ⟨q, hq⟩
    rw [Pooled_Dial_conns, hproto] at hq
    split_ifs at hq with hqp
    exact hk2 q hqp hq
  have hlater := Pooled_run_absent k pc ops2 _ hn2 habs
  rintro ⟨hc, hpc⟩
  rw [Pooled_Dial_cached k _ P1 w1 hc] at hpc
  exact hlater ⟨_, hpc⟩

/-- On the example transport: connection 3 yielded for "udp" survives a
Dial for "tcp" and is handed out by the next Dial for "udp"; the Dial for
"udp" after that is a cache miss. -/
theorem Pooled_cache_correct_witness :
    (((exPooled.Yield "udp" exConn3).run exConsts [PoolOp.Dial "tcp" exWorld]).Dial exConsts
      "udp" exWorld).1.pc = some exConn3 ∧
    ¬ ((((((exPooled.Yield "udp" exConn3).run exConsts [PoolOp.Dial "tcp" exWorld]).Dial exConsts
        "udp" exWorld).2.run exConsts []).Dial exConsts "udp" exWorld).1.cached = true ∧
      (((((exPooled.Yield "udp" exConn3).run exConsts [PoolOp.Dial "tcp" exWorld]).Dial exConsts
        "udp" exWorld).2.run exConsts []).Dial exConsts "udp" exWorld).1.pc = some exConn3) :=
  have h := Pooled_cache_correct exConsts exPooled "udp" exConn3 [PoolOp.Dial "tcp" exWorld]
    "udp" exWorld [] "udp" exWorld
    (fun op hop => by
      simp only [List.mem_singleton] at hop
      subst hop
      decide)
    (by decide)
  ⟨h.1, h.2.2.2.2.2 (fun ⟨q, hq⟩ => by cases hq)
    (fun op hop => by
      simp only [List.mem_singleton] at hop
      subst hop
      exact fun hy => hy)
    (fun op hop => by cases hop)⟩

/-! ## The moving average stays between its inputs -/

/-- The quotient by a positive weight truncated toward zero lies between
zero and the dividend. -/
theorem tdiv_pos_bounds (d w : Int) (hw : 1 ≤ w) :
    (0 ≤ d → 0 ≤ Int.tdiv d w ∧ Int.tdiv d w ≤ d) ∧
    (d ≤ 0 → d ≤ Int.tdiv d w ∧ Int.tdiv d w ≤ 0) := by
  have hw0 : (0 : Int) ≤ w := by omega
  constructor
  · intro h
    rw [Int.tdiv_eq_ediv h hw0]
    exact ⟨Int.ediv_nonneg h hw0, Int.ediv_le_self w h⟩
  · intro h
    have hn : (0 : Int) ≤ -d := by omega
    have h2 : Int.tdiv d w = -((-d) / w) := by
      rw [← Int.tdiv_eq_ediv hn hw0, Int.neg_tdiv, Int.neg_neg]
    have b1 := Int.ediv_nonneg hn hw0
    have b2 := Int.ediv_le_self w hn
    rw [h2]
    omega

/-- C30: for a non-negative stored average, a non-negative observed
duration (both 64-bit values) and a weight of at least 1, the value stored
by averageTimeout is the exact integer avg + (observed - avg)/weight and
lies between avg and observed inclusive; it is therefore non-negative and
equals avg when observed = avg. The same holds for updateDialTimeout,
which uses weight 4. -/
theorem averageTimeout_between (avg observed weight : Int)
    (ha : 0 ≤ avg) (ha2 : avg < 2 ^ 63) (ho : 0 ≤ observed) (ho2 : observed < 2 ^ 63)
    (hw : 1 ≤ weight) :
    averageTimeout avg observed weight = averageTimeoutRef avg observed weight ∧
    min avg observed ≤ averageTimeout avg observed weight ∧
    averageTimeout avg observed weight ≤ max avg observed ∧
    0 ≤ averageTimeout avg observed weight ∧
    (observed = avg → averageTimeout avg observed weight = avg) ∧
    (∀ t : Transport, t.avgDialTime = avg →
      min avg observed ≤ (t.updateDialTimeout observed).avgDialTime ∧
      (t.updateDialTimeout observed).avgDialTime ≤ max avg observed) := by
  have hb := tdiv_pos_bounds (observed - avg) weight hw
  have hb4 := tdiv_pos_bounds (observed - avg) 4 (by decide)
  have hval : ∀ w : Int, 1 ≤ w →
      ((0 ≤ observed - avg → 0 ≤ Int.tdiv (observed - avg) w ∧
          Int.tdiv (observed - avg) w ≤ observed - avg) ∧
        (observed - avg ≤ 0 → observed - avg ≤ Int.tdiv (observed - avg) w ∧
          Int.tdiv (observed - avg) w ≤ 0)) →
      averageTimeout avg observed w = avg + Int.tdiv (observed - avg) w ∧
      min avg observed ≤ avg + Int.tdiv (observed - avg) w ∧
      avg + Int.tdiv (observed - avg) w ≤ max avg observed := by
    intro w _ hbw
    have hr : min avg observed ≤ avg + Int.tdiv (observed - avg) w ∧
        avg + Int.tdiv (observed - avg) w ≤ max avg observed := by
      rcases Int.le_total 0 (observed - avg) with hs | hs
      · have := hbw.1 hs
        rw [min_eq_left (by omega), max_eq_right (by omega)]
        omega
      · have := hbw.2 hs
        rw [min_eq_right (by omega), max_eq_left (by omega)]
        omega
    refine ⟨?_, hr⟩
    unfold averageTimeout
    simp only
    rw [wrapInt64_of_inRange (observed - avg) (by omega) (by omega)]
    apply wrapInt64_of_inRange
    · have := hr.1
      have : 0 ≤ min avg observed := le_min ha ho
      omega
    · have := hr.2
      have : max avg observed < 2 ^ 63 := max_lt ha2 ho2
      omega
  obtain ⟨e, h1, h2⟩ := hval weight hw hb
  obtain ⟨e4, h41, h42⟩ := hval 4 (by decide) hb4
  have hmin : 0 ≤ min avg observed := le_min ha ho
  refine ⟨e, ?_, ?_, ?_, ?_, ?_⟩
  · rw [e]; exact h1
  · rw [e]; exact h2
  · rw [e]; omega
  · intro heq
    rw [e, heq]
    simp
  · intro t ht
    have hu : (t.updateDialTimeout observed).avgDialTime = averageTimeout avg observed 4 := by
      simp [Transport.updateDialTimeout, ht, cumulativeAvgWeight]
    rw [hu, e4]
    exact ⟨h41, h42⟩

/-- From an average of 10 an observation of 3 gives 9 and an observation
of 20 gives 12, both between the average and the observation. -/
theorem averageTimeout_between_witness :
    min (10 : Int) 3 ≤ averageTimeout 10 3 4 ∧ averageTimeout 10 3 4 ≤ max (10 : Int) 3 ∧
    min (10 : Int) 20 ≤ averageTimeout 10 20 4 ∧ averageTimeout 10 20 4 ≤ max (10 : Int) 20 :=
  ⟨(averageTimeout_between 10 3 4 (by decide) (by decide) (by decide) (by decide)
      (by decide)).2.1,
    (averageTimeout_between 10 3 4 (by decide) (by decide) (by decide) (by decide)
      (by decide)).2.2.1,
    (averageTimeout_between 10 20 4 (by decide) (by decide) (by decide) (by decide)
      (by decide)).2.1,
    (averageTimeout_between 10 20 4 (by decide) (by decide) (by decide) (by decide)
      (by decide)).2.2.1⟩

end forward

/-! # Properties of `Service.HostType` -/

namespace msg

/-- A string without characters is the empty string. -/
theorem length_zero_iff_empty (t : String) : t.length = 0 ↔ t = "" := by
  constructor
  · intro h
    cases t with
    | mk data =>
      have hd : data = [] := List.length_eq_zero.mp h
      subst hd
      rfl
  · intro h
    subst h
    rfl

/-- The 4-byte form of an address has 4 bytes. -/
theorem To4_length (ip v4 : IP) (h : To4 ip = some v4) : v4.length = 4 := by
  unfold To4 at h
  split_ifs at h with h1 h2
  · cases h; exact h1
  · cases h
    rw [List.length_drop]
    omega

/-- C21: HostType classifies the Host field exhaustively, given that
`net.ParseIP` returns nil or a 16-byte address: TypeCNAME or TypeTXT with a
nil address when Host is not an IP address, by Text being empty or not;
TypeA with the 4-byte form when the address has one; TypeAAAA with the
16-byte address otherwise. The result is never TypeNone, and Text does not
matter when Host is an IP address. -/
theorem HostType_classifies (ParseIP : String → Option IP) (s : Service)
    (hparse : ∀ host ip, ParseIP host = some ip → ip.length = 16) :
    (ParseIP s.Host = none → s.Text = "" → s.HostType ParseIP = (dns.TypeCNAME, none)) ∧
    (ParseIP s.Host = none → s.Text ≠ "" → s.HostType ParseIP = (dns.TypeTXT, none)) ∧
    (∀ ip v4, ParseIP s.Host = some ip → To4 ip = some v4 →
      s.HostType ParseIP = (dns.TypeA, some v4) ∧ v4.length = 4) ∧
    (∀ ip, ParseIP s.Host = some ip → To4 ip = none →
      s.HostType ParseIP = (dns.TypeAAAA, some ip) ∧ ip.length = 16) ∧
    (s.HostType ParseIP).1 ≠ dns.TypeNone ∧
    (∀ text, ParseIP s.Host ≠ none →
      Service.HostType ParseIP { s with Text := text } = s.HostType ParseIP) := by
  refine ⟨?_, ?_, ?_, ?_, ?_, ?_⟩
  · intro hp ht
    simp [Service.HostType, hp, ht]
  · intro hp ht
    have hl : ¬ s.Text.length = 0 := fun h => ht ((length_zero_iff_empty s.Text).mp h)
    simp [Service.HostType, hp, hl]
  · intro ip v4 hp h4
    refine ⟨?_, To4_length ip v4 h4⟩
    simp [Service.HostType, hp, h4]
  · intro ip hp h4
    have hl := hparse s.Host ip hp
    refine ⟨?_, hl⟩
    have h16 : To16 ip = some ip := by
      simp [To16, hl]
    simp [Service.HostType, hp, h4, h16]
  · unfold Service.HostType
    cases hp : ParseIP s.Host with
    | none =>
      simp only
      split_ifs <;> decide
    | some ip =>
      simp only
      cases h4 : To4 ip with
      | none => simp [dns.TypeAAAA, dns.TypeNone]
      | some v4 => simp [dns.TypeA, dns.TypeNone]
  · intro text hp
    cases hp2 : ParseIP s.Host with
    | none => exact absurd hp2 hp
    | some ip => simp [Service.HostType, hp2]

/-- The four kinds of Host: a dotted quad, an IPv6 text, a name without
and a name with Text. -/
theorem HostType_classifies_witness :
    Service.HostType exParseIP { Host := "10.0.0.1", Text := "" }
      = (dns.TypeA, some [10, 0, 0, 1]) ∧
    Service.HostType exParseIP { Host := "2001:db8::1", Text := "x" }
      = (dns.TypeAAAA, some [32, 1, 13, 184, 0, 0, 0, 0, 0, 0, 0, 0, 0, 0, 0, 1]) ∧
    Service.HostType exParseIP { Host := "example.org", Text := "" } = (dns.TypeCNAME, none) ∧
    Service.HostType exParseIP { Host := "example.org", Text := "v=1" } = (dns.TypeTXT, none) :=
  have hparse : ∀ host ip, exParseIP host = some ip → ip.length = 16 := by
    intro host ip h
    unfold exParseIP at h
    split_ifs at h
    · cases h; rfl
    · cases h; rfl
  ⟨((HostType_classifies exParseIP { Host := "10.0.0.1", Text := "" } hparse).2.2.1
      [0, 0, 0, 0, 0, 0, 0, 0, 0, 0, 255, 255, 10, 0, 0, 1] [10, 0, 0, 1]
      (by decide) (by decide)).1,
    ((HostType_classifies exParseIP { Host := "2001:db8::1", Text := "x" } hparse).2.2.2.1
      [32, 1, 13, 184, 0, 0, 0, 0, 0, 0, 0, 0, 0, 0, 0, 1] (by decide) (by decide)).1,
    (HostType_classifies exParseIP { Host := "example.org", Text := "" } hparse).1
      (by decide) rfl,
    (HostType_classifies exParseIP { Host := "example.org", Text := "v=1" } hparse).2.1
      (by decide) (by decide)⟩

end msg

/-! # Properties of the class rewrite rule -/

namespace rewrite

/-- C27: on a request with at least one question, a rule with
fromClass > 0 and toClass > 0 whose fromClass is the class of the first
question sets that class to toClass, leaves everything else in the request
as it is and returns RewriteDone; in every other case the request is left
as it is and RewriteIgnored is returned. The returned response rules are
nil. -/
theorem classRule_Rewrite_spec (rule : classRule) (Req : dns.Msg) (q : dns.Question)
    (qs : List dns.Question) (hq : Req.Question = q :: qs) :
    (rule.fromClass > 0 ∧ rule.toClass > 0 ∧ q.Qclass = rule.fromClass →
      rule.Rewrite Req =
        some { Req := { Req with Question := { q with Qclass := rule.toClass } :: qs },
               rules := [], result := Result.RewriteDone }) ∧
    (¬ (rule.fromClass > 0 ∧ rule.toClass > 0 ∧ q.Qclass = rule.fromClass) →
      rule.Rewrite Req = some { Req := Req, rules := [], result := Result.RewriteIgnored }) := by
  constructor
  · rintro ⟨h1, h2, h3⟩
    simp [classRule.Rewrite, hq, h1, h2, h3]
  · intro h
    unfold classRule.Rewrite
    by_cases h12 : rule.fromClass > 0 ∧ rule.toClass > 0
    · have h3 : ¬ q.Qclass = rule.fromClass := fun e => h ⟨h12.1, h12.2, e⟩
      simp [hq, h12, h3]
    · simp [h12]

/-- A rule from IN to CH rewrites the class of an IN query and ignores a
CH query. -/
theorem classRule_Rewrite_spec_witness :
    classRule.Rewrite { fromClass := 1, toClass := 3, NextAction := "stop" } exMsg =
      some { Req := { exMsg with
                      Question := [{ Name := "example.org.", Qtype := 1, Qclass := 3 }] },
             rules := [], result := Result.RewriteDone } :=
  (classRule_Rewrite_spec { fromClass := 1, toClass := 3, NextAction := "stop" } exMsg
    { Name := "example.org.", Qtype := 1, Qclass := 1 } [] rfl).1
    ⟨by decide, by decide, rfl⟩

/-- C29: for an argument list with at least two entries, newClassRule
returns an invalid-class error, and no rule, exactly when the upper-cased
first or second argument is not in the table of class names, the error
naming the first such argument in upper case; otherwise it returns the
rule whose fromClass and toClass are the codes of the upper-cased
arguments and whose Mode is the given next action. -/
theorem newClassRule_spec (StringToClass : String → Option Nat) (ToUpper : String → String)
    (nextAction : String) (a0 a1 : String) (rest : List String) :
    ((∃ e, newClassRule StringToClass ToUpper nextAction (a0 :: a1 :: rest) = some (.error e)) ↔
      (StringToClass (ToUpper a0) = none ∨ StringToClass (ToUpper a1) = none)) ∧
    (StringToClass (ToUpper a0) = none →
      newClassRule StringToClass ToUpper nextAction (a0 :: a1 :: rest) =
        some (.error (error.invalidClass (ToUpper a0)))) ∧
    (StringToClass (ToUpper a0) ≠ none → StringToClass (ToUpper a1) = none →
      newClassRule StringToClass ToUpper nextAction (a0 :: a1 :: rest) =
        some (.error (error.invalidClass (ToUpper a1)))) ∧
    (∀ cfrom cto, StringToClass (ToUpper a0) = some cfrom →
      StringToClass (ToUpper a1) = some cto →
      newClassRule StringToClass ToUpper nextAction (a0 :: a1 :: rest) =
        some (.ok { fromClass := cfrom, toClass := cto, NextAction := nextAction }) ∧
      classRule.Mode { fromClass := cfrom, toClass := cto, NextAction := nextAction }
        = nextAction) := by
  cases h0 : StringToClass (ToUpper a0) with
  | none =>
    refine ⟨⟨fun _ => Or.inl rfl, fun _ => ⟨error.invalidClass (ToUpper a0), ?_⟩⟩,
      fun _ => ?_, fun h => absurd rfl h,
      fun cfrom cto h => (by cases h)⟩
    · simp [newClassRule, h0]
    · simp [newClassRule, h0]
  | some cfrom =>
    cases h1 : StringToClass (ToUpper a1) with
    | none =>
      refine ⟨⟨fun _ => Or.inr rfl, fun _ => ⟨error.invalidClass (ToUpper a1), ?_⟩⟩,
        fun h => (by cases h), fun _ _ => ?_,
        fun _ cto _ h => (by cases h)⟩
      · simp [newClassRule, h0, h1]
      · simp [newClassRule, h0, h1]
    | some cto =>
      refine ⟨⟨fun ⟨e, he⟩ => ?_, fun h => ?_⟩, fun h => (by cases h), fun _ h => (by cases h),
        fun f t hf ht => ?_⟩
      · simp [newClassRule, h0, h1] at he
      · rcases h with h | h <;> cases h
      · cases hf; cases ht
        exact ⟨by simp [newClassRule, h0, h1], rfl⟩

/-- With the library's class names: "in" and "ch" give the rule from 1 to
3, and "xx" gives an invalid-class error. -/
theorem newClassRule_spec_witness :
    newClassRule exStringToClass exToUpper "stop" ["in", "ch"] =
      some (.ok { fromClass := 1, toClass := 3, NextAction := "stop" }) ∧
    newClassRule exStringToClass exToUpper "stop" ["xx", "ch"] =
      some (.error (error.invalidClass "XX")) :=
  ⟨((newClassRule_spec exStringToClass exToUpper "stop" "in" "ch" []).2.2.2 1 3
      (by decide) (by decide)).1,
    (newClassRule_spec exStringToClass exToUpper "stop" "xx" "ch" []).2.1 (by decide)⟩

end rewrite

/-! # Properties of the template plugin -/

namespace templateplugin

/-- Inside the handler's zones ServeDNS runs the loop over the templates. -/
theorem ServeDNS_in_zone (env : Env) (h : Handler) (r : dns.Msg)
    (hzone : env.Matches h.Zones (env.Name r) ≠ "") :
    h.ServeDNS env r = serveTemplates env h r h.Templates := by
  simp [Handler.ServeDNS, hzone]

/-- Templates that report no match and fallthrough are passed over. -/
theorem serveTemplates_skip (env : Env) (h : Handler) (r : dns.Msg) :
    ∀ (pre rest : List template), (∀ p, p ∈ pre → p.skipped env r) →
      serveTemplates env h r (pre ++ rest) = serveTemplates env h r rest := by
  intro pre
  induction pre with
  | nil => intro rest _; rfl
  | cons p pre ih =>
    intro rest hpre
    obtain ⟨d, hd⟩ := hpre p (List.mem_cons_self p pre)
    have hrec := ih rest (fun q hq => hpre q (List.mem_cons_of_mem p hq))
    simp only [List.cons_append, serveTemplates, hd]
    simpa using hrec

/-- At the first template that is not passed over, ServeDNS is the loop
from that template on. -/
theorem ServeDNS_reaches (env : Env) (h : Handler) (r : dns.Msg) (t : template)
    (rest : List template) (hr : h.reaches env r t rest) :
    h.ServeDNS env r = serveTemplates env h r (t :: rest) := by
  obtain ⟨hzone, pre, hT, hpre⟩ := hr
  rw [ServeDNS_in_zone env h r hzone, hT]
  exact serveTemplates_skip env h r pre (t :: rest) hpre

/-- A template that matches is served by the match body. -/
theorem serveTemplates_matched (env : Env) (h : Handler) (r : dns.Msg) (t : template)
    (rest : List template) (data : templateData) (f : Bool)
    (hm : t.match_ env r = some (data, true, f)) :
    serveTemplates env h r (t :: rest) = serveMatch env t r data := by
  simp [serveTemplates, hm]

/-- A template that renders without error: executeRRTemplate returns what
it renders to, a nil record included, without any effect. -/
theorem executeRRTemplate_ok (env : Env) (sect : String) (tpl : Template)
    (data : templateData) (rr : Option dns.RR) (h : render env data tpl = .ok rr) :
    executeRRTemplate env sect tpl data = ((rr, none), []) := by
  unfold render at h
  unfold executeRRTemplate
  cases he : tpl.Execute data with
  | error err => rw [he] at h; cases h
  | ok text =>
    rw [he] at h
    simp only at h ⊢
    rcases hn : env.NewRR text with ⟨rr1, _ | err⟩
    · rw [hn] at h
      simp only at h
      cases h
      rfl
    · rw [hn] at h
      cases h

/-- A template that fails to execute or whose text `dns.NewRR` rejects:
executeRRTemplate returns the error and counts the failure, nothing
else. -/
theorem executeRRTemplate_error (env : Env) (sect : String) (tpl : Template)
    (data : templateData) (err : error) (h : render env data tpl = .error err) :
    ∃ rr tr, executeRRTemplate env sect tpl data = ((rr, some err), tr) ∧
      written tr = [] ∧ nextCalls tr = [] := by
  unfold render at h
  unfold executeRRTemplate
  cases he : tpl.Execute data with
  | error e =>
    rw [he] at h
    cases h
    exact ⟨_, _, rfl, rfl, rfl⟩
  | ok text =>
    rw [he] at h
    simp only at h ⊢
    rcases hn : env.NewRR text with ⟨rr1, _ | e⟩
    · rw [hn] at h
      cases h
    · rw [hn] at h
      simp only at h
      cases h
      exact ⟨_, _, rfl, rfl, rfl⟩

/-- The additional section when no template fails: what the templates
render to, in order. -/
theorem additionalLoop_ok (env : Env) (data : templateData) :
    ∀ (tpls : List Template) (rrs : List (Option dns.RR)) (msg : dns.Msg),
      renderAll env data tpls = .ok rrs →
      additionalLoop env data tpls msg = (.ok { msg with Extra := msg.Extra ++ rrs }, []) := by
  intro tpls
  induction tpls with
  | nil =>
    intro rrs msg h
    simp only [renderAll] at h
    cases h
    simp [additionalLoop]
  | cons tpl rest ih =>
    intro rrs msg h
    simp only [renderAll] at h
    cases hr : render env data tpl with
    | error e => rw [hr] at h; cases h
    | ok rr =>
      rw [hr] at h
      cases hrest : renderAll env data rest with
      | error e => rw [hrest] at h; cases h
      | ok rrs1 =>
        rw [hrest] at h
        cases h
        simp only [additionalLoop, executeRRTemplate_ok env "additional" tpl data rr hr,
          ih rrs1 _ hrest]
        simp

/-- The authority section when no template fails: what the templates
render to, in order. -/
theorem authorityLoop_ok (env : Env) (data : templateData) :
    ∀ (tpls : List Template) (rrs : List (Option dns.RR)) (msg : dns.Msg),
      renderAll env data tpls = .ok rrs →
      authorityLoop env data tpls msg = (.ok { msg with Ns := msg.Ns ++ rrs }, []) := by
  intro tpls
  induction tpls with
  | nil =>
    intro rrs msg h
    simp only [renderAll] at h
    cases h
    simp [authorityLoop]
  | cons tpl rest ih =>
    intro rrs msg h
    simp only [renderAll] at h
    cases hr : render env data tpl with
    | error e => rw [hr] at h; cases h
    | ok rr =>
      rw [hr] at h
      cases hrest : renderAll env data rest with
      | error e => rw [hrest] at h; cases h
      | ok rrs1 =>
        rw [hrest] at h
        cases h
        simp only [authorityLoop, executeRRTemplate_ok env "authority" tpl data rr hr,
          ih rrs1 _ hrest]
        simp

/-- The additional loop stops at the first template that fails. -/
theorem additionalLoop_error (env : Env) (data : templateData) :
    ∀ (tpls : List Template) (err : error) (msg : dns.Msg),
      renderAll env data tpls = .error err →
      ∃ tr, additionalLoop env data tpls msg = (.error err, tr) ∧
        written tr = [] ∧ nextCalls tr = [] := by
  intro tpls
  induction tpls with
  | nil => intro err msg h; simp [renderAll] at h
  | cons tpl rest ih =>
    intro err msg h
    simp only [renderAll] at h
    cases hr : render env data tpl with
    | error e =>
      rw [hr] at h
      cases h
      obtain ⟨rr, tr, he, hw, hn⟩ := executeRRTemplate_error env "additional" tpl data err hr
      exact ⟨tr, by simp [additionalLoop, he], hw, hn⟩
    | ok rr =>
      rw [hr] at h
      cases hrest : renderAll env data rest with
      | ok rrs1 => rw [hrest] at h; cases h
      | error e =>
        rw [hrest] at h
        cases h
        obtain ⟨tr, he, hw, hn⟩ := ih err { msg with Extra := msg.Extra ++ [rr] } hrest
        refine ⟨tr, ?_, hw, hn⟩
        simp [additionalLoop, executeRRTemplate_ok env "additional" tpl data rr hr, he]

/-- The authority loop stops at the first template that fails. -/
theorem authorityLoop_error (env : Env) (data : templateData) :
    ∀ (tpls : List Template) (err : error) (msg : dns.Msg),
      renderAll env data tpls = .error err →
      ∃ tr, authorityLoop env data tpls msg = (.error err, tr) ∧
        written tr = [] ∧ nextCalls tr = [] := by
  intro tpls
  induction tpls with
  | nil => intro err msg h; simp [renderAll] at h
  | cons tpl rest ih =>
    intro err msg h
    simp only [renderAll] at h
    cases hr : render env data tpl with
    | error e =>
      rw [hr] at h
      cases h
      obtain ⟨rr, tr, he, hw, hn⟩ := executeRRTemplate_error env "authority" tpl data err hr
      exact ⟨tr, by simp [authorityLoop, he], hw, hn⟩
    | ok rr =>
      rw [hr] at h
      cases hrest : renderAll env data rest with
      | ok rrs1 => rw [hrest] at h; cases h
      | error e =>
        rw [hrest] at h
        cases h
        obtain ⟨tr, he, hw, hn⟩ := ih err { msg with Ns := msg.Ns ++ [rr] } hrest
        refine ⟨tr, ?_, hw, hn⟩
        simp [authorityLoop, executeRRTemplate_ok env "authority" tpl data rr hr, he]

/-- The upstream lookup after an answer record that is not nil: it
returns, adds records to the answer section and may set the truncation
flag, nothing else; it writes nothing and does nothing at all when no
lookup is due. -/
theorem lookupCNAME_spec (env : Env) (t : template) (r : dns.Msg) (rr : dns.RR)
    (msg : dns.Msg) :
    ∃ res, lookupCNAME env t r (some rr) msg = some res ∧
      (∃ extra tc, res.1 = { msg with Truncated := tc, Answer := msg.Answer ++ extra }) ∧
      written res.2 = [] ∧ nextCalls res.2 = [] ∧
      ((t.upstream = none ∨ ¬ (env.QType r = dns.TypeA ∨ env.QType r = dns.TypeAAAA) ∨
          rr.Rrtype ≠ dns.TypeCNAME) → res = (msg, [])) := by
  unfold lookupCNAME
  cases hu : t.upstream with
  | none =>
    exact ⟨(msg, []), rfl, ⟨[], msg.Truncated, by simp⟩, rfl, rfl, fun _ => rfl⟩
  | some upstream =>
    simp only
    by_cases hq : env.QType r = dns.TypeA ∨ env.QType r = dns.TypeAAAA
    · rw [if_pos hq]
      by_cases hc : rr.Rrtype = dns.TypeCNAME
      · rw [if_pos hc]
        have hcase : ∀ h : some upstream = none ∨
            ¬ (env.QType r = dns.TypeA ∨ env.QType r = dns.TypeAAAA) ∨
            rr.Rrtype ≠ dns.TypeCNAME, False := by
          intro h
          rcases h with h | h | h
          · cases h
          · exact h hq
          · exact h hc
        split
        · exact ⟨_, rfl, ⟨_, _, rfl⟩, rfl, rfl, fun h => (hcase h).elim⟩
        · exact ⟨_, rfl, ⟨[], msg.Truncated, by simp⟩, rfl, rfl, fun h => (hcase h).elim⟩
      · rw [if_neg hc]
        exact ⟨(msg, []), rfl, ⟨[], msg.Truncated, by simp⟩, rfl, rfl, fun _ => rfl⟩
    · rw [if_neg hq]
      exact ⟨(msg, []), rfl, ⟨[], msg.Truncated, by simp⟩, rfl, rfl, fun _ => rfl⟩

/-- The upstream lookup after a nil answer record: a panic when the
template has an upstream and the query type is A or AAAA, nothing at all
otherwise. -/
theorem lookupCNAME_nil (env : Env) (t : template) (r : dns.Msg) (msg : dns.Msg) :
    (t.upstream ≠ none → (env.QType r = dns.TypeA ∨ env.QType r = dns.TypeAAAA) →
      lookupCNAME env t r none msg = none) ∧
    ((t.upstream = none ∨ ¬ (env.QType r = dns.TypeA ∨ env.QType r = dns.TypeAAAA)) →
      lookupCNAME env t r none msg = some (msg, [])) := by
  unfold lookupCNAME
  cases hu : t.upstream with
  | none => exact ⟨fun h => absurd rfl h, fun _ => rfl⟩
  | some upstream =>
    simp only
    by_cases hq : env.QType r = dns.TypeA ∨ env.QType r = dns.TypeAAAA
    · rw [if_pos hq]
      refine ⟨fun _ _ => rfl, fun h => ?_⟩
      rcases h with h | h
      · cases h
      · exact absurd hq h
    · rw [if_neg hq]
      exact ⟨fun _ h => absurd h hq, fun _ => rfl⟩

/-- The answer section when every template renders to a record: the
rendered records in order, each possibly followed by records of an
upstream lookup. -/
theorem answerLoop_ok (env : Env) (t : template) (r : dns.Msg) (data : templateData) :
    ∀ (tpls : List Template) (rrs : List dns.RR) (msg : dns.Msg),
      renderAll env data tpls = .ok (rrs.map some) →
      ∃ msg1 tr, answerLoop env t r data tpls msg = some (.ok msg1, tr) ∧
        written tr = [] ∧ nextCalls tr = [] ∧
        (∃ ans tc, msg1 = { msg with Truncated := tc, Answer := msg.Answer ++ ans } ∧
          List.Sublist (rrs.map some) ans) ∧
        (noLookup env t r rrs →
          msg1 = { msg with Answer := msg.Answer ++ rrs.map some }) := by
  intro tpls
  induction tpls with
  | nil =>
    intro rrs msg h
    simp only [renderAll] at h
    cases rrs with
    | cons a l => simp at h
    | nil =>
      exact ⟨msg, [], rfl, rfl, rfl, ⟨[], msg.Truncated, by simp, List.Sublist.refl _⟩,
        fun _ => by simp⟩
  | cons tpl rest ih =>
    intro rrs msg h
    simp only [renderAll] at h
    cases hr : render env data tpl with
    | error e => rw [hr] at h; cases h
    | ok rr0 =>
      rw [hr] at h
      cases hrest : renderAll env data rest with
      | error e => rw [hrest] at h; cases h
      | ok rrs0 =>
        rw [hrest] at h
        cases rrs with
        | nil => simp at h
        | cons rr rrs1 =>
          simp only [List.map_cons, Except.ok.injEq, List.cons.injEq] at h
          obtain ⟨h1, h2⟩ := h
          subst h1 h2
          obtain ⟨looked, hlk, ⟨extra, tc, hl⟩, hlw, hln, hlnone⟩ :=
            lookupCNAME_spec env t r rr { msg with Answer := msg.Answer ++ [some rr] }
          obtain ⟨msg1, tr, hloop, hw, hn, ⟨ans, tc1, hm, hsub⟩, hno⟩ :=
            ih rrs1 looked.1 hrest
          refine ⟨msg1, looked.2 ++ tr, ?_, ?_, ?_, ⟨[some rr] ++ extra ++ ans, tc1, ?_, ?_⟩, ?_⟩
          · simp only [answerLoop, executeRRTemplate_ok env "answer" tpl data (some rr) hr,
              hlk, hloop]
            simp
          · simp only [written, List.filterMap_append] at hlw hw ⊢
            rw [hlw, hw]; rfl
          · simp only [nextCalls, List.filterMap_append] at hln hn ⊢
            rw [hln, hn]; rfl
          · rw [hm, hl]
            simp
          · simp only [List.map_cons, List.singleton_append, List.cons_append]
            exact List.Sublist.cons₂ (some rr) (List.sublist_append_of_sublist_right hsub)
          · intro hnl
            have h1 : t.upstream = none ∨
                ¬ (env.QType r = dns.TypeA ∨ env.QType r = dns.TypeAAAA) ∨
                rr.Rrtype ≠ dns.TypeCNAME := by
              rcases hnl with h | h | h
              · exact Or.inl h
              · exact Or.inr (Or.inl h)
              · exact Or.inr (Or.inr (h rr (List.mem_cons_self rr rrs1)))
            have h2 : noLookup env t r rrs1 := by
              rcases hnl with h | h | h
              · exact Or.inl h
              · exact Or.inr (Or.inl h)
              · exact Or.inr (Or.inr (fun x hx => h x (List.mem_cons_of_mem rr hx)))
            have e1 := hno h2
            rw [hlnone h1] at e1
            rw [e1]
            simp

/-- The answer loop stops at the first template that fails, when the
templates before it render to records. -/
theorem answerLoop_error (env : Env) (t : template) (r : dns.Msg) (data : templateData)
    (tpl : Template) (rest : List Template) (err : error)
    (hfail : render env data tpl = .error err) :
    ∀ (pre : List Template) (rrs : List dns.RR) (msg : dns.Msg),
      renderAll env data pre = .ok (rrs.map some) →
      ∃ tr, answerLoop env t r data (pre ++ tpl :: rest) msg = some (.error err, tr) ∧
        written tr = [] ∧ nextCalls tr = [] := by
  intro pre
  induction pre with
  | nil =>
    intro rrs msg _
    obtain ⟨rr, tr, he, hw, hn⟩ := executeRRTemplate_error env "answer" tpl data err hfail
    exact ⟨tr, by simp [answerLoop, he], hw, hn⟩
  | cons p pre ih =>
    intro rrs msg h
    simp only [renderAll] at h
    cases hr : render env data p with
    | error e => rw [hr] at h; cases h
    | ok rr0 =>
      rw [hr] at h
      cases hrest : renderAll env data pre with
      | error e => rw [hrest] at h; cases h
      | ok rrs0 =>
        rw [hrest] at h
        cases rrs with
        | nil => simp at h
        | cons rr rrs1 =>
          simp only [List.map_cons, Except.ok.injEq, List.cons.injEq] at h
          obtain ⟨h1, h2⟩ := h
          subst h1 h2
          obtain ⟨looked, hlk, _, hlw, hln, _⟩ :=
            lookupCNAME_spec env t r rr { msg with Answer := msg.Answer ++ [some rr] }
          obtain ⟨tr, he, hw, hn⟩ := ih rrs1 looked.1 hrest
          refine ⟨looked.2 ++ tr, ?_, ?_, ?_⟩
          · simp only [List.cons_append, answerLoop,
              executeRRTemplate_ok env "answer" p data (some rr) hr, hlk]
            simp only [List.append_eq, he, List.nil_append]
          · simp only [written, List.filterMap_append] at hlw hw ⊢
            rw [hlw, hw]; rfl
          · simp only [nextCalls, List.filterMap_append] at hln hn ⊢
            rw [hln, hn]; rfl

/-- An OPT record at the end of the additional section is the one
`IsEdns0` finds, whatever stands before it. -/
theorem IsEdns0Index_append (e : dns.RR) (he : e.Rrtype = dns.TypeOPT) :
    ∀ l : List (Option dns.RR), dns.IsEdns0Index (l ++ [some e]) = some (some l.length) := by
  intro l
  induction l with
  | nil => simp [dns.IsEdns0Index, he]
  | cons a l ih => simp [dns.IsEdns0Index, ih]

/-- The extended DNS error block appends the OPT record with the error
option to the additional section. -/
theorem setEDE_eq (msg : dns.Msg) (e : ederror) :
    setEDE msg e = some { msg with Extra := msg.Extra ++ [some (edeOPT e)] } := by
  unfold setEDE dns.Msg.SetEdns0
  simp only
  rw [IsEdns0Index_append _ rfl msg.Extra]
  simp [edeOPT]

/-- A message whose additional section ends with the OPT record of an
extended DNS error has EDNS0 enabled, with that record. -/
theorem IsEdns0_edeOPT (msg : dns.Msg) (l : List (Option dns.RR)) (e : ederror)
    (h : msg.Extra = l ++ [some (edeOPT e)]) : msg.IsEdns0 = some (some (edeOPT e)) := by
  unfold dns.Msg.IsEdns0
  rw [h, IsEdns0Index_append _ rfl l]
  simp

/-- A new message made a reply to `r` has empty sections, no truncation
flag, the ID of `r` and at most its first question. -/
theorem SetReply_new (r : dns.Msg) :
    (dns.Msg.new.SetReply r).Answer = [] ∧ (dns.Msg.new.SetReply r).Ns = [] ∧
    (dns.Msg.new.SetReply r).Extra = [] ∧ (dns.Msg.new.SetReply r).Truncated = false ∧
    (dns.Msg.new.SetReply r).Id = r.Id ∧ (dns.Msg.new.SetReply r).Response = true ∧
    (dns.Msg.new.SetReply r).Question = r.Question.take 1 := by
  unfold dns.Msg.SetReply dns.Msg.new
  cases hq : r.Question with
  | nil => simp only; split_ifs <;> simp
  | cons q qs => simp only; split_ifs <;> simp

/-- The match body when the response code is not SERVFAIL and every
template renders to a record: one message is written, the reply with the
rendered records. -/
theorem serveMatch_ok (env : Env) (t : template) (r : dns.Msg) (data : templateData)
    (answers additional authority : List dns.RR)
    (hrcode : t.rcode ≠ dns.RcodeServerFailure)
    (hans : renderAll env data t.answer = .ok (answers.map some))
    (hadd : renderAll env data t.additional = .ok (additional.map some))
    (hauth : renderAll env data t.authority = .ok (authority.map some)) :
    ∃ tr ans tc, serveMatch env t r data =
        some { code := t.rcode, err := none,
               trace := tr ++ [Event.WriteMsg (replyTo r t.rcode tc ans (authority.map some)
                 ((additional ++ edeRecords t.ederror).map some))] } ∧
      written tr = [] ∧ nextCalls tr = [] ∧ List.Sublist (answers.map some) ans ∧
      (noLookup env t r answers → ans = answers.map some ∧ tc = false) := by
  obtain ⟨ha, hn, he, htc, _, _, _⟩ := SetReply_new r
  obtain ⟨msg1, tr1, hloop, hw1, hn1, ⟨ans, tc, hm, hsub⟩, hno⟩ :=
    answerLoop_ok env t r data t.answer answers
      { dns.Msg.new.SetReply r with Authoritative := true, Rcode := t.rcode } hans
  have hmsg1 : msg1 = replyTo r t.rcode tc ans [] [] := by
    rw [hm]
    simp [replyTo, ha, hn, he]
  have hwtr : written ([Event.templateMatchesCount env.server data.Zone env.view data.Class
      data.Type_] ++ tr1) = [] := by
    simp only [written, List.filterMap_append] at hw1 ⊢
    rw [hw1]; rfl
  have hntr : nextCalls ([Event.templateMatchesCount env.server data.Zone env.view data.Class
      data.Type_] ++ tr1) = [] := by
    simp only [nextCalls, List.filterMap_append] at hn1 ⊢
    rw [hn1]; rfl
  refine ⟨[Event.templateMatchesCount env.server data.Zone env.view data.Class data.Type_]
    ++ tr1, ans, tc, ?_, hwtr, hntr, hsub, ?_⟩
  · unfold serveMatch
    simp only [if_neg hrcode, hloop,
      additionalLoop_ok env data t.additional (additional.map some) msg1 hadd,
      authorityLoop_ok env data t.authority (authority.map some) _ hauth]
    cases hed : t.ederror with
    | none =>
      simp [hmsg1, replyTo, edeRecords]
    | some e =>
      simp only [setEDE_eq]
      simp [hmsg1, replyTo, edeRecords]
  · intro hnl
    have e1 := hno hnl
    rw [hm] at e1
    have e2 := congrArg dns.Msg.Answer e1
    have e3 := congrArg dns.Msg.Truncated e1
    simp only [ha, List.nil_append] at e2
    simp only [htc] at e3
    exact ⟨e2, e3⟩

/-- The match body when a template fails to execute or renders text that
`dns.NewRR` rejects, the answer templates before it rendering to records:
SERVFAIL with the error of the first template that fails, nothing
written. -/
theorem serveMatch_error (env : Env) (t : template) (r : dns.Msg) (data : templateData)
    (err : error) (hrcode : t.rcode ≠ dns.RcodeServerFailure)
    (hfail : (∃ pre tpl rest rrs, t.answer = pre ++ tpl :: rest ∧
        renderAll env data pre = .ok (List.map some rrs) ∧
        render env data tpl = .error err) ∨
      (∃ a, renderAll env data t.answer = .ok (List.map some a) ∧
        renderAll env data t.additional = .error err) ∨
      (∃ a b, renderAll env data t.answer = .ok (List.map some a) ∧
        renderAll env data t.additional = .ok b ∧
        renderAll env data t.authority = .error err)) :
    ∃ tr, serveMatch env t r data =
        some { code := dns.RcodeServerFailure, err := some err, trace := tr } ∧
      written tr = [] ∧ nextCalls tr = [] := by
  have hcomb : ∀ (a b : List Event), written a = [] → written b = [] →
      written (a ++ b) = [] := by
    intro a b h1 h2
    simp only [written, List.filterMap_append] at h1 h2 ⊢
    rw [h1, h2]; rfl
  have ncomb : ∀ (a b : List Event), nextCalls a = [] → nextCalls b = [] →
      nextCalls (a ++ b) = [] := by
    intro a b h1 h2
    simp only [nextCalls, List.filterMap_append] at h1 h2 ⊢
    rw [h1, h2]; rfl
  have hw0 : written [Event.templateMatchesCount env.server data.Zone env.view data.Class
      data.Type_] = [] := rfl
  have hn0 : nextCalls [Event.templateMatchesCount env.server data.Zone env.view data.Class
      data.Type_] = [] := rfl
  unfold serveMatch
  simp only [if_neg hrcode]
  rcases hfail with ⟨pre, tpl, rest, rrs, hsplit, h1, h2⟩ | ⟨a, h1, h2⟩ | ⟨a, b, h1, h2, h3⟩
  · obtain ⟨tr1, hl, hw, hn⟩ := answerLoop_error env t r data tpl rest err h2 pre rrs
      { dns.Msg.new.SetReply r with Authoritative := true, Rcode := t.rcode } h1
    rw [hsplit]
    simp only [hl]
    exact ⟨_, rfl, hcomb _ _ hw0 hw, ncomb _ _ hn0 hn⟩
  · obtain ⟨msg1, tr1, hl, hw, hn, _, _⟩ := answerLoop_ok env t r data t.answer a
      { dns.Msg.new.SetReply r with Authoritative := true, Rcode := t.rcode } h1
    obtain ⟨tr2, hl2, hw2, hn2⟩ := additionalLoop_error env data t.additional err msg1 h2
    simp only [hl, hl2]
    exact ⟨_, rfl, hcomb _ _ (hcomb _ _ hw0 hw) hw2, ncomb _ _ (ncomb _ _ hn0 hn) hn2⟩
  · obtain ⟨msg1, tr1, hl, hw, hn, _, _⟩ := answerLoop_ok env t r data t.answer a
      { dns.Msg.new.SetReply r with Authoritative := true, Rcode := t.rcode } h1
    obtain ⟨tr3, hl3, hw3, hn3⟩ := authorityLoop_error env data t.authority err
      { msg1 with Extra := msg1.Extra ++ b } h3
    simp only [hl, additionalLoop_ok env data t.additional b msg1 h2, hl3]
    refine ⟨_, rfl, hcomb _ _ (hcomb _ _ (hcomb _ _ hw0 hw) rfl) hw3,
      ncomb _ _ (ncomb _ _ (ncomb _ _ hn0 hn) rfl) hn3⟩

/-- When no regular expression matches, the loop of `match` reports no
match and the template's fallthrough setting for the name. -/
theorem matchRegex_none (env : Env) (t : template) (r : dns.Msg) (q : dns.Question)
    (zone : String) (data : templateData) :
    ∀ regs : List Regexp, (∀ re, re ∈ regs → re.MatchString (env.Name r) = false) →
      matchRegex env t r q zone data regs = (data, false, t.fall.Through (env.Name r)) := by
  intro regs
  induction regs with
  | nil => intro _; rfl
  | cons re rest ih =>
    intro h
    simp only [matchRegex, h re (List.mem_cons_self re rest), if_true]
    exact ih (fun x hx => h x (List.mem_cons_of_mem re hx))

/-- When some regular expression matches, the loop of `match` reports a
match. -/
theorem matchRegex_some (env : Env) (t : template) (r : dns.Msg) (q : dns.Question)
    (zone : String) (data : templateData) :
    ∀ regs : List Regexp, (∃ re, re ∈ regs ∧ re.MatchString (env.Name r) = true) →
      ∃ d, matchRegex env t r q zone data regs = (d, true, false) := by
  intro regs
  induction regs with
  | nil => rintro ⟨re, hre, _⟩; cases hre
  | cons re rest ih =>
    rintro ⟨x, hx, hm⟩
    by_cases hre : re.MatchString (env.Name r) = false
    · simp only [matchRegex, hre, if_true]
      apply ih
      rcases List.mem_cons.mp hx with h | h
      · rw [h, hre] at hm; cases hm
      · exact ⟨x, h, hm⟩
    · simp only [matchRegex, hre, if_false]
      exact ⟨_, rfl⟩

/-- C22, as stated, fails: the NXDOMAIN template with an extended DNS
error has no additional template and no upstream, yet the additional
section of the reply it writes holds one record, the OPT record. -/
theorem ServeDNS_EDE_extra_record :
    (exHandler [exTemplateEDE]).ServeDNS exEnv (exQuery "test.invalid." 1) =
      some { code := 3, err := none,
             trace := [Event.templateMatchesCount "dns://:53" "." "" "IN" "A",
                       Event.WriteMsg exReplyEDE] } ∧
    exReplyEDE.Extra.length = 1 ∧ exTemplateEDE.additional.length = 0 ∧
    exTemplateEDE.upstream.isNone = true := by
  decide

/-- C22, amended: when the first template that is not passed over matches
the query, its rcode is not SERVFAIL and all its templates render to
records, ServeDNS writes exactly one message and returns
(template rcode, nil). The message is a reply to the request, marked
authoritative, with the template's rcode; Ns holds the rendered authority
records, Extra the rendered additional records, followed by the OPT
record when an extended DNS error is configured, and Answer the rendered
answer records in order, exactly those when no upstream lookup is due. -/
theorem ServeDNS_writes_reply (env : Env) (h : Handler) (r : dns.Msg) (t : template)
    (rest : List template) (data : templateData) (f : Bool)
    (answers additional authority : List dns.RR)
    (hreach : h.reaches env r t rest)
    (hmatch : t.match_ env r = some (data, true, f))
    (hrcode : t.rcode ≠ dns.RcodeServerFailure)
    (hans : renderAll env data t.answer = .ok (answers.map some))
    (hadd : renderAll env data t.additional = .ok (additional.map some))
    (hauth : renderAll env data t.authority = .ok (authority.map some)) :
    ∃ res ans tc, h.ServeDNS env r = some res ∧ res.code = t.rcode ∧ res.err = none ∧
      written res.trace =
        [replyTo r t.rcode tc ans (authority.map some)
          ((additional ++ edeRecords t.ederror).map some)] ∧
      nextCalls res.trace = [] ∧
      (replyTo r t.rcode tc ans (authority.map some)
        ((additional ++ edeRecords t.ederror).map some)).Id = r.Id ∧
      (replyTo r t.rcode tc ans (authority.map some)
        ((additional ++ edeRecords t.ederror).map some)).Response = true ∧
      (replyTo r t.rcode tc ans (authority.map some)
        ((additional ++ edeRecords t.ederror).map some)).Question = r.Question.take 1 ∧
      List.Sublist (answers.map some) ans ∧
      (noLookup env t r answers → ans = answers.map some ∧ tc = false) ∧
      (t.ederror = none → edeRecords t.ederror = []) := by
  obtain ⟨tr, ans, tc, hs, hw, hn, hsub, hno⟩ :=
    serveMatch_ok env t r data answers additional authority hrcode hans hadd hauth
  obtain ⟨_, _, _, _, hid, hresp, hq⟩ := SetReply_new r
  refine ⟨{ code := t.rcode, err := none,
            trace := tr ++ [Event.WriteMsg (replyTo r t.rcode tc ans (authority.map some)
              ((additional ++ edeRecords t.ederror).map some))] },
    ans, tc, ?_, rfl, rfl, ?_, ?_, hid, hresp, hq, hsub, hno, ?_⟩
  · rw [ServeDNS_reaches env h r t rest hreach,
      serveTemplates_matched env h r t rest data f hmatch]
    exact hs
  · simp only [written, List.filterMap_append] at hw ⊢
    rw [hw]; rfl
  · simp only [nextCalls, List.filterMap_append] at hn ⊢
    rw [hn]; rfl
  · intro he
    rw [he]; rfl

/-- The template with one answer, one additional and one authority
template matches `test.example. IN A`: ServeDNS returns code 0 and the
reply written holds one record in each section. -/
theorem ServeDNS_writes_reply_witness :
    (exHandler [exTemplateANS]).reaches exEnv (exQuery "test.example." 1) exTemplateANS [] ∧
    exTemplateANS.match_ exEnv (exQuery "test.example." 1) =
      some (exData exTemplateANS "test.example." 1, true, false) ∧
    renderAll exEnv (exData exTemplateANS "test.example." 1) exTemplateANS.answer
      = .ok [some (exRR "test.example.")] ∧
    ((exHandler [exTemplateANS]).ServeDNS exEnv (exQuery "test.example." 1)).isSome = true ∧
    (exHandler [exTemplateANS]).ServeDNS exEnv (exQuery "test.example." 1) =
      some { code := 0, err := none,
             trace := [Event.templateMatchesCount "dns://:53" "." "" "IN" "A",
               Event.WriteMsg (replyTo (exQuery "test.example." 1) 0 false
                 [some (exRR "test.example.")] [some (exRR "ns0.example.")]
                 [some (exRR "ns0.example.")])] } :=
  have hreach : (exHandler [exTemplateANS]).reaches exEnv (exQuery "test.example." 1)
      exTemplateANS [] := ⟨by decide, [], rfl, fun p hp => by cases hp⟩
  have h := ServeDNS_writes_reply exEnv (exHandler [exTemplateANS])
    (exQuery "test.example." 1) exTemplateANS []
    (exData exTemplateANS "test.example." 1) false
    [exRR "test.example."] [exRR "ns0.example."] [exRR "ns0.example."]
    hreach rfl (by decide) rfl rfl rfl
  ⟨hreach, rfl, rfl,
    match h with
    | ⟨_, _, _, h1, _⟩ => by rw [h1]; rfl,
    by decide⟩

/-- What ServeDNS does on the failures it checks for. When the first
template that is not passed over matches the query: a template whose
rcode is SERVFAIL makes ServeDNS return (SERVFAIL, nil); otherwise a
template of the answer, additional or authority section that fails to
execute, or renders text that `dns.NewRR` rejects with an error, makes it
return (SERVFAIL, that error), the first such failure in the order
answer, additional, authority, the answer templates before it rendering to
records. In both cases no message is written and the next handler is not
called. -/
theorem ServeDNS_render_error (env : Env) (h : Handler) (r : dns.Msg) (t : template)
    (rest : List template) (data : templateData) (f : Bool)
    (hreach : h.reaches env r t rest)
    (hmatch : t.match_ env r = some (data, true, f)) :
    (t.rcode = dns.RcodeServerFailure →
      h.ServeDNS env r =
        some { code := dns.RcodeServerFailure, err := none,
               trace := [Event.templateMatchesCount env.server data.Zone env.view data.Class
                 data.Type_] }) ∧
    (t.rcode ≠ dns.RcodeServerFailure →
      ∀ err,
        ((∃ pre tpl post rrs, t.answer = pre ++ tpl :: post ∧
            renderAll env data pre = .ok (List.map some rrs) ∧
            render env data tpl = .error err) ∨
          (∃ a, renderAll env data t.answer = .ok (List.map some a) ∧
            renderAll env data t.additional = .error err) ∨
          (∃ a b, renderAll env data t.answer = .ok (List.map some a) ∧
            renderAll env data t.additional = .ok b ∧
            renderAll env data t.authority = .error err)) →
        ∃ tr, h.ServeDNS env r =
            some { code := dns.RcodeServerFailure, err := some err, trace := tr } ∧
          written tr = [] ∧ nextCalls tr = []) ∧
    (∀ tpl err, (tpl.Execute data = .error err ∨
        ∃ text rr, tpl.Execute data = .ok text ∧ env.NewRR text = (rr, some err)) →
      render env data tpl = .error err) := by
  have hserve : h.ServeDNS env r = serveMatch env t r data := by
    rw [ServeDNS_reaches env h r t rest hreach,
      serveTemplates_matched env h r t rest data f hmatch]
  refine ⟨fun hrc => ?_, fun hrc err hfail => ?_, fun tpl err hx => ?_⟩
  · rw [hserve]
    unfold serveMatch
    rw [if_pos hrc, hrc]
  · rw [hserve]
    exact serveMatch_error env t r data err hrc hfail
  · unfold render
    rcases hx with hx | ⟨text, rr, hx, hn⟩
    · rw [hx]
    · rw [hx]
      simp only
      rw [hn]

/-- The template whose answer renders "bad": ServeDNS returns SERVFAIL
with the parser's error and writes nothing; the template with rcode
SERVFAIL returns SERVFAIL without error. -/
theorem ServeDNS_render_error_example :
    (exHandler [exTemplateNonRR]).ServeDNS exEnv (exQuery "test.example." 1) =
      some { code := 2, err := some "dns: not a TTL",
             trace := [Event.templateMatchesCount "dns://:53" "." "" "IN" "A",
                       Event.templateRRFailureCount "dns://:53" "." "" "IN" "A" "answer"
                         "bad"] } ∧
    (exHandler [exTemplateServfail]).ServeDNS exEnv (exQuery "test.invalid." 1) =
      some { code := 2, err := none,
             trace := [Event.templateMatchesCount "dns://:53" "." "" "IN" "A"] } :=
  ⟨by decide,
    (ServeDNS_render_error exEnv (exHandler [exTemplateServfail])
      (exQuery "test.invalid." 1) exTemplateServfail []
      (exData exTemplateServfail "test.invalid." 1) false
      ⟨by decide, [], rfl, fun p hp => by cases hp⟩ rfl).1 rfl⟩

/-- C23, the code where the claim fails: a matching template whose answer
template renders the empty text, in which `dns.NewRR` finds no record and
reports no error. Built without an upstream, ServeDNS appends the nil
record to the answer section, hands the message to `WriteMsg` and returns
(0, nil) instead of SERVFAIL; built with an upstream, as setup.go builds
every template, it does the same for a query of type MX and panics on the
nil record for a query of type A. -/
theorem ServeDNS_nil_record :
    exTplEmpty.Execute (exData exTemplateEmpty "test.example." 15) = .ok "" ∧
    exEnv.NewRR "" = (none, none) ∧
    executeRRTemplate exEnv "answer" exTplEmpty (exData exTemplateEmpty "test.example." 15)
      = ((none, none), []) ∧
    (exHandler [exTemplateEmpty]).ServeDNS exEnv (exQuery "test.example." 15) =
      some { code := 0, err := none,
             trace := [Event.templateMatchesCount "dns://:53" "." "" "IN" "MX",
                       Event.WriteMsg exReplyNil] } ∧
    exReplyNil.Answer = [none] ∧
    (exHandler [exTemplateEmptyUp]).ServeDNS exEnv (exQuery "test.example." 15) =
      some { code := 0, err := none,
             trace := [Event.templateMatchesCount "dns://:53" "." "" "IN" "MX",
                       Event.WriteMsg exReplyNil] } ∧
    (exHandler [exTemplateEmptyUp]).ServeDNS exEnv (exQuery "test.example." 1) = none :=
  ⟨rfl, rfl, rfl, by decide, rfl, by decide, by decide⟩

/-- C24: when every template before `t` is passed over and `t` accepts
zone, class and type of the query but none of its regular expressions
matches the name and its fallthrough does not cover the name, ServeDNS
returns (SERVFAIL, nil) with no effect at all: nothing is written and the
next handler is not called, and the result is the same whatever templates
follow `t` and whatever the next handler is. -/
theorem ServeDNS_no_fallthrough (env : Env) (h : Handler) (r : dns.Msg)
    (pre : List template) (t : template) (rest : List template)
    (q : dns.Question) (qs : List dns.Question)
    (hzone : env.Matches h.Zones (env.Name r) ≠ "")
    (hT : h.Templates = pre ++ t :: rest)
    (hpre : ∀ p, p ∈ pre → p.skipped env r)
    (hq : r.Question = q :: qs)
    (hacc : t.accepts env r q)
    (hre : ∀ re, re ∈ t.regex → re.MatchString (env.Name r) = false)
    (hfall : t.fall.Through (env.Name r) = false) :
    h.ServeDNS env r = some { code := dns.RcodeServerFailure, err := none, trace := [] } ∧
    (∀ rest2 next2,
      Handler.ServeDNS env { Zones := h.Zones, Next := next2, Templates := pre ++ t :: rest2 } r
        = some { code := dns.RcodeServerFailure, err := none, trace := [] }) := by
  have hm : t.match_ env r = some (initData env, false, false) := by
    obtain ⟨h1, h2, h3⟩ := hacc
    unfold template.match_
    simp only [hq, if_neg h1, if_neg h2, if_neg h3]
    rw [matchRegex_none env t r q _ _ t.regex hre, hfall]
  have key : ∀ h2 : Handler, h2.Zones = h.Zones → ∀ rest2, h2.Templates = pre ++ t :: rest2 →
      h2.ServeDNS env r = some { code := dns.RcodeServerFailure, err := none, trace := [] } := by
    intro h2 hz rest2 hT2
    rw [ServeDNS_reaches env h2 r t rest2 ⟨by rw [hz]; exact hzone, pre, hT2, hpre⟩]
    simp [serveTemplates, hm]
  exact ⟨key h rfl rest hT, fun rest2 next2 => key _ rfl rest2 rfl⟩

/-- The CH TXT template passes over `something.example. IN MX`; the MX
template accepts it, matches nothing and does not fall through: SERVFAIL,
whatever follows. -/
theorem ServeDNS_no_fallthrough_witness :
    (exHandler [exTemplateCH, exTemplateMX, exTemplateANS]).ServeDNS exEnv
      (exQuery "something.example." 15) = some { code := 2, err := none, trace := [] } :=
  (ServeDNS_no_fallthrough exEnv (exHandler [exTemplateCH, exTemplateMX, exTemplateANS])
    (exQuery "something.example." 15) [exTemplateCH] exTemplateMX [exTemplateANS]
    { Name := "something.example.", Qtype := 15, Qclass := 1 } []
    (by decide) rfl
    (fun p hp => by
      simp only [List.mem_singleton] at hp
      subst hp
      exact ⟨initData exEnv, by decide⟩)
    rfl
    ⟨by decide, by decide, by decide⟩
    (fun re hre => by
      have e : re = exMatchNone := by simpa [exTemplateMX] using hre
      subst e
      rfl)
    rfl).1

/-- C25: when the query name is outside the handler's zones, or every
template reports no match and fallthrough, ServeDNS only calls the next
handler, with the request, and returns exactly its code and error;
ServeDNS itself writes no message. -/
theorem ServeDNS_falls_to_next (env : Env) (h : Handler) (r : dns.Msg) (next : NextHandler)
    (hnext : h.Next = some next)
    (hcase : env.Matches h.Zones (env.Name r) = "" ∨ ∀ t, t ∈ h.Templates → t.skipped env r) :
    h.ServeDNS env r =
      some { code := (next r).1, err := (next r).2, trace := [Event.Next r] } ∧
    written [Event.Next r] = [] ∧ nextCalls [Event.Next r] = [r] := by
  refine ⟨?_, rfl, rfl⟩
  by_cases hzone : env.Matches h.Zones (env.Name r) = ""
  · simp [Handler.ServeDNS, hzone, NextOrFailure, hnext]
  · rcases hcase with hc | hc
    · exact absurd hc hzone
    · rw [ServeDNS_in_zone env h r hzone]
      have hskip := serveTemplates_skip env h r h.Templates [] hc
      rw [List.append_nil] at hskip
      rw [hskip]
      simp [serveTemplates, NextOrFailure, hnext]

/-- The CH TXT template passes over `something.example. IN MX`: the
result is the fallthrough code of the next handler. -/
theorem ServeDNS_falls_to_next_witness :
    (exHandler [exTemplateCH]).ServeDNS exEnv (exQuery "something.example." 15) =
      some { code := 3841, err := none,
             trace := [Event.Next (exQuery "something.example." 15)] } :=
  (ServeDNS_falls_to_next exEnv (exHandler [exTemplateCH]) (exQuery "something.example." 15)
    exNext rfl
    (Or.inr (fun t ht => by
      have e : t = exTemplateCH := by simpa [exHandler] using ht
      subst e
      exact ⟨initData exEnv, by decide⟩))).1

/-- C26: when the first template that is not passed over matches, has an
rcode other than SERVFAIL, renders all its templates and has an extended
DNS error configured, the one reply ServeDNS writes has EDNS0 enabled: its
OPT record, with UDP size 4096 and the DO bit, carries exactly one option,
the EDE option with the configured code and reason. -/
theorem ServeDNS_sets_EDE (env : Env) (h : Handler) (r : dns.Msg) (t : template)
    (rest : List template) (data : templateData) (f : Bool)
    (answers additional authority : List dns.RR) (e : ederror)
    (hreach : h.reaches env r t rest)
    (hmatch : t.match_ env r = some (data, true, f))
    (hrcode : t.rcode ≠ dns.RcodeServerFailure)
    (hans : renderAll env data t.answer = .ok (answers.map some))
    (hadd : renderAll env data t.additional = .ok (additional.map some))
    (hauth : renderAll env data t.authority = .ok (authority.map some))
    (hede : t.ederror = some e) :
    ∃ res msg opt, h.ServeDNS env r = some res ∧ written res.trace = [msg] ∧
      msg.IsEdns0 = some (some opt) ∧
      opt.Option = [{ InfoCode := e.code, ExtraText := e.reason }] ∧
      opt.Rrtype = dns.TypeOPT ∧ opt.Class = 4096 := by
  obtain ⟨tr, ans, tc, hs, hw, _, _, _⟩ :=
    serveMatch_ok env t r data answers additional authority hrcode hans hadd hauth
  refine ⟨{ code := t.rcode, err := none,
            trace := tr ++ [Event.WriteMsg (replyTo r t.rcode tc ans (authority.map some)
              ((additional ++ edeRecords t.ederror).map some))] },
    replyTo r t.rcode tc ans (authority.map some)
      ((additional ++ edeRecords t.ederror).map some),
    edeOPT e, ?_, ?_, ?_, rfl, rfl, rfl⟩
  · rw [ServeDNS_reaches env h r t rest hreach,
      serveTemplates_matched env h r t rest data f hmatch]
    exact hs
  · simp only [written, List.filterMap_append] at hw ⊢
    rw [hw]; rfl
  · apply IsEdns0_edeOPT _ (additional.map some) e
    rw [hede]
    simp [replyTo, edeRecords]

/-- The NXDOMAIN template with extended DNS error 21: the reply written
has an OPT record with the option (21, "Blocked due to RFC2606"). -/
theorem ServeDNS_sets_EDE_witness :
    exTemplateEDE.ederror = some { code := 21, reason := "Blocked due to RFC2606" } ∧
    ((exHandler [exTemplateEDE]).ServeDNS exEnv (exQuery "test.invalid." 1)).isSome = true ∧
    exReplyEDE.IsEdns0 =
      some (some { Name := ".", Rrtype := 41, Class := 4096, Ttl := 32768, Rdata := "",
                   Option := [{ InfoCode := 21, ExtraText := "Blocked due to RFC2606" }] }) :=
  have h := ServeDNS_sets_EDE exEnv (exHandler [exTemplateEDE]) (exQuery "test.invalid." 1)
    exTemplateEDE [] (exData exTemplateEDE "test.invalid." 1) false
    [] [] [exRR "ns0.example."] { code := 21, reason := "Blocked due to RFC2606" }
    ⟨by decide, [], rfl, fun p hp => by cases hp⟩ rfl (by decide) rfl rfl rfl rfl
  ⟨rfl,
    match h with
    | ⟨_, _, _, h1, _⟩ => by rw [h1]; rfl,
    by decide⟩

/-- C28: on a query with a question, `match` reports no match and
fallthrough, whatever the template's fallthrough setting, when the name is
outside the template's zones, or template class and query class are both
other than ANY and differ, or likewise the types; ServeDNS then goes on
with the templates that follow. With ANY on either side class and type
are accepted: a template that accepts the query and has a matching regular
expression reports a match. -/
theorem match_mismatch_falls_through (env : Env) (t : template) (r : dns.Msg)
    (q : dns.Question) (qs : List dns.Question) (hq : r.Question = q :: qs) :
    ((env.Matches t.zones (env.Name r) = "" ∨
        (t.qclass ≠ dns.ClassANY ∧ q.Qclass ≠ dns.ClassANY ∧ q.Qclass ≠ t.qclass) ∨
        (t.qtype ≠ dns.TypeANY ∧ q.Qtype ≠ dns.TypeANY ∧ q.Qtype ≠ t.qtype)) →
      t.match_ env r = some (initData env, false, true) ∧
      (∀ fall2, template.match_ env { t with fall := fall2 } r
        = some (initData env, false, true)) ∧
      (∀ (h : Handler) (rest : List template),
        serveTemplates env h r (t :: rest) = serveTemplates env h r rest)) ∧
    (env.Matches t.zones (env.Name r) ≠ "" →
      (t.qclass = dns.ClassANY ∨ q.Qclass = dns.ClassANY ∨ q.Qclass = t.qclass) →
      (t.qtype = dns.TypeANY ∨ q.Qtype = dns.TypeANY ∨ q.Qtype = t.qtype) →
      (∃ re, re ∈ t.regex ∧ re.MatchString (env.Name r) = true) →
      ∃ data, t.match_ env r = some (data, true, false)) := by
  constructor
  · intro hcase
    have key : ∀ fall2, template.match_ env { t with fall := fall2 } r
        = some (initData env, false, true) := by
      intro fall2
      unfold template.match_
      simp only [hq]
      by_cases h1 : env.Matches t.zones (env.Name r) = ""
      · simp only [if_pos h1]
      · simp only [if_neg h1]
        by_cases h2 : t.qclass ≠ dns.ClassANY ∧ q.Qclass ≠ dns.ClassANY ∧ q.Qclass ≠ t.qclass
        · simp only [if_pos h2]
        · simp only [if_neg h2]
          have h3 : t.qtype ≠ dns.TypeANY ∧ q.Qtype ≠ dns.TypeANY ∧ q.Qtype ≠ t.qtype := by
            rcases hcase with h | h | h
            · exact absurd h h1
            · exact absurd h h2
            · exact h
          simp only [if_pos h3]
    have hm : t.match_ env r = some (initData env, false, true) := key t.fall
    refine ⟨hm, key, fun h rest => ?_⟩
    simp [serveTemplates, hm]
  · intro h1 h2 h3 hre
    have c2 : ¬ (t.qclass ≠ dns.ClassANY ∧ q.Qclass ≠ dns.ClassANY ∧ q.Qclass ≠ t.qclass) := by
      rintro ⟨a, b, c⟩
      rcases h2 with h | h | h
      · exact a h
      · exact b h
      · exact c h
    have c3 : ¬ (t.qtype ≠ dns.TypeANY ∧ q.Qtype ≠ dns.TypeANY ∧ q.Qtype ≠ t.qtype) := by
      rintro ⟨a, b, c⟩
      rcases h3 with h | h | h
      · exact a h
      · exact b h
      · exact c h
    obtain ⟨d, hd⟩ := matchRegex_some env t r q (env.Matches t.zones (env.Name r))
      (initData env) t.regex hre
    refine ⟨d, ?_⟩
    unfold template.match_
    simp only [hq, if_neg h1, if_neg c2, if_neg c3, hd]

/-- The CH TXT template, whose own fallthrough setting covers no name,
reports no match and fallthrough for an IN MX query. -/
theorem match_mismatch_falls_through_witness :
    exTemplateCH.match_ exEnv (exQuery "something.example." 15) =
      some (initData exEnv, false, true) ∧
    exTemplateCH.fall.Through "something.example." = false :=
  ⟨((match_mismatch_falls_through exEnv exTemplateCH (exQuery "something.example." 15)
      { Name := "something.example.", Qtype := 15, Qclass := 1 } [] rfl).1
      (Or.inr (Or.inl ⟨by decide, by decide, by decide⟩))).1,
    rfl⟩

end templateplugin
